import Mathlib

/-!
# lispmob: timer wheel, configuration validation and management API framing

A shallow embedding of parts of the lispmob control-plane daemon:

* `lispd/lib/timers.c`: the hashed timer wheel (`lmtimers_init`,
  `insert_timer`, `lmtimer_start`, `lmtimer_stop`, `handle_timers`);
* `lispd/lispd_config_functions.c`: `validate_priority_weight`,
  `clone_customize_locator`;
* `lispd/lispd_api.c`: `fill_lmapi_hdr`, `lmapi_hdr_push`,
  `lmapi_result_msg_new`.

The timer wheel is embedded at pointer level.  Every list node (the sentinel
of a spoke, or the `links` member of a timer record) has an address of type
`lmtimer_ref`; the `next` and `prev` members of all nodes are two maps from
addresses to optional addresses (`none` is the C `NULL`).  A C statement that
dereferences `NULL` makes the embedded function return a fault, together with
the state reached when the fault occurs.
-/

namespace Lispmob

/-! ## Timer wheel: data model (`timers.c`) -/

/-- Address of a `lmtimer_links_t` node: `spoke i` is `&timer_wheel.spokes[i]`,
`timer t` is the `links` member (first member) of the timer record `t`. -/
inductive lmtimer_ref where
  | spoke (i : Nat)
  | timer (t : Nat)
  deriving DecidableEq

/-- Ways in which the C code leaves defined behaviour, plus fuel exhaustion of
the embedded `while` loop. -/
inductive lmtimer_fault where
  | null_deref
  | bad_cast
  | div_by_zero
  | out_of_fuel
  deriving DecidableEq

/-- The global `timer_wheel` of `timers.c` together with the memory it points to.
`num_spokes`, `current_spoke`, `running_timers`, `expirations` are the fields of
`struct timer_wheel_`.  `next`/`prev` hold the `links.next`/`links.prev` member
of every node, `duration`/`rotation_count` the corresponding members of every
timer record (`lmtimer_t` is declared in `timers.h`, which is absent; these are
the members `timers.c` uses).  `fired` is the trace of callback invocations
(`(*callback)(tptr)`), oldest first. -/
structure timer_wheel_ where
  num_spokes : Nat
  current_spoke : Nat
  next : lmtimer_ref → Option lmtimer_ref
  prev : lmtimer_ref → Option lmtimer_ref
  duration : Nat → Int
  rotation_count : Nat → Nat
  running_timers : Int
  expirations : Int
  fired : List Nat

/-- The constant `WHEEL_SIZE` of `timers.c`. -/
def WHEEL_SIZE : Nat := 4096

/-- Conversion of an `int` to `uint32_t`. -/
def to_uint32 (x : Int) : Nat := (x % 4294967296).toNat

/-- Result of a call on the wheel: the state after the call, or a fault with the
state in which it occurred. -/
abbrev wheel_result := Except (lmtimer_fault × timer_wheel_) timer_wheel_

/-- The state a call ends in: the final state, or the state at the fault. -/
def reached (r : wheel_result) : timer_wheel_ :=
  match r with
  | Except.ok w => w
  | Except.error e => e.2

/-- A timer callback (`lmtimer_callback_t`), acting on the wheel and its memory. -/
abbrev lmtimer_callback_t := Nat → timer_wheel_ → wheel_result

/-- A callback that does not touch the wheel. -/
def cb_skip : lmtimer_callback_t := fun _ w => Except.ok w

/-- State after a successful `lmtimers_init` (lines 117-128): every spoke
sentinel points to itself, the counters are zero.  Timer records are as
`lmtimer_create` leaves them (zeroed, both links `NULL`). -/
def lmtimers_init : timer_wheel_ where
  num_spokes := WHEEL_SIZE
  current_spoke := 0
  next := fun r =>
    match r with
    | lmtimer_ref.spoke i => if i < WHEEL_SIZE then some (lmtimer_ref.spoke i) else none
    | lmtimer_ref.timer _ => none
  prev := fun r =>
    match r with
    | lmtimer_ref.spoke i => if i < WHEEL_SIZE then some (lmtimer_ref.spoke i) else none
    | lmtimer_ref.timer _ => none
  duration := fun _ => 0
  rotation_count := fun _ => 0
  running_timers := 0
  expirations := 0
  fired := []

/-- The function `insert_timer(tptr)`: computes the spoke and rotation count from
`tptr->duration` with `uint32_t` arithmetic and appends the timer at the end of
the spoke. -/
def insert_timer (t : Nat) (w : timer_wheel_) : wheel_result :=
  if w.num_spokes % 4294967296 = 0 then Except.error (lmtimer_fault.div_by_zero, w)
  else
    let ticks := to_uint32 (w.duration t)
    let td := ticks % (w.num_spokes % 4294967296)
    let rot := ticks / (w.num_spokes % 4294967296)
    let pos := ((w.current_spoke + td) % 4294967296) % (w.num_spokes % 4294967296)
    let spoke := lmtimer_ref.spoke pos
    match w.prev spoke with
    | none =>
      Except.error (lmtimer_fault.null_deref, { w with
        rotation_count := Function.update w.rotation_count t rot
        next := Function.update w.next (lmtimer_ref.timer t) (some spoke)
        prev := Function.update w.prev (lmtimer_ref.timer t) none })
    | some prev =>
      Except.ok { w with
        rotation_count := Function.update w.rotation_count t rot
        next := Function.update (Function.update w.next (lmtimer_ref.timer t) (some spoke))
                  prev (some (lmtimer_ref.timer t))
        prev := Function.update (Function.update w.prev (lmtimer_ref.timer t) (some prev))
                  spoke (some (lmtimer_ref.timer t)) }

/-- The function `lmtimer_start(tptr, sexpiry)`: unlinks the timer if it is running
(`links.next != NULL`), stores the duration, inserts the timer. -/
def lmtimer_start (t : Nat) (sexpiry : Int) (w : timer_wheel_) : wheel_result :=
  let unlinked : wheel_result :=
    match w.next (lmtimer_ref.timer t) with
    | some next =>
      match w.prev (lmtimer_ref.timer t) with
      | none =>
        Except.error (lmtimer_fault.null_deref,
          { w with prev := Function.update w.prev next none })
      | some prev =>
        Except.ok { w with
          prev := Function.update w.prev next (some prev)
          next := Function.update w.next prev (some next)
          running_timers := w.running_timers - 1 }
    | none => Except.ok w
  match unlinked with
  | Except.error e => Except.error e
  | Except.ok w1 =>
    match insert_timer t { w1 with duration := Function.update w1.duration t sexpiry } with
    | Except.error e => Except.error e
    | Except.ok w2 => Except.ok { w2 with running_timers := w2.running_timers + 1 }

/-- The statements of `lmtimer_stop(tptr)` that act on the wheel (lines 295-314): a
no-op on `NULL`; otherwise the timer is unlinked from its neighbours, both links
are cleared and `running_timers` is decremented if either link was set.  The
calls that end the function (`del_arg_fn` on the callback argument, `free` on
the record) release memory; they are added by `lmtimer_stop_free` below, which
keeps track of the released records. -/
def lmtimer_stop (tptr : Option Nat) (w : timer_wheel_) : timer_wheel_ :=
  match tptr with
  | none => w
  | some t =>
    let next := w.next (lmtimer_ref.timer t)
    let prev := w.prev (lmtimer_ref.timer t)
    let pv1 := match next with
      | some n => Function.update w.prev n prev
      | none => w.prev
    let nx1 := match prev with
      | some p => Function.update w.next p next
      | none => w.next
    { w with
      next := Function.update nx1 (lmtimer_ref.timer t) none
      prev := Function.update pv1 (lmtimer_ref.timer t) none
      running_timers :=
        if next ≠ none ∨ prev ≠ none then w.running_timers - 1 else w.running_timers }

/-- The timer wheel together with the timer records that have been released
with `free`. -/
structure timer_heap where
  wheel : timer_wheel_
  released : List Nat

/-- Access to a timer record after it has been released. -/
inductive heap_fault where
  | use_after_free
  deriving DecidableEq

/-- The whole function `lmtimer_stop(tptr)`, with the `free(tptr)` that ends it: a
no-op on `NULL`; on a record that has been released the first statement
(`next = tptr->links.next`) reads released memory, a fault; otherwise the
wheel changes as `lmtimer_stop` says and the record is released.  The call
`del_arg_fn(tptr->cb_argument)` releases the callback argument, which the wheel
does not look at. -/
def lmtimer_stop_free (tptr : Option Nat) (h : timer_heap) :
    Except (heap_fault × timer_heap) timer_heap :=
  match tptr with
  | none => Except.ok h
  | some t =>
    if t ∈ h.released then Except.error (heap_fault.use_after_free, h)
    else Except.ok { wheel := lmtimer_stop (some t) h.wheel, released := t :: h.released }

/-- The `while` loop of `handle_timers`.  `cur` is the index of the local
`current_spoke` pointer, `tptr` the loop cursor.  One unit of fuel is used per
evaluation of the loop condition. -/
def handle_timers_loop (cb : lmtimer_callback_t) (cur : Nat) :
    Nat → Option lmtimer_ref → timer_wheel_ → wheel_result
  | 0, _, w => Except.error (lmtimer_fault.out_of_fuel, w)
  | _ + 1, none, w => Except.error (lmtimer_fault.null_deref, w)
  | _ + 1, some (lmtimer_ref.spoke i), w =>
    if i = cur then Except.ok w else Except.error (lmtimer_fault.bad_cast, w)
  | fuel + 1, some (lmtimer_ref.timer t), w =>
    let next := w.next (lmtimer_ref.timer t)
    let prev := w.prev (lmtimer_ref.timer t)
    if 0 < w.rotation_count t then
      let w1 := { w with
        rotation_count := Function.update w.rotation_count t (w.rotation_count t - 1) }
      match prev with
      | none => Except.error (lmtimer_fault.null_deref, w1)
      | some p => handle_timers_loop cb cur fuel (w1.next p) w1
    else
      match prev with
      | none => Except.error (lmtimer_fault.null_deref, w)
      | some p =>
        match next with
        | none =>
          Except.error (lmtimer_fault.null_deref,
            { w with next := Function.update w.next p none })
        | some n =>
          let w1 := { w with
            next := Function.update (Function.update w.next p (some n)) (lmtimer_ref.timer t) none
            prev := Function.update (Function.update w.prev n (some p)) (lmtimer_ref.timer t) none
            running_timers := w.running_timers - 1
            expirations := w.expirations + 1
            fired := w.fired ++ [t] }
          match cb t w1 with
          | Except.error e => Except.error e
          | Except.ok w2 => handle_timers_loop cb cur fuel (w2.next p) w2

/-- The function `handle_timers()`: advances `current_spoke` and walks the list of the new
current spoke. -/
def handle_timers (cb : lmtimer_callback_t) (fuel : Nat) (w : timer_wheel_) : wheel_result :=
  if w.num_spokes = 0 then Except.error (lmtimer_fault.div_by_zero, w)
  else
    let w1 := { w with current_spoke := (w.current_spoke + 1) % w.num_spokes }
    handle_timers_loop cb w1.current_spoke fuel (w1.next (lmtimer_ref.spoke w1.current_spoke)) w1

/-- Consecutive calls of `handle_timers`: `n` ticks, each with the given fuel. -/
def handle_timers_n (cb : lmtimer_callback_t) (fuel : Nat) : Nat → timer_wheel_ → wheel_result
  | 0, w => Except.ok w
  | n + 1, w =>
    match handle_timers_n cb fuel n w with
    | Except.error e => Except.error e
    | Except.ok w1 => handle_timers cb fuel w1

/-! ## Timer wheel: representation invariant -/

open lmtimer_ref

/-- The nodes from `a` to `z` are doubly linked through the timers of `l`, in
list order: each node's `next` is its successor and each successor's `prev`
points back. -/
def dll_seg (nx pv : lmtimer_ref → Option lmtimer_ref) :
    lmtimer_ref → List Nat → lmtimer_ref → Prop
  | a, [], z => nx a = some z ∧ pv z = some a
  | a, t :: l, z => nx a = some (timer t) ∧ pv (timer t) = some a ∧ dll_seg nx pv (timer t) l z

/-- Last node of the segment that starts at `a` and runs through `l`. -/
def seg_last (a : lmtimer_ref) : List Nat → lmtimer_ref
  | [] => a
  | t :: l => seg_last (timer t) l

/-- First node after the start of a segment through `l` that ends at `z`. -/
def seg_first (l : List Nat) (z : lmtimer_ref) : lmtimer_ref :=
  match l with
  | [] => z
  | t :: _ => timer t

/-- Conditions on the abstract content of the wheel: `L i` lists the timers
linked on spoke `i`, first to last.  No timer occurs twice. -/
structure wheel_lists (L : Nat → List Nat) : Prop where
  out : ∀ i, WHEEL_SIZE ≤ i → L i = []
  nodup : ∀ i, (L i).Nodup
  disj : ∀ i j t, t ∈ L i → t ∈ L j → i = j

/-- Every spoke sentinel closes a doubly linked ring through its timers. -/
def wheel_segs (nx pv : lmtimer_ref → Option lmtimer_ref) (L : Nat → List Nat) : Prop :=
  ∀ i, i < WHEEL_SIZE → dll_seg nx pv (spoke i) (L i) (spoke i)

/-- Representation invariant of the timer wheel: the memory represents the
spoke contents `L`, and a timer that is on no spoke has both links `NULL`. -/
structure wheel_inv (w : timer_wheel_) (L : Nat → List Nat) : Prop where
  spokes : w.num_spokes = WHEEL_SIZE
  cur : w.current_spoke < WHEEL_SIZE
  lists : wheel_lists L
  segs : wheel_segs w.next w.prev L
  idle : ∀ t, (∀ i, t ∉ L i) → w.next (timer t) = none ∧ w.prev (timer t) = none


/-- Spoke contents after `k` ticks from current spoke `c`, when callbacks do not
touch the wheel: the spokes passed over are empty. -/
def clear_spokes (L : Nat → List Nat) (c : Nat) : Nat → Nat → List Nat
  | 0 => L
  | k + 1 => Function.update (clear_spokes L c k) ((c + k + 1) % WHEEL_SIZE) []

/-- Timers fired by `k` ticks from current spoke `c`, oldest first, when
callbacks do not touch the wheel. -/
def fired_by (L : Nat → List Nat) (c : Nat) : Nat → List Nat
  | 0 => []
  | k + 1 => fired_by L c k ++ clear_spokes L c k ((c + k + 1) % WHEEL_SIZE)

/-- Calls made on the wheel between and including ticks. -/
inductive wheel_op where
  | start (t : Nat) (sexpiry : Int)
  | stop (t : Nat)
  | tick
  deriving DecidableEq

/-- Runs a sequence of calls in order; every tick gets the given fuel. -/
def run_ops (cb : lmtimer_callback_t) (fuel : Nat) : List wheel_op → timer_wheel_ → wheel_result
  | [], w => Except.ok w
  | wheel_op.start t d :: ops, w =>
    match lmtimer_start t d w with
    | Except.error e => Except.error e
    | Except.ok w1 => run_ops cb fuel ops w1
  | wheel_op.stop t :: ops, w => run_ops cb fuel ops (lmtimer_stop (some t) w)
  | wheel_op.tick :: ops, w =>
    match handle_timers cb fuel w with
    | Except.error e => Except.error e
    | Except.ok w1 => run_ops cb fuel ops w1

/-- Consecutive calls of `lmtimer_start`, in list order. -/
def lmtimer_start_all : List (Nat × Int) → timer_wheel_ → wheel_result
  | [], w => Except.ok w
  | (t, d) :: rest, w =>
    match lmtimer_start t d w with
    | Except.error e => Except.error e
    | Except.ok w1 => lmtimer_start_all rest w1

/-- Spoke index computed by `insert_timer` for a duration, from current spoke `c`. -/
def insert_pos (c : Nat) (d : Int) : Nat := (c + to_uint32 d % WHEEL_SIZE) % WHEEL_SIZE

/-- Rotation count computed by `insert_timer` for a duration. -/
def insert_rot (d : Int) : Nat := to_uint32 d / WHEEL_SIZE


/-- Number of the tick (counted from the start of the timer) in which the wheel
first reaches the spoke `insert_timer` chooses for a duration: the residue of
the duration modulo the wheel size, or a full turn when the residue is zero. -/
def first_visit (d : Int) : Nat := (to_uint32 d + (WHEEL_SIZE - 1)) % WHEEL_SIZE + 1

/-- The freshly initialised wheel after `lmtimer_start(0, 1)`. -/
def wheel_one_timer : timer_wheel_ := reached (lmtimer_start 0 1 lmtimers_init)

/-- Calls on the wheel that a timer callback may make. -/
inductive timer_call where
  | start (t : Nat) (sexpiry : Int)
  | stop (t : Nat)
  deriving DecidableEq

/-- Runs the calls of a callback in order. -/
def run_calls : List timer_call → timer_wheel_ → wheel_result
  | [], w => Except.ok w
  | timer_call.start t d :: cs, w =>
    match lmtimer_start t d w with
    | Except.error e => Except.error e
    | Except.ok w1 => run_calls cs w1
  | timer_call.stop t :: cs, w => run_calls cs (lmtimer_stop (some t) w)

/-- The callback that, when timer `t` fires in state `w`, makes the calls
`f t w`. -/
def cb_calls (f : Nat → timer_wheel_ → List timer_call) : lmtimer_callback_t :=
  fun t w => run_calls (f t w) w

/-- Timer `t` is on no spoke of the well-formed wheel `w`, and has not been
fired since the trace was `tr`. -/
def timer_idle (t : Nat) (tr : List Nat) (w : timer_wheel_) : Prop :=
  ∃ L extra, wheel_inv w L ∧ (∀ j, t ∉ L j) ∧ w.fired = tr ++ extra ∧ t ∉ extra

/-- Total number of timers on the spokes of the wheel with contents `L`. -/
def linked_total (L : Nat → List Nat) : Nat :=
  Finset.sum (Finset.range WHEEL_SIZE) (fun j => (L j).length)

/-- The counters agree with the wheel: `running_timers` is the number of timers
linked on the spokes and `expirations` the number of callbacks invoked so far
(the length of the trace). -/
def wheel_counted (w : timer_wheel_) : Prop :=
  ∃ L, wheel_inv w L ∧ w.running_timers = (linked_total L : Int) ∧
    w.expirations = (w.fired.length : Int)

/-- Timer `t` alone on the current spoke `c`, with at most one rotation left. -/
def alone_on_current (c t : Nat) (w : timer_wheel_) : Prop :=
  w.num_spokes = WHEEL_SIZE ∧ w.current_spoke = c ∧ c < WHEEL_SIZE ∧
    w.next (spoke c) = some (timer t) ∧ w.next (timer t) = some (spoke c) ∧
    w.prev (timer t) = some (spoke c) ∧ w.prev (spoke c) = some (timer t) ∧
    w.rotation_count t ≤ 1

/-! ## Configuration helpers (`lispd_config_functions.c`) -/

/-- Modelled from the spec: the C-style return codes `GOOD` and `BAD` (macros of
`defs.h`, absent here); only their being different is used. -/
inductive lisp_ret where
  | GOOD
  | BAD
  deriving DecidableEq

/-- Modelled from the spec: `MAX_PRIORITY` (declared in `defs.h`, absent here) is
the lower end 0 of the priority range 0..255. -/
def MAX_PRIORITY : Int := 0

/-- Modelled from the spec: `UNUSED_RLOC_PRIORITY` (declared in `defs.h`, absent
here) is the upper end 255 of the priority range ("treat 255 as unused"). -/
def UNUSED_RLOC_PRIORITY : Int := 255

/-- Modelled from the spec: `MIN_WEIGHT` (declared in `defs.h`, absent here) is
the lower end 0 of the weight range 0..255. -/
def MIN_WEIGHT : Int := 0

/-- Modelled from the spec: `MAX_WEIGHT` (declared in `defs.h`, absent here) is
the upper end 255 of the weight range 0..255. -/
def MAX_WEIGHT : Int := 255

/-- The function `validate_priority_weight(p, w)`. -/
def validate_priority_weight (p w : Int) : lisp_ret :=
  if p < (MAX_PRIORITY - 1) ∨ p > UNUSED_RLOC_PRIORITY then lisp_ret.BAD
  else if w > MAX_WEIGHT ∨ w < MIN_WEIGHT then lisp_ret.BAD
  else lisp_ret.GOOD

/-- Conversion of an integer to `uint8_t`. -/
def to_uint8 (x : Int) : Nat := (x % 256).toNat

/-- Address families of the socket API (`AF_UNSPEC`, `AF_INET`, `AF_INET6`). -/
def AF_UNSPEC : Int := 0

/-- Address family of IPv4. -/
def AF_INET : Int := 2

/-- Address family of IPv6. -/
def AF_INET6 : Int := 10

/-- The enumeration `lm_afi_t` of `lisp_address.h`. -/
inductive lm_afi_t where
  | LM_AFI_NO_ADDR
  | LM_AFI_IP
  | LM_AFI_IPPREF
  | LM_AFI_LCAF
  deriving DecidableEq

/-- Modelled from the spec: an IP address with its family (`ip_addr_t` of
`lisp_ip.h`, absent here). -/
structure ip_addr_t where
  afi : Int
  addr : Nat
  deriving DecidableEq

/-- Modelled from the spec: an LCAF address (`lcaf_addr_t` of `lisp_lcaf.h`,
absent here), reduced to its type and the leaf IP address that traversal
helpers extract from it, if there is one. -/
structure lcaf_addr_t where
  type : Nat
  leaf : Option ip_addr_t
  deriving DecidableEq

/-- The type `lisp_addr_t` of `lisp_address.h`: the `lafi` tag with the member of the
union it selects. -/
inductive lisp_addr_t where
  | no_addr
  | ip (a : ip_addr_t)
  | ippref (a : ip_addr_t) (plen : Nat)
  | lcaf (l : lcaf_addr_t)
  deriving DecidableEq

/-- The accessor `lisp_addr_lafi(addr)`. -/
def lisp_addr_lafi : lisp_addr_t → lm_afi_t
  | lisp_addr_t.no_addr => lm_afi_t.LM_AFI_NO_ADDR
  | lisp_addr_t.ip _ => lm_afi_t.LM_AFI_IP
  | lisp_addr_t.ippref _ _ => lm_afi_t.LM_AFI_IPPREF
  | lisp_addr_t.lcaf _ => lm_afi_t.LM_AFI_LCAF

/-- The test `lisp_addr_is_no_addr(addr)`. -/
def lisp_addr_is_no_addr (addr : lisp_addr_t) : Bool :=
  decide (lisp_addr_lafi addr = lm_afi_t.LM_AFI_NO_ADDR)

/-- The test `lisp_addr_is_lcaf(addr)`. -/
def lisp_addr_is_lcaf (addr : lisp_addr_t) : Bool :=
  decide (lisp_addr_lafi addr = lm_afi_t.LM_AFI_LCAF)

/-- Modelled from the spec: `lisp_addr_ip_afi` (declared in `lisp_address.h`,
body absent): the family of the IP address held by a host or prefix address. -/
def lisp_addr_ip_afi : lisp_addr_t → Int
  | lisp_addr_t.ip a => a.afi
  | lisp_addr_t.ippref a _ => a.afi
  | _ => AF_UNSPEC

/-- Modelled from the spec: `lcaf_get_ip_addr` (body absent): the leaf IP
address of an LCAF, or `NULL`. -/
def lcaf_get_ip_addr (l : lcaf_addr_t) : Option lisp_addr_t :=
  l.leaf.map lisp_addr_t.ip

/-- Modelled from the spec: the locator types `{Local, Remote, Petr}`
(`lispd_locator.h` is absent). -/
inductive locator_type where
  | LOCAL_LOCATOR
  | REMOTE_LOCATOR
  | PETR_LOCATOR
  deriving DecidableEq

/-- Modelled from the spec: the device roles (`lisp_dev_type_e` of
`lisp_ctrl_device.h`, absent here). -/
inductive lisp_dev_type_e where
  | xTR_MODE
  | MS_MODE
  | RTR_MODE
  | MN_MODE
  deriving DecidableEq

/-- A pointer to one of the two egress sockets of an interface
(`&(iface->out_socket_v4)`, `&(iface->out_socket_v6)`); interfaces are
identified by name. -/
inductive socket_ref where
  | out_socket_v4 (iface : String)
  | out_socket_v6 (iface : String)
  deriving DecidableEq

/-- Modelled from the spec: a locator (`locator_t` of `lispd_locator.h`, absent
here): address, state, priority, weight, multicast priority and weight, type,
and the egress socket of a local locator. -/
structure locator_t where
  addr : lisp_addr_t
  state : Nat
  priority : Nat
  weight : Nat
  mpriority : Nat
  mweight : Nat
  type : locator_type
  out_socket : Option socket_ref
  deriving DecidableEq

/-- Modelled from the spec: the locator state Up (macro `UP` of `defs.h`, absent
here). -/
def UP : Nat := 1

/-- Modelled from the spec: `locator_init_local_full` (body absent) builds a
local locator from its arguments. -/
def locator_init_local_full (addr : lisp_addr_t) (state priority weight mpriority mweight : Nat)
    (out_socket : socket_ref) : locator_t :=
  { addr := addr, state := state, priority := priority, weight := weight,
    mpriority := mpriority, mweight := mweight, type := locator_type.LOCAL_LOCATOR,
    out_socket := some out_socket }

/-- Modelled from the spec: `locator_init_remote_full` (body absent) builds a
remote locator from its arguments; it carries no socket. -/
def locator_init_remote_full (addr : lisp_addr_t) (state priority weight mpriority mweight : Nat) :
    Option locator_t :=
  some { addr := addr, state := state, priority := priority, weight := weight,
         mpriority := mpriority, mweight := mweight, type := locator_type.REMOTE_LOCATOR,
         out_socket := none }

/-- Modelled from the spec: an interface (`iface_t` of `iface_list.h`, absent
here), with the fields that `clone_customize_locator` and
`link_iface_and_mapping` read. -/
structure iface_t where
  iface_name : String
  status : Nat
  ipv4_address : lisp_addr_t := lisp_addr_t.no_addr
  ipv6_address : lisp_addr_t := lisp_addr_t.no_addr
  deriving DecidableEq

/-- Modelled from the spec: the interface-change index entry (`iface_locators`):
the interface name with its mappings and its lists of local locators. -/
structure iface_locators where
  iface_name : String
  mappings : List Nat
  ipv4_locators : List locator_t
  ipv6_locators : List locator_t
  deriving DecidableEq

/-- Modelled from the spec: `iface_locators_new(iface_name)` (body absent), an
entry with empty lists. -/
def iface_locators_new (iface_name : String) : iface_locators :=
  { iface_name := iface_name, mappings := [], ipv4_locators := [], ipv6_locators := [] }

/-- Modelled from the spec: `glist_add` (body absent) records an element in a
list; the position is not specified by the callers, the head is used here. -/
def glist_add {α : Type} (data : α) (list : List α) : List α := data :: list

/-- The string-keyed table `shash_t` of `shash.h`, as a finite map. -/
abbrev shash_t := String → Option iface_locators

/-- The record `no_addr_loct`: a locator (by address) without address yet, with the
interface and family it belongs to. -/
structure no_addr_loct where
  locator : Nat
  iface_name : String
  afi : Int
  deriving DecidableEq

/-- The function `get_no_addr_loct_from_list(list, locator)`: first entry whose locator
pointer equals `locator`. -/
def get_no_addr_loct_from_list : List no_addr_loct → Nat → Option no_addr_loct
  | [], _ => none
  | nloct :: rest, locator =>
    if nloct.locator = locator then some nloct else get_no_addr_loct_from_list rest locator

/-- The interface helpers called by `clone_customize_locator` whose bodies are
absent; a `char *` argument that may be `NULL` is an `Option String`. -/
structure iface_env where
  get_interface_name_from_address : lisp_addr_t → Option String
  get_interface : Option String → Option iface_t
  add_interface : Option String → Option iface_t

/-- The function `clone_customize_locator(dev, locator, no_addr_loct_l, type)`.  `mode` is
`dev->mode`, `table` the `iface_locators_table` of the global `ctrl_dev`,
`locator_ptr` the address of `locator`.  The result is `none` when a `NULL`
string reaches the table; otherwise the returned locator (or `NULL`) with the
table afterwards. -/
def clone_customize_locator (env : iface_env) (mode : lisp_dev_type_e) (table : shash_t)
    (locator_ptr : Nat) (locator : locator_t) (no_addr_loct_l : List no_addr_loct)
    (type : locator_type) : Option (Option locator_t × shash_t) :=
  let rloc := locator.addr
  if type = locator_type.LOCAL_LOCATOR then
    -- (aux_rloc found?, iface_name, rloc_ip_afi), or an early `return NULL`
    let chosen : Option (Option String × Int) :=
      if lisp_addr_is_lcaf rloc = true then
        match rloc with
        | lisp_addr_t.lcaf l =>
          match lcaf_get_ip_addr l with
          | none => none
          | some _ => some (none, AF_UNSPEC)
        | _ => none
      else if lisp_addr_is_no_addr rloc = true then
        match get_no_addr_loct_from_list no_addr_loct_l locator_ptr with
        | none => none
        | some nloct => some (some nloct.iface_name, nloct.afi)
      else
        match env.get_interface_name_from_address rloc with
        | none => none
        | some name => some (some name, lisp_addr_ip_afi rloc)
    match chosen with
    | none => some (none, table)
    | some (iface_name, rloc_ip_afi) =>
      let found : Option iface_t :=
        match env.get_interface iface_name with
        | some iface => some iface
        | none => env.add_interface iface_name
      match found with
      | none => some (none, table)
      | some iface =>
        let out_socket :=
          if rloc_ip_afi = AF_INET then socket_ref.out_socket_v4 iface.iface_name
          else socket_ref.out_socket_v6 iface.iface_name
        let new_locator := locator_init_local_full rloc iface.status locator.priority
          locator.weight 255 0 out_socket
        if mode = lisp_dev_type_e.xTR_MODE ∨ mode = lisp_dev_type_e.MN_MODE then
          match iface_name with
          | none => none
          | some name =>
            let if_loct :=
              match table name with
              | some e => e
              | none => iface_locators_new name
            let if_loct2 :=
              if rloc_ip_afi = AF_INET then
                { if_loct with ipv4_locators := glist_add new_locator if_loct.ipv4_locators }
              else
                { if_loct with ipv6_locators := glist_add new_locator if_loct.ipv6_locators }
            some (some new_locator, Function.update table name (some if_loct2))
        else some (some new_locator, table)
  else
    match locator_init_remote_full rloc UP locator.priority locator.weight 255 0 with
    | none => some (none, table)
    | some new_locator => some (some { new_locator with type := type }, table)

/-- The family the claim speaks of: the family of the locator's IP address, of
the leaf IP address of an LCAF, or the one recorded for a locator without
address. -/
def locator_leaf_afi (locator_ptr : Nat) (locator : locator_t)
    (no_addr_loct_l : List no_addr_loct) : Option Int :=
  match locator.addr with
  | lisp_addr_t.no_addr =>
    (get_no_addr_loct_from_list no_addr_loct_l locator_ptr).map (fun n => n.afi)
  | lisp_addr_t.ip a => some a.afi
  | lisp_addr_t.ippref a _ => some a.afi
  | lisp_addr_t.lcaf l => l.leaf.map (fun a => a.afi)

/-- An environment with one interface `eth0`, known to `get_interface`, to which
every address belongs. -/
def iface_env_eth0 : iface_env where
  get_interface_name_from_address := fun _ => some "eth0"
  get_interface := fun n => n.map (fun s => { iface_name := s, status := UP })
  add_interface := fun _ => none

/-- A locator with the plain IPv4 address 10.0.0.1, priority 1, weight 100. -/
def locator_ipv4 : locator_t :=
  { addr := lisp_addr_t.ip { afi := AF_INET, addr := 167772161 }, state := UP, priority := 1,
    weight := 100, mpriority := 255, mweight := 0, type := locator_type.LOCAL_LOCATOR,
    out_socket := none }

/-- The local locator built for `locator_ipv4` on `eth0`. -/
def locator_ipv4_cloned : locator_t :=
  locator_init_local_full locator_ipv4.addr UP 1 100 255 0 (socket_ref.out_socket_v4 "eth0")

/-- The table with the single entry `eth0`, which lists `locator_ipv4_cloned`. -/
def table_eth0 : shash_t :=
  Function.update (fun _ => none) "eth0"
    (some { iface_locators_new "eth0" with ipv4_locators := [locator_ipv4_cloned] })

/-! ### RLOC-probing parameters -/

/-- The function `validate_rloc_probing_parameters(&interval, &retries, &retries_int)`: the three
values after the call.  The constants `LISPD_MAX_RETRANSMITS` and
`LISPD_MIN_RETRANSMIT_INTERVAL` (`defs.h`, absent here) are parameters. -/
def validate_rloc_probing_parameters (LISPD_MAX_RETRANSMITS LISPD_MIN_RETRANSMIT_INTERVAL : Int)
    (interval retries retries_int : Int) : Int × Int × Int :=
  let interval1 := if interval < 0 then 0 else interval
  if interval1 ≠ 0 then
    let retries1 :=
      if retries > LISPD_MAX_RETRANSMITS then LISPD_MAX_RETRANSMITS
      else if retries < 0 then 0
      else retries
    if retries1 > 0 then
      let retries_int1 :=
        if retries_int < LISPD_MIN_RETRANSMIT_INTERVAL then LISPD_MIN_RETRANSMIT_INTERVAL
        else if retries_int > interval1 then interval1
        else retries_int
      (interval1, retries1, retries_int1)
    else (interval1, retries1, retries_int)
  else (interval1, retries, retries_int)

/-! ### Address parsing and the server lists -/

/-- The address parsers and the resolver called by the parsing functions (bodies
absent): each parser gives the address it read, or fails; `getaddrinfo` gives
the resolved socket addresses (family and address bits), or fails. -/
structure addr_env where
  lisp_addr_ip_from_char : String → Option lisp_addr_t
  lisp_addr_ippref_from_char : String → Option lisp_addr_t
  getaddrinfo : String → Int → Option (List (Int × Nat))

/-- The function `fqdn_to_addresses(addr_str, preferred_afi)`: `NULL` when resolution fails,
otherwise one address per resolved socket address. -/
def fqdn_to_addresses (env : addr_env) (addr_str : String) (preferred_afi : Int) :
    Option (List lisp_addr_t) :=
  match env.getaddrinfo addr_str preferred_afi with
  | none => none
  | some servinfo =>
    some (servinfo.foldl
      (fun addr_list p =>
        -- `lisp_addr_new_lafi(LM_AFI_IP)`, then `ip_addr_init` for the two IP families
        let addr :=
          if p.1 = AF_INET ∨ p.1 = AF_INET6 then lisp_addr_t.ip { afi := p.1, addr := p.2 }
          else lisp_addr_t.ip { afi := AF_UNSPEC, addr := 0 }
        glist_add addr addr_list)
      [])

/-- The function `parse_ip_addr(addr_str)`, with the global `default_rloc_afi`. -/
def parse_ip_addr (env : addr_env) (default_rloc_afi : Int) (addr_str : String) :
    Option (List lisp_addr_t) :=
  match env.lisp_addr_ip_from_char addr_str with
  | some addr => some (glist_add addr [])
  | none => fqdn_to_addresses env addr_str default_rloc_afi

/-- The calls by which `parse_lisp_addr` looks for an address. -/
inductive parse_call where
  | lisp_addr_ip_from_char (s : String)
  | lisp_addr_ippref_from_char (s : String)
  | htable_lookup (s : String)
  | fqdn_to_addresses (s : String) (preferred_afi : Int)
  deriving DecidableEq

/-- The function `parse_lisp_addr(addr_str, lcaf_ht)`, with the global `default_rloc_afi`: the
calls it makes, in order, and the list it returns. -/
def parse_lisp_addr (env : addr_env) (default_rloc_afi : Int) (addr_str : String)
    (lcaf_ht : String → Option lisp_addr_t) : List parse_call × Option (List lisp_addr_t) :=
  let first : parse_call × Option lisp_addr_t :=
    if '/' ∉ addr_str.toList then
      (parse_call.lisp_addr_ip_from_char addr_str, env.lisp_addr_ip_from_char addr_str)
    else
      (parse_call.lisp_addr_ippref_from_char addr_str, env.lisp_addr_ippref_from_char addr_str)
  let second : List parse_call × Option lisp_addr_t :=
    match first.2 with
    | some addr => ([first.1], some addr)
    | none => ([first.1, parse_call.htable_lookup addr_str], lcaf_ht addr_str)
  match second.2 with
  | some addr => (second.1, some (glist_add addr []))
  | none =>
    (second.1 ++ [parse_call.fqdn_to_addresses addr_str default_rloc_afi],
      fqdn_to_addresses env addr_str default_rloc_afi)

/-- Modelled from the spec: `glist_add_tail` (body absent) appends an element at
the tail of a list. -/
def glist_add_tail {α : Type} (data : α) (list : List α) : List α := list ++ [data]

/-- The function `add_server(str_addr, list)`, with the global `default_rloc_afi`: the returned
code and the list afterwards. -/
def add_server (env : addr_env) (default_rloc_afi : Int) (str_addr : String)
    (list : List lisp_addr_t) : lisp_ret × List lisp_addr_t :=
  match parse_ip_addr env default_rloc_afi str_addr with
  | none => (lisp_ret.BAD, list)
  | some addr_list =>
    (lisp_ret.GOOD,
      addr_list.foldl
        (fun list addr =>
          if default_rloc_afi ≠ AF_UNSPEC ∧ default_rloc_afi ≠ lisp_addr_ip_afi addr then list
          else glist_add_tail addr list)
        list)

/-- The record `map_server_elt`: address, key type, key and proxy-reply flag of a
Map-Server. -/
structure map_server_elt where
  address : lisp_addr_t
  key_type : Int
  key : String
  proxy_reply : Nat
  deriving DecidableEq

/-- The constant `HMAC_SHA_1_96` (declared in a header absent here); the log message of
`add_map_server` gives its value: "Only SHA-1 (1) authentication is
supported". -/
def HMAC_SHA_1_96 : Int := 1

/-- Modelled from the spec: a mapping (`mapping_t` of `lispd_mapping.h`, absent
here): the address of the object, its EID prefix and its locators. -/
structure mapping_t where
  ptr : Nat
  eid : lisp_addr_t
  locators : List locator_t
  deriving DecidableEq

/-- Modelled from the spec: `mapping_init_local(eid)` (body absent), a new mapping
for the EID, without locators, allocated at `ptr`. -/
def mapping_init_local (ptr : Nat) (eid : lisp_addr_t) : mapping_t :=
  { ptr := ptr, eid := eid, locators := [] }

/-- Modelled from the spec: `mapping_add_locator(m, locator)` (body absent) adds the locator to
the locators of the mapping and returns `GOOD`, or refuses it and leaves the
mapping as it is; `accept` says which. -/
def mapping_add_locator (accept : mapping_t → locator_t → Bool) (m : mapping_t)
    (locator : locator_t) : lisp_ret × mapping_t :=
  if accept m locator = true then (lisp_ret.GOOD, { m with locators := m.locators ++ [locator] })
  else (lisp_ret.BAD, m)

/-- The fields of `lisp_xtr_t` that the configuration functions use: the
Map-Servers, the mapping of the proxy-ETRs (`petrs->mapping`), the mapping of
all locators (or `NULL`), and the index of locators by interface. -/
structure lisp_xtr_t where
  map_servers : List map_server_elt
  petrs_mapping : mapping_t
  all_locs_map : Option mapping_t
  iface_locators_table : shash_t

/-- Outcome of a function that may end the process: `exit_cleanup` with the state
in which `exit_cleanup()` is called (modelled from the spec: the daemon does
not start, the call does not return), or the returned value. -/
inductive may_exit (α : Type) where
  | exit_cleanup (xtr : lisp_xtr_t)
  | returned (a : α)

/-- The function `add_map_server(xtr, str_addr, key_type, key, proxy_reply)`, with the global
`default_rloc_afi`. -/
def add_map_server (env : addr_env) (default_rloc_afi : Int) (xtr : lisp_xtr_t)
    (str_addr : Option String) (key_type : Int) (key : Option String) (proxy_reply : Nat) :
    may_exit (lisp_ret × lisp_xtr_t) :=
  if str_addr = none ∨ key_type = 0 ∨ key = none then may_exit.exit_cleanup xtr
  else if key_type ≠ HMAC_SHA_1_96 then may_exit.exit_cleanup xtr
  else
    match str_addr, key with
    | some s, some k =>
      match parse_ip_addr env default_rloc_afi s with
      | none => may_exit.returned (lisp_ret.BAD, xtr)
      | some addr_list =>
        may_exit.returned (lisp_ret.GOOD,
          { xtr with
            map_servers :=
              addr_list.foldl
                (fun map_servers addr =>
                  if default_rloc_afi ≠ AF_UNSPEC ∧ default_rloc_afi ≠ lisp_addr_ip_afi addr then
                    map_servers
                  else
                    glist_add
                      { address := addr, key_type := key_type, key := k,
                        proxy_reply := proxy_reply }
                      map_servers)
                xtr.map_servers })
    | _, _ => may_exit.exit_cleanup xtr

/-- The function `add_proxy_etr_entry(xtr, str_addr, priority, weight)`, with the global
`default_rloc_afi`; the `int` priority and weight are converted to the 8-bit
fields of the locator. -/
def add_proxy_etr_entry (env : addr_env) (accept : mapping_t → locator_t → Bool)
    (default_rloc_afi : Int) (xtr : lisp_xtr_t) (str_addr : Option String)
    (priority weight : Int) : lisp_ret × lisp_xtr_t :=
  match str_addr with
  | none => (lisp_ret.BAD, xtr)
  | some s =>
    if validate_priority_weight priority weight ≠ lisp_ret.GOOD then (lisp_ret.BAD, xtr)
    else
      match parse_ip_addr env default_rloc_afi s with
      | none => (lisp_ret.BAD, xtr)
      | some addr_list =>
        (lisp_ret.GOOD,
          { xtr with
            petrs_mapping :=
              addr_list.foldl
                (fun m addr =>
                  if default_rloc_afi ≠ AF_UNSPEC ∧ default_rloc_afi ≠ lisp_addr_ip_afi addr then m
                  else
                    match locator_init_remote_full addr UP (to_uint8 priority) (to_uint8 weight)
                        255 0 with
                    | none => m
                    | some locator => (mapping_add_locator accept m locator).2)
                xtr.petrs_mapping })

/-! ### Interfaces and the mapping of all locators -/

/-- Modelled from the spec: `glist_contain(data, list)` (body absent) tells whether the list
holds the pointer. -/
def glist_contain (data : Nat) (list : List Nat) : Bool := list.contains data

/-- What a call of `link_iface_and_mapping` leaves: the returned code, the index
entry and the mapping afterwards, and the locators it created, in order. -/
structure link_result where
  ret : lisp_ret
  if_loct : iface_locators
  m : mapping_t
  created : List locator_t
  deriving DecidableEq

/-- The function `link_iface_and_mapping(iface, if_loct, m, p4, w4, p6, w6)`, with the global
`default_rloc_afi`; the `int` priorities and weights are converted to the 8-bit
fields of the locator. -/
def link_iface_and_mapping (accept : mapping_t → locator_t → Bool) (default_rloc_afi : Int)
    (iface : iface_t) (if_loct : iface_locators) (m : mapping_t) (p4 w4 p6 w6 : Int) :
    link_result :=
  let if_loct0 :=
    if glist_contain m.ptr if_loct.mappings = false then
      { if_loct with mappings := glist_add m.ptr if_loct.mappings }
    else if_loct
  -- the state after the IPv4 block; `ret = BAD` when the function returns in it
  let v4 : link_result :=
    if p4 ≥ 0 ∧ default_rloc_afi ≠ AF_INET6 then
      let locator := locator_init_local_full iface.ipv4_address iface.status (to_uint8 p4)
        (to_uint8 w4) 255 0 (socket_ref.out_socket_v4 iface.iface_name)
      let added := mapping_add_locator accept m locator
      if added.1 ≠ lisp_ret.GOOD then
        { ret := lisp_ret.BAD, if_loct := if_loct0, m := added.2, created := [locator] }
      else
        { ret := lisp_ret.GOOD,
          if_loct := { if_loct0 with ipv4_locators := glist_add locator if_loct0.ipv4_locators },
          m := added.2, created := [locator] }
    else { ret := lisp_ret.GOOD, if_loct := if_loct0, m := m, created := [] }
  if v4.ret ≠ lisp_ret.GOOD then v4
  else if p6 ≥ 0 ∧ default_rloc_afi ≠ AF_INET then
    let locator := locator_init_local_full iface.ipv6_address iface.status (to_uint8 p6)
      (to_uint8 w6) 255 0 (socket_ref.out_socket_v6 iface.iface_name)
    let added := mapping_add_locator accept v4.m locator
    if added.1 ≠ lisp_ret.GOOD then
      { ret := lisp_ret.BAD, if_loct := v4.if_loct, m := added.2,
        created := v4.created ++ [locator] }
    else
      { ret := lisp_ret.GOOD,
        if_loct := { v4.if_loct with
                     ipv6_locators := glist_add locator v4.if_loct.ipv6_locators },
        m := added.2, created := v4.created ++ [locator] }
  else v4

/-- What a call of `add_rtr_iface` leaves: the returned code, the state of the
xTR afterwards, and the locators it created. -/
structure rtr_iface_result where
  ret : lisp_ret
  xtr : lisp_xtr_t
  created : List locator_t

/-- The function `add_rtr_iface(xtr, iface_name, p, w)`, with the global `default_rloc_afi`;
`fresh` is the address at which a new mapping is allocated.  The local
`aux_address` is not initialised; it is modelled as "no address" when the
parser fails on the literal. -/
def add_rtr_iface (env : iface_env) (aenv : addr_env) (accept : mapping_t → locator_t → Bool)
    (default_rloc_afi : Int) (fresh : Nat) (xtr : lisp_xtr_t) (iface_name : Option String)
    (p w : Int) : rtr_iface_result :=
  match iface_name with
  | none => { ret := lisp_ret.BAD, xtr := xtr, created := [] }
  | some name =>
    if validate_priority_weight p w ≠ lisp_ret.GOOD then
      { ret := lisp_ret.BAD, xtr := xtr, created := [] }
    else
      let found : Option iface_t :=
        match env.get_interface (some name) with
        | some iface => some iface
        | none => env.add_interface (some name)
      match found with
      | none => { ret := lisp_ret.BAD, xtr := xtr, created := [] }
      | some iface =>
        let if_loct :=
          match xtr.iface_locators_table name with
          | some e => e
          | none => iface_locators_new name
        let all_locs_map :=
          match xtr.all_locs_map with
          | some m => m
          | none =>
            let aux_address := (aenv.lisp_addr_ip_from_char "0.0.0.0").getD lisp_addr_t.no_addr
            mapping_init_local fresh aux_address
        let linked := link_iface_and_mapping accept default_rloc_afi iface if_loct all_locs_map
          p w p w
        { ret := linked.ret,
          xtr := { xtr with
                   all_locs_map := some linked.m
                   iface_locators_table :=
                     Function.update xtr.iface_locators_table name (some linked.if_loct) },
          created := linked.created }

/-- The wildcard address 0.0.0.0. -/
def addr_0_0_0_0 : lisp_addr_t := lisp_addr_t.ip { afi := AF_INET, addr := 0 }

/-- An environment whose host parser reads dotted IPv4 literals of the examples,
whose prefix parser and resolver always fail. -/
def addr_env_demo : addr_env where
  lisp_addr_ip_from_char := fun s =>
    if s = "0.0.0.0" then some addr_0_0_0_0
    else if s = "10.0.0.1" then some (lisp_addr_t.ip { afi := AF_INET, addr := 167772161 })
    else none
  lisp_addr_ippref_from_char := fun _ => none
  getaddrinfo := fun _ _ => none

/-- An xTR state with nothing configured. -/
def xtr_empty : lisp_xtr_t :=
  { map_servers := [], petrs_mapping := mapping_init_local 1 lisp_addr_t.no_addr,
    all_locs_map := none, iface_locators_table := fun _ => none }

/-- An environment with one interface `eth0` that has the IPv4 address 10.0.0.1
and the IPv6 address 1. -/
def iface_env_eth0_addrs : iface_env where
  get_interface_name_from_address := fun _ => some "eth0"
  get_interface := fun n =>
    n.map (fun s =>
      { iface_name := s, status := UP,
        ipv4_address := lisp_addr_t.ip { afi := AF_INET, addr := 167772161 },
        ipv6_address := lisp_addr_t.ip { afi := AF_INET6, addr := 1 } })
  add_interface := fun _ => none

/-- The locator that `link_iface_and_mapping` builds for the IPv4 address of an
interface. -/
def iface_locator_v4 (iface : iface_t) (p4 w4 : Int) : locator_t :=
  locator_init_local_full iface.ipv4_address iface.status (to_uint8 p4) (to_uint8 w4) 255 0
    (socket_ref.out_socket_v4 iface.iface_name)

/-- The locator that `link_iface_and_mapping` builds for the IPv6 address of an
interface. -/
def iface_locator_v6 (iface : iface_t) (p6 w6 : Int) : locator_t :=
  locator_init_local_full iface.ipv6_address iface.status (to_uint8 p6) (to_uint8 w6) 255 0
    (socket_ref.out_socket_v6 iface.iface_name)

/-- The interface `eth0` of `iface_env_eth0_addrs`. -/
def iface_eth0 : iface_t :=
  { iface_name := "eth0", status := UP,
    ipv4_address := lisp_addr_t.ip { afi := AF_INET, addr := 167772161 },
    ipv6_address := lisp_addr_t.ip { afi := AF_INET6, addr := 1 } }

/-! ### Site prefixes of a Map-Server -/

/-- Modelled from the spec: a site prefix (`lisp_site_prefix_t`, declaration absent
here): EID prefix, instance ID, key type, key and the three flags. -/
structure lisp_site_prefix_t where
  eid_prefix : lisp_addr_t
  iid : Nat
  key_type : Int
  key : Option String
  accept_more_specifics : Nat
  proxy_reply : Nat
  merge : Nat
  deriving DecidableEq

/-- Modelled from the spec: `lisp_site_prefix_init` (body absent) builds the site
prefix from its arguments. -/
def lisp_site_prefix_init ( eid_prefix : lisp_addr_t) (iid : Nat) (key_type : Int)
    (key : Option String) (more_specifics proxy_reply merge : Nat) : lisp_site_prefix_t :=
  { eid_prefix := eid_prefix, iid := iid, key_type := key_type, key := key,
    accept_more_specifics := more_specifics, proxy_reply := proxy_reply, merge := merge }

/-- The function `build_lisp_site_prefix(ms, eidstr, iid, key_type, key, more_specifics,
proxy_reply, merge, lcaf_ht)`; `iid` is a `uint32_t`, the constant `MAX_IID`
(`defs.h`, absent here) is a parameter, `ms` is not used.  The result is `none`
for `NULL`. -/
def build_lisp_site_prefix (env : addr_env) (MAX_IID : Nat) (eidstr : String) (iid : Nat)
    (key_type : Int) (key : Option String) (more_specifics proxy_reply merge : Nat)
    (lcaf_ht : String → Option lisp_addr_t) : Option lisp_site_prefix_t :=
  let iid1 := if iid > MAX_IID then 0 else iid
  let iid2 := if (iid1 : Int) < 0 then 0 else iid1
  let eid_prefix : Option lisp_addr_t :=
    match env.lisp_addr_ippref_from_char eidstr with
    | some addr => some addr
    | none => lcaf_ht eidstr
  match eid_prefix with
  | none => none
  | some eid =>
    some (lisp_site_prefix_init eid iid2 key_type key more_specifics proxy_reply merge)

/-- The index entry that `add_rtr_iface` works on for an interface name: the one
found in the table, or a new one. -/
def rtr_if_loct (xtr : lisp_xtr_t) (name : String) : iface_locators :=
  (xtr.iface_locators_table name).getD (iface_locators_new name)

/-- The mapping of all locators that `add_rtr_iface` works on: the existing one,
or a new one for the address read from the literal 0.0.0.0, allocated at
`fresh`. -/
def rtr_all_locs_map (aenv : addr_env) (fresh : Nat) (xtr : lisp_xtr_t) : mapping_t :=
  xtr.all_locs_map.getD
    (mapping_init_local fresh ((aenv.lisp_addr_ip_from_char "0.0.0.0").getD lisp_addr_t.no_addr))

/-! ## Management API framing (`lispd_api.c`) -/

/-- Modelled from the spec: the header declaration `lmapi_msg_hdr_t` of
`lispd_api.h` (absent here): device, target, operation, type are 8-bit fields,
datalen is a 32-bit field. -/
structure lmapi_msg_hdr_t where
  device : Nat
  target : Nat
  operation : Nat
  type : Nat
  datalen : Nat
  deriving DecidableEq

/-- Modelled from the spec: `sizeof(lmapi_msg_hdr_t)`, four 8-bit fields and
one 32-bit field. -/
def sizeof_lmapi_msg_hdr_t : Nat := 8

/-- Modelled from the spec: `sizeof(lmapi_msg_result_e)`, an `enum` of
`lispd_api.h` (absent here), stored as a 32-bit `int`. -/
def sizeof_lmapi_msg_result_e : Nat := 4

/-- Modelled from the spec: `LMAPI_TYPE_REQUEST`, first of the message types
`{Request, Result}`. -/
def LMAPI_TYPE_REQUEST : Int := 0

/-- Modelled from the spec: `LMAPI_TYPE_RESULT`, second of the message types
`{Request, Result}`. -/
def LMAPI_TYPE_RESULT : Int := 1

/-- Object representation of a 32-bit value: four bytes, least significant
first. -/
def bytes_of_u32 (x : Nat) : List Nat :=
  [x % 256, x / 256 % 256, x / 65536 % 256, x / 16777216 % 256]

/-- The 32-bit value held by four bytes, least significant first. -/
def u32_of_bytes (bs : List Nat) : Nat :=
  bs.getD 0 0 + 256 * bs.getD 1 0 + 65536 * bs.getD 2 0 + 16777216 * bs.getD 3 0

/-- Object representation of a header: the four 8-bit fields in declaration
order, then `datalen`. -/
def bytes_of_hdr (h : lmapi_msg_hdr_t) : List Nat :=
  [h.device, h.target, h.operation, h.type] ++ bytes_of_u32 h.datalen

/-- Reading a buffer through a `lmapi_msg_hdr_t *` (as `lmapi_apply_config`
does with a received message). -/
def hdr_of_bytes (buf : List Nat) : lmapi_msg_hdr_t where
  device := buf.getD 0 0
  target := buf.getD 1 0
  operation := buf.getD 2 0
  type := buf.getD 3 0
  datalen := u32_of_bytes (buf.drop 4)

/-- The call `memcpy(buf + off, src, src.length)` on a buffer that is long enough. -/
def memcpy (buf : List Nat) (off : Nat) (src : List Nat) : List Nat :=
  buf.take off ++ src ++ buf.drop (off + src.length)

/-- The call `xzalloc(n)`: a zeroed buffer of `n` bytes. -/
def xzalloc (n : Nat) : List Nat := List.replicate n 0

/-- The function `fill_lmapi_hdr(hdr, dev, trgt, opr, type, dlen)`. -/
def fill_lmapi_hdr (dev trgt opr type dlen : Int) : lmapi_msg_hdr_t where
  device := to_uint8 dev
  target := to_uint8 trgt
  operation := to_uint8 opr
  type := to_uint8 type
  datalen := to_uint32 dlen

/-- The function `lmapi_hdr_push(buf, hdr)`: copies the header to the start of the buffer and
returns the buffer with the offset just behind the header. -/
def lmapi_hdr_push (buf : List Nat) (hdr : lmapi_msg_hdr_t) : List Nat × Nat :=
  (memcpy buf 0 (bytes_of_hdr hdr), sizeof_lmapi_msg_hdr_t)

/-- The function `lmapi_result_msg_new(&buf, dev, trgt, opr, res)`: the allocated message and
the returned length. -/
def lmapi_result_msg_new (dev trgt opr res : Int) : List Nat × Int :=
  let hdr := fill_lmapi_hdr dev trgt opr LMAPI_TYPE_RESULT sizeof_lmapi_msg_result_e
  let buf := xzalloc (sizeof_lmapi_msg_hdr_t + sizeof_lmapi_msg_result_e)
  let pushed := lmapi_hdr_push buf hdr
  let buf2 := memcpy pushed.1 pushed.2 (bytes_of_u32 (to_uint32 res))
  (buf2, ((sizeof_lmapi_msg_hdr_t + sizeof_lmapi_msg_result_e : Nat) : Int))

/-- Modelled from the spec: `LMAPI_RES_OK`, first of the results `{Ok, Err}`
(`lmapi_msg_result_e` of `lispd_api.h`, absent here). -/
def LMAPI_RES_OK : Int := 0

/-- Modelled from the spec: `LMAPI_RES_ERR`, second of the results `{Ok, Err}`. -/
def LMAPI_RES_ERR : Int := 1

/-- What the socket gives to one call of `lmapi_recv`: the value of `zmq_poll`,
and the outcome of `zmq_recv` (`none` for the error value -1, otherwise the
message that arrived). -/
structure lmapi_socket_in where
  poll_rc : Int
  recv : Option (List Nat)

/-- The value returned by `lmapi_recv`: one of the two codes (macros of
`lispd_api.h`, absent here) or the byte count reported by `zmq_recv`. -/
inductive lmapi_recv_ret where
  | LMAPI_NOTHINGTOREAD
  | LMAPI_ERROR
  | nbytes (n : Nat)
  deriving DecidableEq

/-- The function `lmapi_recv(conn, buffer, LMAPI_NOFLAGS)` on a buffer of
`max_len = MAX_API_PKT_LEN` bytes: the returned value and the buffer afterwards.
`zmq_recv` stores at most `max_len` bytes of the message and reports the length
of the whole message. -/
def lmapi_recv (max_len : Nat) (inp : lmapi_socket_in) (buffer : List Nat) :
    lmapi_recv_ret × List Nat :=
  if inp.poll_rc = 0 then (lmapi_recv_ret.LMAPI_NOTHINGTOREAD, buffer)
  else
    match inp.recv with
    | none => (lmapi_recv_ret.LMAPI_ERROR, buffer)
    | some msg => (lmapi_recv_ret.nbytes msg.length, memcpy buffer 0 (msg.take max_len))

/-- The function `lmapi_send(conn, msg, len, flags)`: the bytes handed to `zmq_send`, which
are the first `len` bytes at `msg`; the function returns `GOOD` whatever
happens. -/
def lmapi_send (msg : List Nat) (len : Int) : List Nat × lisp_ret :=
  (msg.take len.toNat, lisp_ret.GOOD)

/-- What a call of `lmapi_apply_config` does: the bytes it sends, the length it
hands to `lmapi_send`, and the value it returns. -/
structure lmapi_apply_result where
  sent : List Nat
  sent_len : Int
  ret : Int
  deriving DecidableEq

/-- The function `lmapi_apply_config(conn, dev, trgt, opr, data, dlen)`, with `max_len` the
constant `MAX_API_PKT_LEN` (`lispd_api.h`, absent here) and `inp` what the
socket delivers to the blocking receive. -/
def lmapi_apply_config (max_len : Nat) (inp : lmapi_socket_in) (dev trgt opr : Int)
    (data : List Nat) (dlen : Int) : lmapi_apply_result :=
  let buffer := xzalloc max_len
  -- `hdr` points to the start of the buffer, `dta_ptr` just behind the header
  let buffer1 := memcpy buffer 0 (bytes_of_hdr (fill_lmapi_hdr dev trgt opr LMAPI_TYPE_REQUEST dlen))
  let buffer2 := memcpy buffer1 sizeof_lmapi_msg_hdr_t (data.take dlen.toNat)
  let len := dlen + (sizeof_lmapi_msg_hdr_t : Int)
  let sent := (lmapi_send buffer2 len).1
  let received := (lmapi_recv max_len inp (xzalloc max_len)).2
  let hdr := hdr_of_bytes received
  let ret :=
    if (hdr.type : Int) ≠ LMAPI_TYPE_RESULT ∨ hdr.datalen ≠ sizeof_lmapi_msg_result_e then
      LMAPI_RES_ERR
    else if ((received.getD sizeof_lmapi_msg_hdr_t 0 : Nat) : Int) ≠ LMAPI_RES_OK then
      LMAPI_RES_ERR
    else LMAPI_RES_OK
  { sent := sent, sent_len := len, ret := ret }

/-- A reply as the daemon frames it: a header followed by a 32-bit result. -/
def lmapi_reply_msg (h : lmapi_msg_hdr_t) (res : Nat) : List Nat :=
  bytes_of_hdr h ++ bytes_of_u32 res

/-! ## Doubly linked segments -/

theorem seg_last_mem (a : lmtimer_ref) (l : List Nat) :
    seg_last a l = a ∨ ∃ t, t ∈ l ∧ seg_last a l = timer t := by
  induction l generalizing a with
  | nil => exact Or.inl rfl
  | cons t l ih =>
    rcases ih (timer t) with h | ⟨u, hu, h⟩
    · exact Or.inr ⟨t, List.mem_cons_self _ _, h⟩
    · exact Or.inr ⟨u, List.mem_cons_of_mem _ hu, h⟩

theorem seg_last_append (a : lmtimer_ref) (l : List Nat) (t : Nat) :
    seg_last a (l ++ [t]) = timer t := by
  induction l generalizing a with
  | nil => rfl
  | cons u l ih => exact ih (timer u)

theorem dll_seg_prev_end {nx pv a l z} (h : dll_seg nx pv a l z) :
    pv z = some (seg_last a l) := by
  induction l generalizing a with
  | nil => exact h.2
  | cons t l ih => exact ih h.2.2

theorem dll_seg_next_start {nx pv a l z} (h : dll_seg nx pv a l z) :
    nx a = some (seg_first l z) := by
  cases l with
  | nil => exact h.1
  | cons t l => exact h.1

theorem dll_seg_append {nx pv a l1 t l2 z} :
    dll_seg nx pv a (l1 ++ t :: l2) z ↔
      dll_seg nx pv a l1 (timer t) ∧ dll_seg nx pv (timer t) l2 z := by
  induction l1 generalizing a with
  | nil => simp [dll_seg, and_assoc]
  | cons u l1 ih => simp [dll_seg, ih, and_assoc]

theorem dll_seg_congr {nx pv nx' pv' a l z}
    (hn : ∀ x, x = a ∨ (∃ t, t ∈ l ∧ x = timer t) → nx' x = nx x)
    (hp : ∀ y, y = z ∨ (∃ t, t ∈ l ∧ y = timer t) → pv' y = pv y)
    (h : dll_seg nx pv a l z) : dll_seg nx' pv' a l z := by
  induction l generalizing a with
  | nil =>
    exact ⟨(hn a (Or.inl rfl)).trans h.1, (hp z (Or.inl rfl)).trans h.2⟩
  | cons t l ih =>
    refine ⟨(hn a (Or.inl rfl)).trans h.1, ?_, ?_⟩
    · exact (hp _ (Or.inr ⟨t, List.mem_cons_self _ _, rfl⟩)).trans h.2.1
    · apply ih _ _ h.2.2
      · rintro x (rfl | ⟨u, hu, rfl⟩)
        · exact hn _ (Or.inr ⟨t, List.mem_cons_self _ _, rfl⟩)
        · exact hn _ (Or.inr ⟨u, List.mem_cons_of_mem _ hu, rfl⟩)
      · rintro y (rfl | ⟨u, hu, rfl⟩)
        · exact hp _ (Or.inl rfl)
        · exact hp _ (Or.inr ⟨u, List.mem_cons_of_mem _ hu, rfl⟩)

theorem dll_seg_retarget {nx pv a l z} (z' : lmtimer_ref)
    (h : dll_seg nx pv a l z) (hnd : l.Nodup)
    (ha : ∀ t, t ∈ l → a ≠ timer t) (hz : ∀ t, t ∈ l → z' ≠ timer t) :
    dll_seg (Function.update nx (seg_last a l) (some z'))
      (Function.update pv z' (some (seg_last a l))) a l z' := by
  induction l generalizing a with
  | nil => simp [dll_seg, seg_last]
  | cons t l ih =>
    have hnd' := List.nodup_cons.mp hnd
    have hq : seg_last (timer t) l ≠ a := by
      rcases seg_last_mem (timer t) l with h1 | ⟨u, hu, h1⟩
      · rw [h1]; exact (ha t (List.mem_cons_self _ _)).symm
      · rw [h1]; exact (ha u (List.mem_cons_of_mem _ hu)).symm
    refine ⟨?_, ?_, ?_⟩
    · show Function.update nx (seg_last (timer t) l) (some z') a = _
      rw [Function.update_noteq hq.symm]; exact h.1
    · rw [Function.update_noteq (hz t (List.mem_cons_self _ _)).symm]; exact h.2.1
    · apply ih h.2.2 hnd'.2
      · intro u hu heq
        injection heq with heq
        exact hnd'.1 (heq ▸ hu)
      · intro u hu; exact hz u (List.mem_cons_of_mem _ hu)

/-- Unlinking `t` from the middle of a segment: once the predecessor's `next`
and the successor's `prev` bypass `t`, the rest of the segment is linked. -/
theorem dll_seg_unlink {nx pv nx' pv' a l1 t l2 z}
    (h : dll_seg nx pv a (l1 ++ t :: l2) z) (hnd : (l1 ++ t :: l2).Nodup)
    (ha : ∀ u, a ≠ timer u) (hz : ∀ u, z ≠ timer u)
    (hn : ∀ x, x ≠ timer t →
      nx' x = Function.update nx (seg_last a l1) (some (seg_first l2 z)) x)
    (hp : ∀ y, y ≠ timer t →
      pv' y = Function.update pv (seg_first l2 z) (some (seg_last a l1)) y) :
    dll_seg nx' pv' a (l1 ++ l2) z := by
  obtain ⟨h1, h2⟩ := dll_seg_append.mp h
  have hnd1 : l1.Nodup := (List.nodup_append.mp hnd).1
  have hnd2 : (t :: l2).Nodup := (List.nodup_append.mp hnd).2.1
  have hdj : ∀ u, u ∈ l1 → u ∈ t :: l2 → False := fun u hu1 hu2 =>
    (List.nodup_append.mp hnd).2.2 hu1 hu2
  have ht1 : t ∉ l1 := fun hm => hdj t hm (List.mem_cons_self _ _)
  have ht2 : t ∉ l2 := (List.nodup_cons.mp hnd2).1
  -- the predecessor is the start or a timer of l1
  have hpl : seg_last a l1 = a ∨ ∃ u, u ∈ l1 ∧ seg_last a l1 = timer u := seg_last_mem a l1
  cases l2 with
  | nil =>
    rw [List.append_nil]
    have hr := dll_seg_retarget z h1 hnd1 (fun u _ => ha u) (fun u _ => hz u)
    refine dll_seg_congr ?_ ?_ hr
    · rintro x (rfl | ⟨u, hu, rfl⟩)
      · exact hn _ (ha t)
      · exact hn _ (fun he => ht1 (by injection he with he; exact he ▸ hu))
    · rintro y (rfl | ⟨u, hu, rfl⟩)
      · exact hp _ (hz t)
      · exact hp _ (fun he => ht1 (by injection he with he; exact he ▸ hu))
  | cons u l2 =>
    have hu1 : u ∉ l1 := fun hm => hdj u hm (List.mem_cons_of_mem _ (List.mem_cons_self _ _))
    have hnd2' := List.nodup_cons.mp (List.nodup_cons.mp hnd2).2
    have htu : t ≠ u := fun he => ht2 (he ▸ List.mem_cons_self _ _)
    refine dll_seg_append.mpr ⟨?_, ?_⟩
    · have hr := dll_seg_retarget (timer u) h1 hnd1 (fun v _ => ha v)
        (fun v hv he => hu1 (by injection he with he; exact he ▸ hv))
      refine dll_seg_congr ?_ ?_ hr
      · rintro x (rfl | ⟨v, hv, rfl⟩)
        · exact hn _ (ha t)
        · exact hn _ (fun he => ht1 (by injection he with he; exact he ▸ hv))
      · rintro y (rfl | ⟨v, hv, rfl⟩)
        · exact hp _ (fun he => htu (by injection he with he; exact he.symm))
        · exact hp _ (fun he => ht1 (by injection he with he; exact he ▸ hv))
    · refine dll_seg_congr ?_ ?_ h2.2.2
      · intro x hx
        have hxt : x ≠ timer t := by
          rcases hx with rfl | ⟨v, hv, rfl⟩
          · exact fun he => htu (by injection he with he; exact he.symm)
          · exact fun he => ht2 (by injection he with he; exact he ▸ List.mem_cons_of_mem _ hv)
        have hxp : x ≠ seg_last a l1 := by
          rcases hx with rfl | ⟨v, hv, rfl⟩
          · rcases hpl with h0 | ⟨q, hq, h0⟩
            · rw [h0]; exact (ha u).symm
            · rw [h0]; exact fun he => hu1 (by injection he with he; exact he ▸ hq)
          · rcases hpl with h0 | ⟨q, hq, h0⟩
            · rw [h0]; exact (ha v).symm
            · rw [h0]
              exact fun he => hdj q hq (by
                injection he with he
                exact he ▸ List.mem_cons_of_mem _ (List.mem_cons_of_mem _ hv))
        rw [hn x hxt]
        exact Function.update_noteq hxp _ _
      · intro y hy
        have hyt : y ≠ timer t := by
          rcases hy with rfl | ⟨v, hv, rfl⟩
          · exact hz t
          · exact fun he => ht2 (by injection he with he; exact he ▸ List.mem_cons_of_mem _ hv)
        have hyu : y ≠ timer u := by
          rcases hy with rfl | ⟨v, hv, rfl⟩
          · exact hz u
          · exact fun he => hnd2'.1 (by injection he with he; exact he ▸ hv)
        rw [hp y hyt]
        exact Function.update_noteq hyu _ _

/-- Appending `t` behind the last node of a closed segment. -/
theorem dll_seg_push {nx pv nx' pv' a l} (t : Nat)
    (h : dll_seg nx pv a l a) (hnd : l.Nodup) (ht : t ∉ l) (ha : ∀ u, a ≠ timer u)
    (hn : ∀ x, x ≠ timer t → nx' x = Function.update nx (seg_last a l) (some (timer t)) x)
    (hnt : nx' (timer t) = some a)
    (hp : ∀ y, y ≠ a → pv' y = Function.update pv (timer t) (some (seg_last a l)) y)
    (hpa : pv' a = some (timer t)) :
    dll_seg nx' pv' a (l ++ [t]) a := by
  refine dll_seg_append.mpr ⟨?_, hnt, hpa⟩
  have hr := dll_seg_retarget (timer t) h hnd (fun u _ => ha u)
    (fun u hu he => ht (by injection he with he; exact he ▸ hu))
  refine dll_seg_congr ?_ ?_ hr
  · rintro x (rfl | ⟨u, hu, rfl⟩)
    · exact hn _ (ha t)
    · exact hn _ (fun he => ht (by injection he with he; exact he ▸ hu))
  · rintro y (rfl | ⟨u, hu, rfl⟩)
    · exact hp _ (ha t).symm
    · exact hp _ (ha u).symm

/-! ## Spoke contents -/

theorem wheel_lists_lt {L : Nat → List Nat} (h : wheel_lists L) {i t : Nat} (ht : t ∈ L i) :
    i < WHEEL_SIZE := by
  by_contra hc
  rw [h.out i (Nat.le_of_not_lt hc)] at ht
  exact List.not_mem_nil _ ht

theorem wheel_lists_remove {L : Nat → List Nat} (h : wheel_lists L) {i t : Nat}
    {l1 l2 : List Nat} (hL : L i = l1 ++ t :: l2) :
    wheel_lists (Function.update L i (l1 ++ l2)) ∧
      ∀ j, t ∉ Function.update L i (l1 ++ l2) j := by
  have hnd : (l1 ++ t :: l2).Nodup := hL ▸ h.nodup i
  have hsub : ∀ u, u ∈ l1 ++ l2 → u ∈ L i := by
    intro u hu
    rw [hL]
    rcases List.mem_append.mp hu with hu | hu
    · exact List.mem_append_left _ hu
    · exact List.mem_append_right _ (List.mem_cons_of_mem _ hu)
  have hmem : ∀ j u, u ∈ Function.update L i (l1 ++ l2) j → u ∈ L j := by
    intro j u hu
    by_cases hj : j = i
    · subst hj; rw [Function.update_same] at hu; exact hsub u hu
    · rwa [Function.update_noteq hj] at hu
  have hti : t ∈ L i := by rw [hL]; exact List.mem_append_right _ (List.mem_cons_self _ _)
  refine ⟨⟨?_, ?_, ?_⟩, ?_⟩
  · intro j hj
    by_cases hji : j = i
    · subst hji
      exact absurd (wheel_lists_lt h hti) (Nat.not_lt.mpr hj)
    · rw [Function.update_noteq hji]; exact h.out j hj
  · intro j
    by_cases hji : j = i
    · subst hji
      rw [Function.update_same]
      exact List.Nodup.sublist (List.Sublist.append_left (List.sublist_cons_self t l2) l1) hnd
    · rw [Function.update_noteq hji]; exact h.nodup j
  · intro j k u hj hk
    exact h.disj j k u (hmem j u hj) (hmem k u hk)
  · intro j hj
    by_cases hji : j = i
    · subst hji
      rw [Function.update_same] at hj
      have h3 := List.nodup_append.mp hnd
      rcases List.mem_append.mp hj with hj | hj
      · exact h3.2.2 hj (List.mem_cons_self _ _)
      · exact (List.nodup_cons.mp h3.2.1).1 hj
    · rw [Function.update_noteq hji] at hj
      exact hji (h.disj j i t hj hti)

theorem wheel_lists_erase_eq {L : Nat → List Nat} (h : wheel_lists L) {i t : Nat}
    {l1 l2 : List Nat} (hL : L i = l1 ++ t :: l2) :
    (fun j => (L j).erase t) = Function.update L i (l1 ++ l2) := by
  have hnd : (l1 ++ t :: l2).Nodup := hL ▸ h.nodup i
  have hti : t ∈ L i := by rw [hL]; exact List.mem_append_right _ (List.mem_cons_self _ _)
  funext j
  by_cases hji : j = i
  · subst hji
    rw [Function.update_same]
    show (L j).erase t = _
    rw [hL]
    have ht1 : t ∉ l1 := fun hm => (List.nodup_append.mp hnd).2.2 hm (List.mem_cons_self _ _)
    rw [List.erase_append_right _ ht1, List.erase_cons_head]
  · rw [Function.update_noteq hji]
    exact List.erase_of_not_mem (fun hm => hji (h.disj j i t hm hti))

theorem wheel_lists_erase_idle {L : Nat → List Nat} {t : Nat} (ht : ∀ j, t ∉ L j) :
    (fun j => (L j).erase t) = L := by
  funext j
  exact List.erase_of_not_mem (ht j)

theorem wheel_lists_push {L : Nat → List Nat} (h : wheel_lists L) {s t : Nat}
    (ht : ∀ j, t ∉ L j) (hs : s < WHEEL_SIZE) :
    wheel_lists (Function.update L s (L s ++ [t])) := by
  have hmem : ∀ j u, u ∈ Function.update L s (L s ++ [t]) j → u ∈ L j ∨ (u = t ∧ j = s) := by
    intro j u hu
    by_cases hj : j = s
    · subst hj
      rw [Function.update_same] at hu
      rcases List.mem_append.mp hu with hu | hu
      · exact Or.inl hu
      · exact Or.inr ⟨List.mem_singleton.mp hu, rfl⟩
    · rw [Function.update_noteq hj] at hu; exact Or.inl hu
  refine ⟨?_, ?_, ?_⟩
  · intro j hj
    have hjs : j ≠ s := fun he => absurd hs (Nat.not_lt.mpr (he ▸ hj))
    rw [Function.update_noteq hjs]; exact h.out j hj
  · intro j
    by_cases hj : j = s
    · subst hj
      rw [Function.update_same]
      refine List.nodup_append.mpr ⟨h.nodup j, List.nodup_singleton t, ?_⟩
      intro u hu hu2
      exact ht j (List.mem_singleton.mp hu2 ▸ hu)
    · rw [Function.update_noteq hj]; exact h.nodup j
  · intro j k u hj hk
    rcases hmem j u hj with hj | ⟨hj1, hj2⟩ <;> rcases hmem k u hk with hk | ⟨hk1, hk2⟩
    · exact h.disj j k u hj hk
    · exact absurd (hk1 ▸ hj) (ht j)
    · exact absurd (hj1 ▸ hk) (ht k)
    · rw [hj2, hk2]

theorem wheel_segs_links {nx pv L} (hs : wheel_segs nx pv L) {i t : Nat} {l1 l2 : List Nat}
    (hi : i < WHEEL_SIZE) (hL : L i = l1 ++ t :: l2) :
    pv (timer t) = some (seg_last (spoke i) l1) ∧
      nx (timer t) = some (seg_first l2 (spoke i)) := by
  have h := hs i hi
  rw [hL] at h
  obtain ⟨h1, h2⟩ := dll_seg_append.mp h
  exact ⟨dll_seg_prev_end h1, dll_seg_next_start h2⟩

/-- Bypassing a linked timer keeps all rings intact. -/
theorem wheel_segs_unlink {nx pv nx' pv' L} (hs : wheel_segs nx pv L) (hl : wheel_lists L)
    {i t : Nat} {l1 l2 : List Nat} (hL : L i = l1 ++ t :: l2)
    (hn : ∀ x, x ≠ timer t →
      nx' x = Function.update nx (seg_last (spoke i) l1) (some (seg_first l2 (spoke i))) x)
    (hp : ∀ y, y ≠ timer t →
      pv' y = Function.update pv (seg_first l2 (spoke i)) (some (seg_last (spoke i) l1)) y) :
    wheel_segs nx' pv' (Function.update L i (l1 ++ l2)) := by
  have hti : t ∈ L i := by rw [hL]; exact List.mem_append_right _ (List.mem_cons_self _ _)
  have hnd : (l1 ++ t :: l2).Nodup := hL ▸ hl.nodup i
  intro j hj
  by_cases hji : j = i
  · subst hji
    rw [Function.update_same]
    have h := hs j hj
    rw [hL] at h
    exact dll_seg_unlink h hnd (fun u he => by cases he) (fun u he => by cases he) hn hp
  · rw [Function.update_noteq hji]
    have hnode : ∀ x, (x = spoke j ∨ ∃ u, u ∈ L j ∧ x = timer u) →
        x ≠ timer t ∧ x ≠ seg_last (spoke i) l1 ∧ x ≠ seg_first l2 (spoke i) := by
      intro x hx
      have hx1 : ∀ u, u ∈ L i → x ≠ timer u := by
        intro u hu
        rcases hx with rfl | ⟨v, hv, rfl⟩
        · exact fun he => by cases he
        · exact fun he => hji (hl.disj j i v hv (by injection he with he; exact he ▸ hu))
      have hx2 : x ≠ spoke i := by
        rcases hx with rfl | ⟨v, hv, rfl⟩
        · exact fun he => hji (by injection he)
        · exact fun he => by cases he
      refine ⟨hx1 t hti, ?_, ?_⟩
      · rcases seg_last_mem (spoke i) l1 with h0 | ⟨q, hq, h0⟩
        · rw [h0]; exact hx2
        · rw [h0]; exact hx1 q (by rw [hL]; exact List.mem_append_left _ hq)
      · cases l2 with
        | nil => exact hx2
        | cons q l2 =>
          exact hx1 q (by
            rw [hL]
            exact List.mem_append_right _ (List.mem_cons_of_mem _ (List.mem_cons_self _ _)))
    refine dll_seg_congr ?_ ?_ (hs j hj)
    · intro x hx
      obtain ⟨h1, h2, _⟩ := hnode x hx
      rw [hn x h1]; exact Function.update_noteq h2 _ _
    · intro y hy
      obtain ⟨h1, _, h3⟩ := hnode y hy
      rw [hp y h1]; exact Function.update_noteq h3 _ _

/-- Linking an idle timer behind the last node of spoke `s` keeps all rings
intact. -/
theorem wheel_segs_push {nx pv nx' pv' L} (hs : wheel_segs nx pv L) (hl : wheel_lists L)
    {s t : Nat} (ht : ∀ j, t ∉ L j) (hlt : s < WHEEL_SIZE)
    (hn : ∀ x, x ≠ timer t →
      nx' x = Function.update nx (seg_last (spoke s) (L s)) (some (timer t)) x)
    (hnt : nx' (timer t) = some (spoke s))
    (hp : ∀ y, y ≠ spoke s →
      pv' y = Function.update pv (timer t) (some (seg_last (spoke s) (L s))) y)
    (hpa : pv' (spoke s) = some (timer t)) :
    wheel_segs nx' pv' (Function.update L s (L s ++ [t])) := by
  intro j hj
  by_cases hjs : j = s
  · subst hjs
    rw [Function.update_same]
    exact dll_seg_push t (hs j hj) (hl.nodup j) (ht j) (fun u he => by cases he) hn hnt hp hpa
  · rw [Function.update_noteq hjs]
    have hnode : ∀ x, (x = spoke j ∨ ∃ u, u ∈ L j ∧ x = timer u) →
        x ≠ timer t ∧ x ≠ seg_last (spoke s) (L s) ∧ x ≠ spoke s := by
      intro x hx
      have hx1 : ∀ u, u ∈ L s → x ≠ timer u := by
        intro u hu
        rcases hx with rfl | ⟨v, hv, rfl⟩
        · exact fun he => by cases he
        · exact fun he => hjs (hl.disj j s v hv (by injection he with he; exact he ▸ hu))
      have hx2 : x ≠ spoke s := by
        rcases hx with rfl | ⟨v, hv, rfl⟩
        · exact fun he => hjs (by injection he)
        · exact fun he => by cases he
      have hx3 : x ≠ timer t := by
        rcases hx with rfl | ⟨v, hv, rfl⟩
        · exact fun he => by cases he
        · exact fun he => ht j (by injection he with he; exact he ▸ hv)
      refine ⟨hx3, ?_, hx2⟩
      rcases seg_last_mem (spoke s) (L s) with h0 | ⟨q, hq, h0⟩
      · rw [h0]; exact hx2
      · rw [h0]; exact hx1 q hq
    refine dll_seg_congr ?_ ?_ (hs j hj)
    · intro x hx
      obtain ⟨h1, h2, _⟩ := hnode x hx
      rw [hn x h1]; exact Function.update_noteq h2 _ _
    · intro y hy
      obtain ⟨h1, _, h3⟩ := hnode y hy
      rw [hp y h3]; exact Function.update_noteq h1 _ _

/-! ## `lmtimer_stop` -/

theorem mem_update_remove {L : Nat → List Nat} {i t : Nat} {l1 l2 : List Nat}
    (hL : L i = l1 ++ t :: l2) {j u : Nat} (hu : u ∈ L j) (hut : u ≠ t) :
    u ∈ Function.update L i (l1 ++ l2) j := by
  by_cases hji : j = i
  · subst hji
    rw [Function.update_same]
    rw [hL] at hu
    rcases List.mem_append.mp hu with hu | hu
    · exact List.mem_append_left _ hu
    · rcases List.mem_cons.mp hu with hu | hu
      · exact absurd hu hut
      · exact List.mem_append_right _ hu
  · rwa [Function.update_noteq hji]

theorem seg_last_ne_idle {L : Nat → List Nat} {i u : Nat} {l1 l2 : List Nat} {t : Nat}
    (hL : L i = l1 ++ t :: l2) (hu : u ∉ L i) : timer u ≠ seg_last (spoke i) l1 := by
  rcases seg_last_mem (spoke i) l1 with h0 | ⟨q, hq, h0⟩
  · rw [h0]; exact fun he => by cases he
  · rw [h0]
    intro he
    injection he with he
    exact hu (by rw [hL, he]; exact List.mem_append_left _ hq)

theorem seg_first_ne_idle {L : Nat → List Nat} {i u : Nat} {l1 l2 : List Nat} {t : Nat}
    (hL : L i = l1 ++ t :: l2) (hu : u ∉ L i) : timer u ≠ seg_first l2 (spoke i) := by
  cases l2 with
  | nil => exact fun he => by cases he
  | cons q l2 =>
    intro he
    injection he with he
    exact hu (by
      rw [hL, he]
      exact List.mem_append_right _ (List.mem_cons_of_mem _ (List.mem_cons_self _ _)))

/-- Stopping a timer whose links are both `NULL` changes nothing. -/
theorem lmtimer_stop_idle (w : timer_wheel_) (t : Nat)
    (hn : w.next (timer t) = none) (hp : w.prev (timer t) = none) :
    lmtimer_stop (some t) w = w := by
  cases w with
  | mk ns cs nx pv du rc rt ex fi =>
    simp only at hn hp
    simp only [lmtimer_stop, hn, hp]
    have h1 : Function.update nx (timer t) none = nx := by
      rw [← hn]; exact Function.update_eq_self _ _
    have h2 : Function.update pv (timer t) none = pv := by
      rw [← hp]; exact Function.update_eq_self _ _
    simp [h1, h2]

/-- Bypassing a linked timer and clearing its links keeps the invariant, with the
timer removed from its spoke. -/
theorem wheel_inv_unlink {w w1 : timer_wheel_} {L : Nat → List Nat} (hw : wheel_inv w L)
    {i t : Nat} {l1 l2 : List Nat} (hL : L i = l1 ++ t :: l2)
    (hns : w1.num_spokes = w.num_spokes) (hcs : w1.current_spoke = w.current_spoke)
    (hnext : w1.next = Function.update (Function.update w.next (seg_last (spoke i) l1)
        (some (seg_first l2 (spoke i)))) (timer t) none)
    (hprev : w1.prev = Function.update (Function.update w.prev (seg_first l2 (spoke i))
        (some (seg_last (spoke i) l1))) (timer t) none) :
    wheel_inv w1 (Function.update L i (l1 ++ l2)) := by
  have hrm := wheel_lists_remove hw.lists hL
  refine ⟨hns.trans hw.spokes, hcs ▸ hw.cur, hrm.1, ?_, ?_⟩
  · rw [hnext, hprev]
    exact wheel_segs_unlink hw.segs hw.lists hL (fun x hx => Function.update_noteq hx _ _)
      (fun y hy => Function.update_noteq hy _ _)
  · intro u hu
    rw [hnext, hprev]
    by_cases hut : u = t
    · subst hut
      exact ⟨Function.update_same _ _ _, Function.update_same _ _ _⟩
    · have hut' : timer u ≠ timer t := fun he => hut (by injection he)
      have hidle : ∀ j, u ∉ L j := fun j hm => hu j (mem_update_remove hL hm hut)
      obtain ⟨h1, h2⟩ := hw.idle u hidle
      rw [Function.update_noteq hut', Function.update_noteq hut',
        Function.update_noteq (seg_last_ne_idle hL (hidle i)),
        Function.update_noteq (seg_first_ne_idle hL (hidle i))]
      exact ⟨h1, h2⟩

/-- Stopping a linked timer removes it from its spoke and keeps the invariant. -/
theorem lmtimer_stop_linked {w : timer_wheel_} {L : Nat → List Nat} (hw : wheel_inv w L)
    {i t : Nat} {l1 l2 : List Nat} (hL : L i = l1 ++ t :: l2) :
    wheel_inv (lmtimer_stop (some t) w) (Function.update L i (l1 ++ l2)) ∧
      (lmtimer_stop (some t) w).running_timers = w.running_timers - 1 ∧
      (lmtimer_stop (some t) w).fired = w.fired ∧
      (lmtimer_stop (some t) w).current_spoke = w.current_spoke ∧
      (lmtimer_stop (some t) w).rotation_count = w.rotation_count ∧
      (lmtimer_stop (some t) w).expirations = w.expirations := by
  have hti : t ∈ L i := by rw [hL]; exact List.mem_append_right _ (List.mem_cons_self _ _)
  have hi : i < WHEEL_SIZE := wheel_lists_lt hw.lists hti
  obtain ⟨hpv, hnx⟩ := wheel_segs_links hw.segs hi hL
  refine ⟨wheel_inv_unlink hw hL rfl rfl ?_ ?_, ?_, rfl, rfl, rfl, rfl⟩
  · simp [lmtimer_stop, hpv, hnx]
  · simp [lmtimer_stop, hpv, hnx]
  · simp [lmtimer_stop, hnx]

/-! ## `insert_timer` and `lmtimer_start` -/

theorem seg_last_ne_of_not_mem {s u : Nat} {l : List Nat} (hu : u ∉ l) :
    timer u ≠ seg_last (spoke s) l := by
  rcases seg_last_mem (spoke s) l with h0 | ⟨q, hq, h0⟩
  · rw [h0]; exact fun he => by cases he
  · rw [h0]
    intro he
    injection he with he
    exact hu (he ▸ hq)

theorem insert_pos_lt (c : Nat) (d : Int) : insert_pos c d < WHEEL_SIZE :=
  Nat.mod_lt _ (by decide)

/-- Specification of `insert_timer` on a wheel whose rings are intact and on which `t` is on no
spoke: the timer is appended to the computed spoke, whatever its stale links. -/
theorem insert_timer_spec {w : timer_wheel_} {L : Nat → List Nat} {t : Nat}
    (hsp : w.num_spokes = WHEEL_SIZE) (hc : w.current_spoke < WHEEL_SIZE)
    (hl : wheel_lists L) (hs : wheel_segs w.next w.prev L) (ht : ∀ j, t ∉ L j)
    (hidle : ∀ u, u ≠ t → (∀ j, u ∉ L j) → w.next (timer u) = none ∧ w.prev (timer u) = none) :
    ∃ w', insert_timer t w = Except.ok w' ∧
      wheel_inv w' (Function.update L (insert_pos w.current_spoke (w.duration t))
        (L (insert_pos w.current_spoke (w.duration t)) ++ [t])) ∧
      w'.rotation_count = Function.update w.rotation_count t (insert_rot (w.duration t)) ∧
      w'.current_spoke = w.current_spoke ∧ w'.fired = w.fired ∧
      w'.running_timers = w.running_timers ∧ w'.expirations = w.expirations ∧
      w'.duration = w.duration ∧
      w'.next (timer t) = some (spoke (insert_pos w.current_spoke (w.duration t))) ∧
      w'.prev (spoke (insert_pos w.current_spoke (w.duration t))) = some (timer t) := by
  have hpos : ((w.current_spoke + to_uint32 (w.duration t) % (w.num_spokes % 4294967296))
      % 4294967296) % (w.num_spokes % 4294967296) = insert_pos w.current_spoke (w.duration t) := by
    unfold insert_pos
    rw [hsp]
    simp only [WHEEL_SIZE, Nat.reduceMod] at hc ⊢
    omega
  have hrot : to_uint32 (w.duration t) / (w.num_spokes % 4294967296) =
      insert_rot (w.duration t) := by
    unfold insert_rot
    rw [hsp]
    rfl
  have hplt := insert_pos_lt w.current_spoke (w.duration t)
  generalize insert_pos w.current_spoke (w.duration t) = pos at hpos hplt ⊢
  have hpv : w.prev (spoke pos) = some (seg_last (spoke pos) (L pos)) :=
    dll_seg_prev_end (hs pos hplt)
  have hne : w.num_spokes % 4294967296 ≠ 0 := by rw [hsp]; decide
  have hp_ne_t : seg_last (spoke pos) (L pos) ≠ timer t :=
    (seg_last_ne_of_not_mem (ht pos)).symm
  refine ⟨_, by simp only [insert_timer, hne, if_false, hpos, hpv, hrot]; rfl, ?_⟩
  refine ⟨⟨hsp, hc, wheel_lists_push hl ht hplt, ?_, ?_⟩, rfl, rfl, rfl, rfl, rfl, rfl, ?_, ?_⟩
  · refine wheel_segs_push hs hl ht hplt ?_ ?_ ?_ ?_
    · intro x hx
      show Function.update (Function.update w.next (timer t) _) _ _ x = _
      by_cases hxp : x = seg_last (spoke pos) (L pos)
      · subst hxp; simp
      · rw [Function.update_noteq hxp, Function.update_noteq hx, Function.update_noteq hxp]
    · show Function.update (Function.update w.next (timer t) _) _ _ (timer t) = _
      rw [Function.update_noteq hp_ne_t.symm, Function.update_same]
    · intro y hy
      show Function.update (Function.update w.prev (timer t) _) _ _ y = _
      rw [Function.update_noteq hy]
    · show Function.update (Function.update w.prev (timer t) _) _ _ (spoke pos) = _
      rw [Function.update_same]
  · intro u hu
    have hut : u ≠ t := by
      rintro rfl
      exact hu pos (by rw [Function.update_same]; exact List.mem_append_right _ (List.mem_singleton_self _))
    have hu' : ∀ j, u ∉ L j := by
      intro j hm
      apply hu j
      by_cases hj : j = pos
      · subst hj; rw [Function.update_same]; exact List.mem_append_left _ hm
      · rwa [Function.update_noteq hj]
    obtain ⟨h1, h2⟩ := hidle u hut hu'
    have hut' : timer u ≠ timer t := fun he => hut (by injection he)
    constructor
    · show Function.update (Function.update w.next (timer t) _) _ _ (timer u) = none
      rw [Function.update_noteq (seg_last_ne_of_not_mem (hu' pos)), Function.update_noteq hut']
      exact h1
    · show Function.update (Function.update w.prev (timer t)
        (some (seg_last (spoke pos) (L pos)))) (spoke pos) (some (timer t)) (timer u) = none
      rw [Function.update_noteq (fun he => by cases he), Function.update_noteq hut']
      exact h2
  · show Function.update (Function.update w.next (timer t) _) _ _ (timer t) = _
    rw [Function.update_noteq hp_ne_t.symm, Function.update_same]
  · show Function.update (Function.update w.prev (timer t) _) _ _ (spoke pos) = _
    rw [Function.update_same]

/-- Specification of `lmtimer_start` on a well-formed wheel: it returns, the timer is removed from
wherever it was and appended to the spoke computed from the duration, with the
computed rotation count. -/
theorem lmtimer_start_spec {w : timer_wheel_} {L : Nat → List Nat} (hw : wheel_inv w L)
    (t : Nat) (d : Int) :
    ∃ w', lmtimer_start t d w = Except.ok w' ∧
      wheel_inv w' (Function.update (fun j => (L j).erase t) (insert_pos w.current_spoke d)
        ((L (insert_pos w.current_spoke d)).erase t ++ [t])) ∧
      w'.rotation_count = Function.update w.rotation_count t (insert_rot d) ∧
      w'.current_spoke = w.current_spoke ∧ w'.fired = w.fired ∧
      w'.expirations = w.expirations ∧
      ((∀ j, t ∉ L j) → w'.running_timers = w.running_timers + 1) ∧
      ((∃ j, t ∈ L j) → w'.running_timers = w.running_timers) ∧
      w'.next (timer t) = some (spoke (insert_pos w.current_spoke d)) ∧
      w'.prev (spoke (insert_pos w.current_spoke d)) = some (timer t) := by
  by_cases hlk : ∃ i, t ∈ L i
  · obtain ⟨i, hti⟩ := hlk
    obtain ⟨l1, l2, hL⟩ := List.append_of_mem hti
    have hi : i < WHEEL_SIZE := wheel_lists_lt hw.lists hti
    obtain ⟨hpv, hnx⟩ := wheel_segs_links hw.segs hi hL
    have hrm := wheel_lists_remove hw.lists hL
    have herase := wheel_lists_erase_eq hw.lists hL
    obtain ⟨wd, hwd⟩ : ∃ wd : timer_wheel_, wd = { w with
        prev := Function.update w.prev (seg_first l2 (spoke i)) (some (seg_last (spoke i) l1))
        next := Function.update w.next (seg_last (spoke i) l1) (some (seg_first l2 (spoke i)))
        running_timers := w.running_timers - 1
        duration := Function.update w.duration t d } := ⟨_, rfl⟩
    have hd : wd.duration t = d := by rw [hwd]; exact Function.update_same _ _ _
    have hc : wd.current_spoke = w.current_spoke := by rw [hwd]
    obtain ⟨w', hins, hinv, hrot, hcur, hfired, hrun, hexp, _, hnt, hps⟩ :=
      insert_timer_spec (t := t) (L := Function.update L i (l1 ++ l2)) (w := wd)
        (by rw [hwd]; exact hw.spokes) (by rw [hwd]; exact hw.cur) hrm.1
        (by
          rw [hwd]
          exact wheel_segs_unlink hw.segs hw.lists hL (fun _ _ => rfl) (fun _ _ => rfl)) hrm.2
        (by
          intro u hut hu
          have hidle : ∀ j, u ∉ L j := fun j hm => hu j (mem_update_remove hL hm hut)
          obtain ⟨h1, h2⟩ := hw.idle u hidle
          rw [hwd]
          constructor
          · show Function.update w.next _ _ (timer u) = none
            rw [Function.update_noteq (seg_last_ne_idle hL (hidle i))]; exact h1
          · show Function.update w.prev _ _ (timer u) = none
            rw [Function.update_noteq (seg_first_ne_idle hL (hidle i))]; exact h2)
    rw [hd, hc] at hinv hnt hps
    rw [hd] at hrot
    refine ⟨{ w' with running_timers := w'.running_timers + 1 }, ?_, ?_⟩
    · simp only [lmtimer_start, hnx, hpv, ← hwd, hins]
    · have hfun : (fun j => (L j).erase t) (insert_pos w.current_spoke d) =
          (L (insert_pos w.current_spoke d)).erase t := rfl
      rw [← hfun, herase]
      refine ⟨⟨hinv.spokes, hinv.cur, hinv.lists, hinv.segs, hinv.idle⟩,
        by rw [hrot, hwd], by rw [hcur, hwd], by rw [hfired, hwd], by rw [hexp, hwd],
        ?_, ?_, hnt, hps⟩
      · intro hno; exact absurd hti (hno i)
      · intro _
        show w'.running_timers + 1 = _
        rw [hrun, hwd]
        show w.running_timers - 1 + 1 = _
        omega
  · have hno : ∀ j, t ∉ L j := fun j hm => hlk ⟨j, hm⟩
    obtain ⟨h1, h2⟩ := hw.idle t hno
    obtain ⟨wd, hwd⟩ : ∃ wd : timer_wheel_, wd = { w with
        duration := Function.update w.duration t d } := ⟨_, rfl⟩
    have hd : wd.duration t = d := by rw [hwd]; exact Function.update_same _ _ _
    have hc : wd.current_spoke = w.current_spoke := by rw [hwd]
    obtain ⟨w', hins, hinv, hrot, hcur, hfired, hrun, hexp, _, hnt, hps⟩ :=
      insert_timer_spec (t := t) (L := L) (w := wd)
        (by rw [hwd]; exact hw.spokes) (by rw [hwd]; exact hw.cur) hw.lists
        (by rw [hwd]; exact hw.segs) hno (fun u _ hu => by rw [hwd]; exact hw.idle u hu)
    rw [hd, hc] at hinv hnt hps
    rw [hd] at hrot
    refine ⟨{ w' with running_timers := w'.running_timers + 1 }, ?_, ?_⟩
    · simp only [lmtimer_start, h1, ← hwd, hins]
    · rw [wheel_lists_erase_idle hno, List.erase_of_not_mem (hno _)]
      refine ⟨⟨hinv.spokes, hinv.cur, hinv.lists, hinv.segs, hinv.idle⟩,
        by rw [hrot, hwd], by rw [hcur, hwd], by rw [hfired, hwd], by rw [hexp, hwd],
        ?_, ?_, hnt, hps⟩
      · intro _
        show w'.running_timers + 1 = _
        rw [hrun, hwd]
      · intro hex; exact absurd hex hlk

/-! ## `handle_timers` -/

theorem handle_timers_loop_done (cb : lmtimer_callback_t) (cur k : Nat) (w : timer_wheel_) :
    handle_timers_loop cb cur (k + 1) (some (spoke cur)) w = Except.ok w := by
  simp [handle_timers_loop]

/-- One iteration on a timer with a positive rotation count: the count is
decremented and the cursor is reloaded from `prev->next`. -/
theorem handle_timers_loop_dec (cb : lmtimer_callback_t) (cur k : Nat) (w : timer_wheel_)
    (t : Nat) (p : lmtimer_ref) (hr : 0 < w.rotation_count t)
    (hp : w.prev (timer t) = some p) :
    handle_timers_loop cb cur (k + 1) (some (timer t)) w =
      handle_timers_loop cb cur k (w.next p)
        { w with rotation_count :=
            Function.update w.rotation_count t (w.rotation_count t - 1) } := by
  simp [handle_timers_loop, hr, hp]

/-- One iteration on a timer whose rotation count is zero: the timer is
unlinked, the callback runs, and the cursor is reloaded from `prev->next`. -/
theorem handle_timers_loop_fire (cb : lmtimer_callback_t) (cur k : Nat) (w w2 : timer_wheel_)
    (t : Nat) (p n : lmtimer_ref) (hr : w.rotation_count t = 0)
    (hp : w.prev (timer t) = some p) (hn : w.next (timer t) = some n)
    (hcb : cb t { w with
        next := Function.update (Function.update w.next p (some n)) (timer t) none
        prev := Function.update (Function.update w.prev n (some p)) (timer t) none
        running_timers := w.running_timers - 1
        expirations := w.expirations + 1
        fired := w.fired ++ [t] } = Except.ok w2) :
    handle_timers_loop cb cur (k + 1) (some (timer t)) w =
      handle_timers_loop cb cur k (w2.next p) w2 := by
  simp [handle_timers_loop, hr, hp, hn, hcb]

/-- The walk over a spoke with callbacks that do not touch the wheel: with
enough fuel the loop returns; every timer of the spoke has been unlinked and
fired, in list order, whatever its rotation count was. -/
theorem handle_timers_loop_spec (cur : Nat) :
    ∀ (l : List Nat) (w : timer_wheel_) (L : Nat → List Nat), wheel_inv w L → L cur = l →
      cur < WHEEL_SIZE →
      ∃ N w', (∀ fuel, N ≤ fuel →
          handle_timers_loop cb_skip cur fuel (w.next (spoke cur)) w = Except.ok w') ∧
        wheel_inv w' (Function.update L cur []) ∧
        w'.fired = w.fired ++ l ∧
        w'.current_spoke = w.current_spoke ∧
        w'.running_timers = w.running_timers - l.length ∧
        w'.expirations = w.expirations + l.length ∧
        (∀ u, u ∉ l → w'.rotation_count u = w.rotation_count u) ∧
        (∀ u, u ∈ l → w'.rotation_count u = 0) := by
  intro l
  induction l with
  | nil =>
    intro w L hw hL hcur
    have hseg := hw.segs cur hcur
    rw [hL] at hseg
    refine ⟨1, w, ?_, ?_, by simp, rfl, by simp, by simp, fun _ _ => rfl, ?_⟩
    · intro fuel hf
      obtain ⟨k, rfl⟩ : ∃ k, fuel = k + 1 := ⟨fuel - 1, by omega⟩
      rw [hseg.1]
      exact handle_timers_loop_done _ _ _ _
    · rw [← hL, Function.update_eq_self]; exact hw
    · intro u hu; exact absurd hu (List.not_mem_nil _)
  | cons t l ih =>
    intro w L hw hL hcur
    -- inner induction on the rotation count of the first timer
    have key : ∀ (r : Nat) (w : timer_wheel_), wheel_inv w L → w.rotation_count t = r →
        ∃ N w', (∀ fuel, N ≤ fuel →
          handle_timers_loop cb_skip cur fuel (w.next (spoke cur)) w = Except.ok w') ∧
        wheel_inv w' (Function.update L cur []) ∧
        w'.fired = w.fired ++ t :: l ∧
        w'.current_spoke = w.current_spoke ∧
        w'.running_timers = w.running_timers - (t :: l).length ∧
        w'.expirations = w.expirations + (t :: l).length ∧
        (∀ u, u ∉ t :: l → w'.rotation_count u = w.rotation_count u) ∧
        (∀ u, u ∈ t :: l → w'.rotation_count u = 0) := by
      intro r
      induction r with
      | zero =>
        intro w hw hr
        have hL0 : L cur = [] ++ t :: l := hL
        obtain ⟨hpv, hnx⟩ := wheel_segs_links hw.segs hcur hL0
        have hstart : w.next (spoke cur) = some (timer t) := by
          have := dll_seg_next_start (hw.segs cur hcur)
          rw [hL] at this
          exact this
        obtain ⟨w1, hw1⟩ : ∃ w1 : timer_wheel_, w1 = { w with
            next := Function.update (Function.update w.next (spoke cur)
              (some (seg_first l (spoke cur)))) (timer t) none
            prev := Function.update (Function.update w.prev (seg_first l (spoke cur))
              (some (spoke cur))) (timer t) none
            running_timers := w.running_timers - 1
            expirations := w.expirations + 1
            fired := w.fired ++ [t] } := ⟨_, rfl⟩
        have hinv1 : wheel_inv w1 (Function.update L cur l) :=
          wheel_inv_unlink hw hL0 (by rw [hw1]) (by rw [hw1]) (by rw [hw1]; rfl) (by rw [hw1]; rfl)
        obtain ⟨N, w', hrun, hinv', hf', hc', hrt', hex', hrot1, hrot2⟩ :=
          ih w1 (Function.update L cur l) hinv1 (Function.update_same _ _ _) hcur
        have htl : t ∉ l := (List.nodup_cons.mp (hL ▸ hw.lists.nodup cur)).1
        refine ⟨N + 1, w', ?_, ?_, ?_, ?_, ?_, ?_, ?_, ?_⟩
        · intro fuel hf
          obtain ⟨k, rfl⟩ : ∃ k, fuel = k + 1 := ⟨fuel - 1, by omega⟩
          rw [hstart]
          rw [handle_timers_loop_fire cb_skip cur k w w1 t (spoke cur) (seg_first l (spoke cur))
            hr hpv hnx (by rw [hw1]; rfl)]
          exact hrun k (by omega)
        · rw [Function.update_idem] at hinv'; exact hinv'
        · rw [hf', hw1]; simp
        · rw [hc', hw1]
        · rw [hrt', hw1]; simp only [List.length_cons]; push_cast; omega
        · rw [hex', hw1]; simp only [List.length_cons]; push_cast; omega
        · intro u hu
          rw [hrot1 u (fun hm => hu (List.mem_cons_of_mem _ hm)), hw1]
        · intro u hu
          rcases List.mem_cons.mp hu with rfl | hu
          · rw [hrot1 u htl, hw1]; exact hr
          · exact hrot2 u hu
      | succ r ihr =>
        intro w hw hr
        have hL0 : L cur = [] ++ t :: l := hL
        obtain ⟨hpv, _⟩ := wheel_segs_links hw.segs hcur hL0
        have hstart : w.next (spoke cur) = some (timer t) := by
          have := dll_seg_next_start (hw.segs cur hcur)
          rw [hL] at this
          exact this
        obtain ⟨w1, hw1⟩ : ∃ w1 : timer_wheel_, w1 = { w with
            rotation_count := Function.update w.rotation_count t (w.rotation_count t - 1) } :=
          ⟨_, rfl⟩
        have hinv1 : wheel_inv w1 L := by
          rw [hw1]; exact ⟨hw.spokes, hw.cur, hw.lists, hw.segs, hw.idle⟩
        have hr1 : w1.rotation_count t = r := by
          rw [hw1]
          show Function.update w.rotation_count t (w.rotation_count t - 1) t = r
          rw [Function.update_same, hr]; rfl
        obtain ⟨N, w', hrun, hinv', hf', hc', hrt', hex', hrot1, hrot2⟩ := ihr w1 hinv1 hr1
        refine ⟨N + 1, w', ?_, hinv', ?_, ?_, ?_, ?_, ?_, hrot2⟩
        · intro fuel hf
          obtain ⟨k, rfl⟩ : ∃ k, fuel = k + 1 := ⟨fuel - 1, by omega⟩
          rw [hstart, handle_timers_loop_dec cb_skip cur k w t (spoke cur) (by omega) hpv]
          have := hrun k (by omega)
          rw [hw1] at this
          exact this
        · rw [hf', hw1]
        · rw [hc', hw1]
        · rw [hrt', hw1]
        · rw [hex', hw1]
        · intro u hu
          rw [hrot1 u hu, hw1]
          show Function.update w.rotation_count t (w.rotation_count t - 1) u = _
          have hut : u ≠ t := fun he => hu (by rw [he]; exact List.mem_cons_self _ _)
          rw [Function.update_noteq hut]
    exact key (w.rotation_count t) w hw rfl

/-- One tick with callbacks that do not touch the wheel: with enough fuel
`handle_timers` returns; the current spoke has advanced by one and every timer
that was linked on the new current spoke has been unlinked and fired, in list
order, with its rotation count run down to zero.  Other spokes are untouched. -/
theorem handle_timers_spec {w : timer_wheel_} {L : Nat → List Nat} (hw : wheel_inv w L) :
    ∃ N w', (∀ fuel, N ≤ fuel → handle_timers cb_skip fuel w = Except.ok w') ∧
      wheel_inv w' (Function.update L ((w.current_spoke + 1) % WHEEL_SIZE) []) ∧
      w'.current_spoke = (w.current_spoke + 1) % WHEEL_SIZE ∧
      w'.fired = w.fired ++ L ((w.current_spoke + 1) % WHEEL_SIZE) ∧
      w'.running_timers = w.running_timers - (L ((w.current_spoke + 1) % WHEEL_SIZE)).length ∧
      w'.expirations = w.expirations + (L ((w.current_spoke + 1) % WHEEL_SIZE)).length ∧
      (∀ u, u ∉ L ((w.current_spoke + 1) % WHEEL_SIZE) →
        w'.rotation_count u = w.rotation_count u) ∧
      (∀ u, u ∈ L ((w.current_spoke + 1) % WHEEL_SIZE) → w'.rotation_count u = 0) := by
  have hlt : (w.current_spoke + 1) % WHEEL_SIZE < WHEEL_SIZE := Nat.mod_lt _ (by decide)
  obtain ⟨w1, hw1⟩ : ∃ w1 : timer_wheel_, w1 = { w with
      current_spoke := (w.current_spoke + 1) % w.num_spokes } := ⟨_, rfl⟩
  have hc1 : w1.current_spoke = (w.current_spoke + 1) % WHEEL_SIZE := by
    rw [hw1, ← hw.spokes]
  have hinv1 : wheel_inv w1 L := by
    refine ⟨?_, hc1 ▸ hlt, hw.lists, ?_, ?_⟩
    · rw [hw1]; exact hw.spokes
    · rw [hw1]; exact hw.segs
    · rw [hw1]; exact hw.idle
  obtain ⟨N, w', hrun, hinv', hf', hc', hrt', hex', hrot1, hrot2⟩ :=
    handle_timers_loop_spec ((w.current_spoke + 1) % WHEEL_SIZE) _ w1 L hinv1 rfl hlt
  refine ⟨N, w', ?_, hinv', hc'.trans hc1, ?_, ?_, ?_, ?_, hrot2⟩
  · intro fuel hf
    have hns : w.num_spokes ≠ 0 := by rw [hw.spokes]; decide
    have := hrun fuel hf
    have hnx : w1.next = w.next := by rw [hw1]
    simp only [handle_timers, hns, if_false]
    rw [← hw1, hw.spokes, ← hnx]
    exact this
  · rw [hf', hw1]
  · rw [hrt', hw1]
  · rw [hex', hw1]
  · intro u hu; rw [hrot1 u hu, hw1]

theorem clear_spokes_subset (L : Nat → List Nat) (c k i u : Nat)
    (h : u ∈ clear_spokes L c k i) : u ∈ L i := by
  induction k with
  | zero => exact h
  | succ k ih =>
    by_cases hi : i = (c + k + 1) % WHEEL_SIZE
    · subst hi
      simp [clear_spokes] at h
    · simp only [clear_spokes, Function.update_noteq hi] at h
      exact ih h

theorem clear_spokes_keep (L : Nat → List Nat) (c k i : Nat)
    (h : ∀ j, j < k → i ≠ (c + j + 1) % WHEEL_SIZE) : clear_spokes L c k i = L i := by
  induction k with
  | zero => rfl
  | succ k ih =>
    simp only [clear_spokes, Function.update_noteq (h k (Nat.lt_succ_self k))]
    exact ih (fun j hj => h j (Nat.lt_succ_of_lt hj))

/-- A timer fired within `k` ticks was on one of the spokes passed over. -/
theorem mem_fired_by (L : Nat → List Nat) (c k u : Nat) (h : u ∈ fired_by L c k) :
    ∃ j, j < k ∧ u ∈ L ((c + j + 1) % WHEEL_SIZE) := by
  induction k with
  | zero => exact absurd h (List.not_mem_nil _)
  | succ k ih =>
    rcases List.mem_append.mp h with h | h
    · obtain ⟨j, hj, hu⟩ := ih h
      exact ⟨j, Nat.lt_succ_of_lt hj, hu⟩
    · exact ⟨k, Nat.lt_succ_self k, clear_spokes_subset L c k _ u h⟩

/-- Specification of `k` ticks with callbacks that do not touch the wheel: with enough fuel they
all return, and the trace grows by the contents of the spokes passed over. -/
theorem handle_timers_n_spec {w : timer_wheel_} {L : Nat → List Nat} (hw : wheel_inv w L)
    (k : Nat) :
    ∃ N w', (∀ fuel, N ≤ fuel → handle_timers_n cb_skip fuel k w = Except.ok w') ∧
      wheel_inv w' (clear_spokes L w.current_spoke k) ∧
      w'.current_spoke = (w.current_spoke + k) % WHEEL_SIZE ∧
      w'.fired = w.fired ++ fired_by L w.current_spoke k := by
  induction k with
  | zero =>
    refine ⟨0, w, fun _ _ => rfl, hw, ?_, by simp [fired_by]⟩
    exact (Nat.mod_eq_of_lt hw.cur).symm
  | succ k ih =>
    obtain ⟨N1, w1, hrun1, hinv1, hc1, hf1⟩ := ih
    obtain ⟨N2, w2, hrun2, hinv2, hc2, hf2, _⟩ := handle_timers_spec hinv1
    have hidx : (w1.current_spoke + 1) % WHEEL_SIZE = (w.current_spoke + k + 1) % WHEEL_SIZE := by
      rw [hc1]; unfold WHEEL_SIZE; omega
    rw [hidx] at hinv2 hc2 hf2
    refine ⟨max N1 N2, w2, ?_, hinv2, hc2, ?_⟩
    · intro fuel hf
      simp only [handle_timers_n, hrun1 fuel (le_trans (le_max_left _ _) hf)]
      exact hrun2 fuel (le_trans (le_max_right _ _) hf)
    · rw [hf2, hf1, List.append_assoc]; rfl

theorem handle_timers_loop_mono (cb : lmtimer_callback_t) (cur : Nat) :
    ∀ (f : Nat) (tptr : Option lmtimer_ref) (w w' : timer_wheel_),
      handle_timers_loop cb cur f tptr w = Except.ok w' →
      ∀ f', f ≤ f' → handle_timers_loop cb cur f' tptr w = Except.ok w' := by
  intro f
  induction f with
  | zero => intro tptr w w' h; simp [handle_timers_loop] at h
  | succ f ih =>
    intro tptr w w' h f' hf
    obtain ⟨k, rfl⟩ : ∃ k, f' = k + 1 := ⟨f' - 1, by omega⟩
    have hk : f ≤ k := by omega
    match tptr with
    | none => simp [handle_timers_loop] at h
    | some (spoke i) => simpa [handle_timers_loop] using h
    | some (timer t) =>
      simp only [handle_timers_loop] at h ⊢
      split at h
      · rename_i hr
        rw [if_pos hr]
        split at h
        · cases h
        · rename_i p hp
          exact ih _ _ _ h k hk
      · rename_i hr
        rw [if_neg hr]
        split at h
        · cases h
        · split at h
          · cases h
          · split at h
            · cases h
            · exact ih _ _ _ h k hk

theorem handle_timers_mono (cb : lmtimer_callback_t) (f : Nat) (w w' : timer_wheel_)
    (h : handle_timers cb f w = Except.ok w') (f' : Nat) (hf : f ≤ f') :
    handle_timers cb f' w = Except.ok w' := by
  unfold handle_timers at h ⊢
  split at h
  · cases h
  · rename_i hns
    simp only [hns, if_false]
    exact handle_timers_loop_mono cb _ f _ _ _ h f' hf

theorem wheel_inv_init : wheel_inv lmtimers_init (fun _ => []) := by
  refine ⟨rfl, by decide, ⟨fun _ _ => rfl, fun _ => List.nodup_nil, ?_⟩, ?_, ?_⟩
  · intro i j t h; exact absurd h (List.not_mem_nil _)
  · intro i hi
    simp [dll_seg, lmtimers_init, hi]
  · intro t _; exact ⟨rfl, rfl⟩

/-! ## Sequences of calls -/

theorem lmtimer_stop_links (w : timer_wheel_) (t : Nat) :
    (lmtimer_stop (some t) w).next (timer t) = none ∧
      (lmtimer_stop (some t) w).prev (timer t) = none := by
  simp [lmtimer_stop]

theorem mem_of_mem_update_remove {L : Nat → List Nat} {i t : Nat} {l1 l2 : List Nat}
    (hL : L i = l1 ++ t :: l2) {j u : Nat} (hu : u ∈ Function.update L i (l1 ++ l2) j) :
    u ∈ L j := by
  by_cases hj : j = i
  · subst hj
    rw [Function.update_same] at hu
    rw [hL]
    rcases List.mem_append.mp hu with hu | hu
    · exact List.mem_append_left _ hu
    · exact List.mem_append_right _ (List.mem_cons_of_mem _ hu)
  · rwa [Function.update_noteq hj] at hu

/-- A timer that is on no spoke stays off the wheel and is never fired, whatever
is done with the other timers and however often the wheel ticks, as long as it
is not started. -/
theorem run_ops_idle (t : Nat) (ops : List wheel_op) :
    ∀ (w : timer_wheel_) (L : Nat → List Nat), wheel_inv w L → (∀ j, t ∉ L j) →
      (∀ d, wheel_op.start t d ∉ ops) →
      ∃ N w' L' extra, (∀ fuel, N ≤ fuel → run_ops cb_skip fuel ops w = Except.ok w') ∧
        wheel_inv w' L' ∧ (∀ j, t ∉ L' j) ∧ w'.fired = w.fired ++ extra ∧ t ∉ extra := by
  induction ops with
  | nil =>
    intro w L hw ht _
    exact ⟨0, w, L, [], fun _ _ => rfl, hw, ht, by simp, List.not_mem_nil _⟩
  | cons op ops ih =>
    intro w L hw ht hops
    have hops' : ∀ d, wheel_op.start t d ∉ ops :=
      fun d hm => hops d (List.mem_cons_of_mem _ hm)
    cases op with
    | start u d =>
      have hut : u ≠ t := by
        rintro rfl
        exact hops d (List.mem_cons_self _ _)
      obtain ⟨w1, hrun1, hinv1, _, _, hf1, _⟩ := lmtimer_start_spec hw u d
      have ht1 : ∀ j, t ∉ Function.update (fun j => (L j).erase u)
          (insert_pos w.current_spoke d) ((L (insert_pos w.current_spoke d)).erase u ++ [u]) j := by
        intro j hm
        by_cases hj : j = insert_pos w.current_spoke d
        · subst hj
          rw [Function.update_same] at hm
          rcases List.mem_append.mp hm with hm | hm
          · exact ht _ (List.mem_of_mem_erase hm)
          · exact hut (List.mem_singleton.mp hm).symm
        · rw [Function.update_noteq hj] at hm
          exact ht j (List.mem_of_mem_erase hm)
      obtain ⟨N, w', L', extra, hrun, hinv, ht', hf, hex⟩ := ih w1 _ hinv1 ht1 hops'
      refine ⟨N, w', L', extra, ?_, hinv, ht', by rw [hf, hf1], hex⟩
      intro fuel hfu
      simp only [run_ops, hrun1]
      exact hrun fuel hfu
    | stop u =>
      by_cases hlk : ∃ i, u ∈ L i
      · obtain ⟨i, hui⟩ := hlk
        obtain ⟨l1, l2, hL⟩ := List.append_of_mem hui
        obtain ⟨hinv1, _, hf1, _⟩ := lmtimer_stop_linked hw hL
        obtain ⟨N, w', L', extra, hrun, hinv, ht', hf, hex⟩ :=
          ih _ _ hinv1 (fun j hm => ht j (mem_of_mem_update_remove hL hm)) hops'
        refine ⟨N, w', L', extra, ?_, hinv, ht', by rw [hf, hf1], hex⟩
        intro fuel hfu
        simp only [run_ops]
        exact hrun fuel hfu
      · have hno : ∀ j, u ∉ L j := fun j hm => hlk ⟨j, hm⟩
        obtain ⟨h1, h2⟩ := hw.idle u hno
        obtain ⟨N, w', L', extra, hrun, hinv, ht', hf, hex⟩ := ih w L hw ht hops'
        refine ⟨N, w', L', extra, ?_, hinv, ht', hf, hex⟩
        intro fuel hfu
        simp only [run_ops, lmtimer_stop_idle w u h1 h2]
        exact hrun fuel hfu
    | tick =>
      obtain ⟨N1, w1, hrun1, hinv1, _, hf1, _⟩ := handle_timers_spec hw
      have ht1 : ∀ j, t ∉ Function.update L ((w.current_spoke + 1) % WHEEL_SIZE) [] j := by
        intro j hm
        by_cases hj : j = (w.current_spoke + 1) % WHEEL_SIZE
        · subst hj
          rw [Function.update_same] at hm
          exact List.not_mem_nil _ hm
        · rw [Function.update_noteq hj] at hm
          exact ht j hm
      obtain ⟨N, w', L', extra, hrun, hinv, ht', hf, hex⟩ := ih w1 _ hinv1 ht1 hops'
      refine ⟨max N1 N, w', L', L ((w.current_spoke + 1) % WHEEL_SIZE) ++ extra, ?_, hinv, ht',
        by rw [hf, hf1, List.append_assoc], ?_⟩
      · intro fuel hfu
        simp only [run_ops, hrun1 fuel (le_trans (le_max_left _ _) hfu)]
        exact hrun fuel (le_trans (le_max_right _ _) hfu)
      · intro hm
        rcases List.mem_append.mp hm with hm | hm
        · exact ht _ hm
        · exact hex hm


theorem wheel_inv_one_timer :
    wheel_inv wheel_one_timer (Function.update (fun _ => []) 1 [0]) := by
  obtain ⟨w', h, hinv, _⟩ := lmtimer_start_spec wheel_inv_init 0 1
  have hw : wheel_one_timer = w' := by unfold wheel_one_timer; rw [h]; rfl
  rw [hw]
  exact hinv

theorem clear_spokes_cleared (L : Nat → List Nat) (c k j : Nat) (hj : j < k) :
    clear_spokes L c k ((c + j + 1) % WHEEL_SIZE) = [] := by
  induction k with
  | zero => exact absurd hj (Nat.not_lt_zero _)
  | succ k ih =>
    by_cases hjk : (c + j + 1) % WHEEL_SIZE = (c + k + 1) % WHEEL_SIZE
    · simp only [clear_spokes]; rw [hjk, Function.update_same]
    · simp only [clear_spokes]; rw [Function.update_noteq hjk]
      have : j ≠ k := fun he => hjk (by rw [he])
      exact ih (by omega)

/-- A timer on spoke `(c + m) mod 4096`, `1 <= m <= 4096`, is not fired by fewer
than `m` ticks. -/
theorem not_mem_fired_by {L : Nat → List Nat} (hl : wheel_lists L) {c m k t : Nat}
    (hm1 : 1 ≤ m) (hm2 : m ≤ WHEEL_SIZE) (ht : t ∈ L ((c + m) % WHEEL_SIZE)) (hk : k < m) :
    t ∉ fired_by L c k := by
  intro hmem
  obtain ⟨j, hj, hu⟩ := mem_fired_by L c k t hmem
  have := hl.disj _ _ t hu ht
  unfold WHEEL_SIZE at this hm2
  omega

/-- A timer on spoke `(c + m) mod 4096`, `1 <= m <= 4096`, is fired exactly once
by `m` or more ticks. -/
theorem count_fired_by {L : Nat → List Nat} (hl : wheel_lists L) {c m t : Nat}
    (hm1 : 1 ≤ m) (hm2 : m ≤ WHEEL_SIZE) (ht : t ∈ L ((c + m) % WHEEL_SIZE)) :
    ∀ k, m ≤ k → (fired_by L c k).count t = 1 := by
  intro k hk
  induction k with
  | zero => omega
  | succ k ih =>
    simp only [fired_by, List.count_append]
    by_cases hkm : k + 1 = m
    · have h0 : (fired_by L c k).count t = 0 :=
        List.count_eq_zero.mpr (not_mem_fired_by hl hm1 hm2 ht (by omega))
      have hidx : (c + k + 1) % WHEEL_SIZE = (c + m) % WHEEL_SIZE := by rw [← hkm]; rfl
      have hkeep : clear_spokes L c k ((c + k + 1) % WHEEL_SIZE) = L ((c + m) % WHEEL_SIZE) := by
        rw [hidx]
        apply clear_spokes_keep
        intro j hj
        unfold WHEEL_SIZE at hm2 ⊢
        omega
      rw [h0, hkeep, List.count_eq_one_of_mem (hl.nodup _) ht]
    · have h1 := ih (by omega)
      have h0 : (clear_spokes L c k ((c + k + 1) % WHEEL_SIZE)).count t = 0 := by
        apply List.count_eq_zero.mpr
        intro hmem
        have hin := clear_spokes_subset L c k _ t hmem
        have hidx := hl.disj _ _ t hin ht
        rw [hidx] at hmem
        have hcl := clear_spokes_cleared L c k (m - 1) (by omega)
        have hm' : c + (m - 1) + 1 = c + m := by omega
        rw [hm'] at hcl
        rw [hcl] at hmem
        exact List.not_mem_nil _ hmem
      rw [h1, h0]

theorem insert_pos_eq_first_visit (c : Nat) (d : Int) :
    insert_pos c d = (c + first_visit d) % WHEEL_SIZE := by
  unfold insert_pos first_visit WHEEL_SIZE
  omega

/-- When a started timer actually fires: after `lmtimer_start(t, d)` on a
well-formed wheel, with callbacks that do not touch the wheel, `t`'s callback is
not invoked during the first `first_visit d - 1` ticks and is invoked exactly
once during tick number `first_visit d`, whatever the rotation count. -/
theorem lmtimer_fires_at_first_visit {w : timer_wheel_} {L : Nat → List Nat}
    (hw : wheel_inv w L) (t : Nat) (d : Int) :
    ∃ w1, lmtimer_start t d w = Except.ok w1 ∧
      w1.rotation_count t = insert_rot d ∧
      w1.next (timer t) = some (spoke (insert_pos w.current_spoke d)) ∧
      ∀ k, ∃ N w2 extra,
        (∀ fuel, N ≤ fuel → handle_timers_n cb_skip fuel k w1 = Except.ok w2) ∧
        w2.fired = w.fired ++ extra ∧
        (k < first_visit d → t ∉ extra) ∧ (first_visit d ≤ k → extra.count t = 1) := by
  obtain ⟨w1, hrun1, hinv1, hrot, hc1, hf1, _, _, _, hnt, _⟩ := lmtimer_start_spec hw t d
  refine ⟨w1, hrun1, by rw [hrot, Function.update_same], hnt, ?_⟩
  intro k
  obtain ⟨N, w2, hrun2, _, _, hf2⟩ := handle_timers_n_spec hinv1 k
  have hm1 : 1 ≤ first_visit d := by unfold first_visit; omega
  have hm2 : first_visit d ≤ WHEEL_SIZE := by unfold first_visit WHEEL_SIZE; omega
  have ht : t ∈ Function.update (fun j => (L j).erase t) (insert_pos w.current_spoke d)
      ((L (insert_pos w.current_spoke d)).erase t ++ [t])
      ((w1.current_spoke + first_visit d) % WHEEL_SIZE) := by
    rw [hc1, ← insert_pos_eq_first_visit, Function.update_same]
    exact List.mem_append_right _ (List.mem_singleton_self _)
  refine ⟨N, w2, _, hrun2, by rw [hf2, hf1], ?_, ?_⟩
  · intro hk
    exact not_mem_fired_by hinv1.lists hm1 hm2 ht hk
  · intro hk
    exact count_fired_by hinv1.lists hm1 hm2 ht k hk

theorem filter_erase_not_mem {l : List Nat} (hnd : l.Nodup) (t : Nat) (ts : List Nat) :
    (l.erase t).filter (fun u => decide (u ∉ ts)) =
      l.filter (fun u => decide (u ∉ t :: ts)) := by
  rw [List.Nodup.erase_eq_filter hnd, List.filter_filter]
  congr 1
  funext u
  by_cases h1 : u ∈ ts <;> by_cases h2 : u = t <;> simp [h1, h2]

/-- Consecutive starts that all land on spoke `s` leave their timers at the tail
of that spoke in the order of the calls (a timer started more than once counts
by its last start), behind the timers that were already there. -/
theorem lmtimer_start_all_spec (s : Nat) (starts : List (Nat × Int)) :
    ∀ (w : timer_wheel_) (L : Nat → List Nat), wheel_inv w L →
      (∀ p, p ∈ starts → insert_pos w.current_spoke p.2 = s) →
      ∃ w1 L1, lmtimer_start_all starts w = Except.ok w1 ∧ wheel_inv w1 L1 ∧
        w1.current_spoke = w.current_spoke ∧ w1.fired = w.fired ∧
        L1 s = (L s).filter (fun u => decide (u ∉ starts.map Prod.fst)) ++
          (starts.map Prod.fst).dedup := by
  induction starts with
  | nil =>
    intro w L hw _
    exact ⟨w, L, rfl, hw, rfl, rfl, by simp⟩
  | cons p rest ih =>
    intro w L hw hpos
    obtain ⟨t, d⟩ := p
    obtain ⟨w', hrun, hinv, _, hc, hf, _⟩ := lmtimer_start_spec hw t d
    have hs : insert_pos w.current_spoke d = s := hpos (t, d) (List.mem_cons_self _ _)
    rw [hs] at hinv
    obtain ⟨w1, L1, hrun1, hinv1, hc1, hf1, hL1⟩ := ih w' _ hinv
      (fun p hp => by rw [hc]; exact hpos p (List.mem_cons_of_mem _ hp))
    refine ⟨w1, L1, ?_, hinv1, hc1.trans hc, hf1.trans hf, ?_⟩
    · simp only [lmtimer_start_all, hrun]
      exact hrun1
    · rw [hL1, Function.update_same, List.filter_append,
        filter_erase_not_mem (hw.lists.nodup s)]
      by_cases htr : t ∈ List.map Prod.fst rest
      · have h1 : List.filter (fun u => decide (u ∉ List.map Prod.fst rest)) [t] = [] := by
          simp [htr]
        have h2 : (List.map Prod.fst ((t, d) :: rest)).dedup = (List.map Prod.fst rest).dedup := by
          rw [List.map_cons]
          exact List.dedup_cons_of_mem htr
        rw [h1, h2, List.append_nil]
        rfl
      · have h1 : List.filter (fun u => decide (u ∉ List.map Prod.fst rest)) [t] = [t] := by
          simp [htr]
        have h2 : (List.map Prod.fst ((t, d) :: rest)).dedup =
            t :: (List.map Prod.fst rest).dedup := by
          rw [List.map_cons]
          exact List.dedup_cons_of_not_mem htr
        rw [h1, h2]
        simp

/-! ## Callbacks that start and stop timers -/

theorem timer_idle_start {t : Nat} {tr : List Nat} {w : timer_wheel_} (h : timer_idle t tr w)
    (u : Nat) (d : Int) (hut : u ≠ t) :
    ∃ w1, lmtimer_start u d w = Except.ok w1 ∧ timer_idle t tr w1 := by
  obtain ⟨L, extra, hw, ht, hf, hex⟩ := h
  obtain ⟨w1, hrun1, hinv1, _, _, hf1, _⟩ := lmtimer_start_spec hw u d
  refine ⟨w1, hrun1, _, extra, hinv1, ?_, by rw [hf1, hf], hex⟩
  intro j hm
  by_cases hj : j = insert_pos w.current_spoke d
  · subst hj
    rw [Function.update_same] at hm
    rcases List.mem_append.mp hm with hm | hm
    · exact ht _ (List.mem_of_mem_erase hm)
    · exact hut (List.mem_singleton.mp hm).symm
  · rw [Function.update_noteq hj] at hm
    exact ht j (List.mem_of_mem_erase hm)

theorem timer_idle_stop {t : Nat} {tr : List Nat} {w : timer_wheel_} (h : timer_idle t tr w)
    (u : Nat) : timer_idle t tr (lmtimer_stop (some u) w) := by
  obtain ⟨L, extra, hw, ht, hf, hex⟩ := h
  by_cases hlk : ∃ i, u ∈ L i
  · obtain ⟨i, hui⟩ := hlk
    obtain ⟨l1, l2, hL⟩ := List.append_of_mem hui
    obtain ⟨hinv1, _, hf1, _⟩ := lmtimer_stop_linked hw hL
    exact ⟨_, extra, hinv1, fun j hm => ht j (mem_of_mem_update_remove hL hm),
      by rw [hf1, hf], hex⟩
  · have hno : ∀ j, u ∉ L j := fun j hm => hlk ⟨j, hm⟩
    obtain ⟨h1, h2⟩ := hw.idle u hno
    rw [lmtimer_stop_idle w u h1 h2]
    exact ⟨L, extra, hw, ht, hf, hex⟩

/-- Calls that do not start `t` return and leave `t` off the wheel. -/
theorem timer_idle_run_calls {t : Nat} {tr : List Nat} (cs : List timer_call)
    (hcs : ∀ d, timer_call.start t d ∉ cs) :
    ∀ w, timer_idle t tr w → ∃ w1, run_calls cs w = Except.ok w1 ∧ timer_idle t tr w1 := by
  induction cs with
  | nil => intro w h; exact ⟨w, rfl, h⟩
  | cons c cs ih =>
    intro w h
    have hcs' : ∀ d, timer_call.start t d ∉ cs := fun d hm => hcs d (List.mem_cons_of_mem _ hm)
    cases c with
    | start u d =>
      have hut : u ≠ t := by
        rintro rfl
        exact hcs d (List.mem_cons_self _ _)
      obtain ⟨w1, hrun1, h1⟩ := timer_idle_start h u d hut
      obtain ⟨w2, hrun2, h2⟩ := ih hcs' w1 h1
      exact ⟨w2, by simp only [run_calls, hrun1]; exact hrun2, h2⟩
    | stop u =>
      obtain ⟨w2, hrun2, h2⟩ := ih hcs' _ (timer_idle_stop h u)
      exact ⟨w2, by simp only [run_calls]; exact hrun2, h2⟩

/-- The walk over a spoke, with callbacks that start and stop timers but never
start `t`: at every point of the walk (whether it has returned or is out of
fuel) `t` is on no spoke and its callback has not been invoked. -/
theorem timer_idle_loop {t : Nat} {tr : List Nat} (f : Nat → timer_wheel_ → List timer_call)
    (hf : ∀ u w d, timer_call.start t d ∉ f u w) (cur : Nat) (hcur : cur < WHEEL_SIZE) :
    ∀ (fuel : Nat) (w : timer_wheel_), timer_idle t tr w →
      timer_idle t tr (reached (handle_timers_loop (cb_calls f) cur fuel (w.next (spoke cur)) w)) := by
  intro fuel
  induction fuel with
  | zero => intro w h; exact h
  | succ k ih =>
    intro w h
    obtain ⟨L, extra, hw, ht, hfi, hex⟩ := h
    cases hL : L cur with
    | nil =>
      have hseg := hw.segs cur hcur
      rw [hL] at hseg
      rw [hseg.1, handle_timers_loop_done]
      exact ⟨L, extra, hw, ht, hfi, hex⟩
    | cons u l =>
      have hL0 : L cur = [] ++ u :: l := hL
      obtain ⟨hpv, hnx⟩ := wheel_segs_links hw.segs hcur hL0
      have hstart : w.next (spoke cur) = some (timer u) := by
        have := dll_seg_next_start (hw.segs cur hcur)
        rw [hL] at this
        exact this
      have hut : u ≠ t := by
        rintro rfl
        exact ht cur (by rw [hL]; exact List.mem_cons_self _ _)
      rw [hstart]
      by_cases hr : 0 < w.rotation_count u
      · rw [handle_timers_loop_dec _ cur k w u (spoke cur) hr hpv]
        obtain ⟨w1, hw1⟩ : ∃ w1 : timer_wheel_, w1 = { w with
            rotation_count := Function.update w.rotation_count u (w.rotation_count u - 1) } :=
          ⟨_, rfl⟩
        have hidle1 : timer_idle t tr w1 := by
          rw [hw1]
          exact ⟨L, extra, ⟨hw.spokes, hw.cur, hw.lists, hw.segs, hw.idle⟩, ht, hfi, hex⟩
        have hnx1 : w1.next = w.next := by rw [hw1]
        rw [← hw1, ← hnx1]
        exact ih w1 hidle1
      · obtain ⟨w1, hw1⟩ : ∃ w1 : timer_wheel_, w1 = { w with
            next := Function.update (Function.update w.next (spoke cur)
              (some (seg_first l (spoke cur)))) (timer u) none
            prev := Function.update (Function.update w.prev (seg_first l (spoke cur))
              (some (spoke cur))) (timer u) none
            running_timers := w.running_timers - 1
            expirations := w.expirations + 1
            fired := w.fired ++ [u] } := ⟨_, rfl⟩
        have hinv1 : wheel_inv w1 (Function.update L cur l) :=
          wheel_inv_unlink hw hL0 (by rw [hw1]) (by rw [hw1]) (by rw [hw1]; rfl)
            (by rw [hw1]; rfl)
        have hidle1 : timer_idle t tr w1 := by
          refine ⟨_, extra ++ [u], hinv1, ?_, ?_, ?_⟩
          · intro j hm
            exact ht j (mem_of_mem_update_remove hL0 hm)
          · rw [hw1]; show w.fired ++ [u] = _; rw [hfi, List.append_assoc]
          · intro hm
            rcases List.mem_append.mp hm with hm | hm
            · exact hex hm
            · exact hut (List.mem_singleton.mp hm).symm
        obtain ⟨w2, hcb, hidle2⟩ := timer_idle_run_calls (f u w1) (hf u w1) w1 hidle1
        rw [handle_timers_loop_fire (cb_calls f) cur k w w2 u (spoke cur) (seg_first l (spoke cur))
          (by omega) hpv hnx (by rw [← hw1]; exact hcb)]
        exact ih _ hidle2

/-- One tick with such callbacks keeps `t` off the wheel and unfired. -/
theorem timer_idle_tick {t : Nat} {tr : List Nat} (f : Nat → timer_wheel_ → List timer_call)
    (hf : ∀ u w d, timer_call.start t d ∉ f u w) (fuel : Nat) (w : timer_wheel_)
    (h : timer_idle t tr w) :
    timer_idle t tr (reached (handle_timers (cb_calls f) fuel w)) := by
  obtain ⟨L, extra, hw, ht, hfi, hex⟩ := h
  have hns : w.num_spokes ≠ 0 := by rw [hw.spokes]; decide
  have hlt : (w.current_spoke + 1) % WHEEL_SIZE < WHEEL_SIZE := Nat.mod_lt _ (by decide)
  obtain ⟨w1, hw1⟩ : ∃ w1 : timer_wheel_, w1 = { w with
      current_spoke := (w.current_spoke + 1) % w.num_spokes } := ⟨_, rfl⟩
  have hc1 : w1.current_spoke = (w.current_spoke + 1) % WHEEL_SIZE := by
    rw [hw1, ← hw.spokes]
  have h1 : timer_idle t tr w1 := by
    refine ⟨L, extra, ⟨?_, hc1 ▸ hlt, hw.lists, ?_, ?_⟩, ht, ?_, hex⟩
    · rw [hw1]; exact hw.spokes
    · rw [hw1]; exact hw.segs
    · rw [hw1]; exact hw.idle
    · rw [hw1]; exact hfi
  have hnx : w1.next = w.next := by rw [hw1]
  have h2 := timer_idle_loop f hf _ hlt fuel w1 h1
  simp only [handle_timers, hns, if_false]
  rw [← hw1, hw.spokes, ← hnx]
  exact h2

/-- Any sequence of ticks, starts and stops that does not start `t`, with such
callbacks, keeps `t` off the wheel and unfired, up to wherever the run gets. -/
theorem timer_idle_run_ops {t : Nat} {tr : List Nat} (f : Nat → timer_wheel_ → List timer_call)
    (hf : ∀ u w d, timer_call.start t d ∉ f u w) (fuel : Nat) (ops : List wheel_op)
    (hops : ∀ d, wheel_op.start t d ∉ ops) :
    ∀ w, timer_idle t tr w → timer_idle t tr (reached (run_ops (cb_calls f) fuel ops w)) := by
  induction ops with
  | nil => intro w h; exact h
  | cons op ops ih =>
    intro w h
    have hops' : ∀ d, wheel_op.start t d ∉ ops :=
      fun d hm => hops d (List.mem_cons_of_mem _ hm)
    cases op with
    | start u d =>
      have hut : u ≠ t := by
        rintro rfl
        exact hops d (List.mem_cons_self _ _)
      obtain ⟨w1, hrun1, h1⟩ := timer_idle_start h u d hut
      simp only [run_ops, hrun1]
      exact ih hops' w1 h1
    | stop u =>
      simp only [run_ops]
      exact ih hops' _ (timer_idle_stop h u)
    | tick =>
      have h1 := timer_idle_tick f hf fuel w h
      simp only [run_ops]
      cases hr : handle_timers (cb_calls f) fuel w with
      | error e =>
        rw [hr] at h1
        exact h1
      | ok w1 =>
        rw [hr] at h1
        exact ih hops' w1 h1

/-- Durations in the range of `int` that are not negative are their own
`uint32_t` value. -/
theorem to_uint32_natCast (d : Nat) (hd : d < 4294967296) : to_uint32 (d : Int) = d := by
  unfold to_uint32
  omega

/-- For durations of at most one turn of the wheel the first visit is tick `d`. -/
theorem first_visit_of_le (d : Nat) (h1 : 1 ≤ d) (h2 : d ≤ 4096) :
    first_visit (d : Int) = d := by
  unfold first_visit
  rw [to_uint32_natCast d (by omega)]
  unfold WHEEL_SIZE
  omega

/-- For longer durations (of type `int`) the first visit comes before tick `d`. -/
theorem first_visit_lt (d : Nat) (h1 : 4096 < d) (h2 : d < 2147483648) :
    first_visit (d : Int) < d := by
  unfold first_visit
  rw [to_uint32_natCast d (by omega)]
  unfold WHEEL_SIZE
  omega

/-! ## Timer wheel: the claims -/


/-- C1 (failing input): on the freshly initialised wheel, timer 0 started with
`d = 4097` has its callback invoked during the first call of `handle_timers`,
not during the 4097th. -/
theorem C1_start_4097_fires_on_first_tick :
    ∃ w1 w2, lmtimer_start 0 4097 lmtimers_init = Except.ok w1 ∧
      handle_timers cb_skip 3 w1 = Except.ok w2 ∧ w2.fired = [0] :=
  ⟨_, _, rfl, rfl, rfl⟩

/-- C2: on a well-formed wheel with current spoke `c`, `lmtimer_start(t, d)` with
`0 <= d` (an `int`) returns with `t` linked at the tail of spoke
`(c + d mod 4096) mod 4096`: the spoke's `prev` is `t`, `t`'s `next` is the spoke
sentinel, the spoke now lists its other timers followed by `t`; the rotation
counter of `t` is `d div 4096`, and `num_spokes` is 4096. -/
theorem C2_lmtimer_start_placement (w : timer_wheel_) (L : Nat → List Nat) (t d : Nat)
    (hw : wheel_inv w L) (hd : d < 2147483648) :
    ∃ w', lmtimer_start t (d : Int) w = Except.ok w' ∧
      w'.num_spokes = 4096 ∧
      w'.rotation_count t = d / 4096 ∧
      w'.next (timer t) = some (spoke ((w.current_spoke + d % 4096) % 4096)) ∧
      w'.prev (spoke ((w.current_spoke + d % 4096) % 4096)) = some (timer t) ∧
      wheel_inv w' (Function.update (fun j => (L j).erase t)
        ((w.current_spoke + d % 4096) % 4096)
        ((L ((w.current_spoke + d % 4096) % 4096)).erase t ++ [t])) := by
  obtain ⟨w', hrun, hinv, hrot, _, _, _, _, _, hnt, hps⟩ := lmtimer_start_spec hw t (d : Int)
  have hu : to_uint32 (d : Int) = d := to_uint32_natCast d (by omega)
  have hpos : insert_pos w.current_spoke (d : Int) = (w.current_spoke + d % 4096) % 4096 := by
    unfold insert_pos; rw [hu]; rfl
  have hr : insert_rot (d : Int) = d / 4096 := by
    unfold insert_rot; rw [hu]; rfl
  rw [hpos] at hinv hnt hps
  refine ⟨w', hrun, hinv.spokes, ?_, hnt, hps, hinv⟩
  rw [hrot, Function.update_same, hr]

/-- C2 at a concrete input: timer 3 started with `d = 5000` on the freshly
initialised wheel. -/
theorem C2_lmtimer_start_placement_witness :
    ∃ w', lmtimer_start 3 ((5000 : Nat) : Int) lmtimers_init = Except.ok w' ∧
      w'.num_spokes = 4096 ∧
      w'.rotation_count 3 = 5000 / 4096 ∧
      w'.next (timer 3) = some (spoke ((lmtimers_init.current_spoke + 5000 % 4096) % 4096)) ∧
      w'.prev (spoke ((lmtimers_init.current_spoke + 5000 % 4096) % 4096)) = some (timer 3) ∧
      wheel_inv w' (Function.update (fun j => ((fun _ => []) j : List Nat).erase 3)
        ((lmtimers_init.current_spoke + 5000 % 4096) % 4096)
        (((fun _ => []) ((lmtimers_init.current_spoke + 5000 % 4096) % 4096) : List Nat).erase 3
          ++ [3])) :=
  C2_lmtimer_start_placement lmtimers_init (fun _ => []) 3 5000 wheel_inv_init (by decide)

/-- C3 (failing input): timer 7 started with `d = 8193` on the freshly
initialised wheel sits on spoke 1 with rotation counter 2; one call of
`handle_timers` runs the counter down to 0, unlinks the timer and invokes its
callback, instead of decrementing the counter by one and leaving the timer
linked. -/
theorem C3_tick_fires_timer_with_pending_rotations :
    ∃ w1 w2, lmtimer_start 7 8193 lmtimers_init = Except.ok w1 ∧
      w1.rotation_count 7 = 2 ∧ w1.next (spoke 1) = some (timer 7) ∧
      handle_timers cb_skip 4 w1 = Except.ok w2 ∧
      w2.rotation_count 7 = 0 ∧ w2.next (spoke 1) = some (spoke 1) ∧
      w2.next (timer 7) = none ∧ w2.prev (timer 7) = none ∧ w2.fired = [7] :=
  ⟨_, _, rfl, rfl, rfl, rfl, rfl, rfl, rfl, rfl, rfl⟩

/-- C4, as stated, fails: timer 0 is linked, `lmtimer_stop` unlinks it and releases
its record; the timer is then "already stopped" and on no spoke, and a second
`lmtimer_stop` on it does not leave the wheel as it is but reads the released
record. -/
theorem C4_second_stop_reads_released_record :
    ∃ h1, lmtimer_stop_free (some 0) { wheel := wheel_one_timer, released := [] } =
        Except.ok h1 ∧
      h1.released = [0] ∧ h1.wheel.next (timer 0) = none ∧ h1.wheel.prev (timer 0) = none ∧
      h1.wheel.next (spoke 1) = some (spoke 1) ∧
      lmtimer_stop_free (some 0) h1 = Except.error (heap_fault.use_after_free, h1) :=
  ⟨_, rfl, rfl, rfl, rfl, rfl, rfl⟩

/-- C4 (amended): on a well-formed wheel, for a timer record `t` that has not been
released: if `t` is on no spoke (never started, or already fired),
`lmtimer_stop(t)` returns, leaves the whole wheel (every link, so every spoke
list, and `running_timers`) unchanged and releases the record; after a tick,
stopping any timer that the tick has fired leaves the wheel unchanged, so
`running_timers` is not decremented a second time.  Whatever the position of
`t`, `lmtimer_stop(t)` returns and releases the record, and a second
`lmtimer_stop(t)` reads the released record instead of being a no-op. -/
theorem C4_lmtimer_stop_unlinked_timer (h : timer_heap) (L : Nat → List Nat) (t : Nat)
    (hw : wheel_inv h.wheel L) (hr : t ∉ h.released) :
    ((∀ i, t ∉ L i) →
      lmtimer_stop_free (some t) h =
        Except.ok { wheel := h.wheel, released := t :: h.released }) ∧
    (∃ h1, lmtimer_stop_free (some t) h = Except.ok h1 ∧
      h1.released = t :: h.released ∧
      lmtimer_stop_free (some t) h1 = Except.error (heap_fault.use_after_free, h1)) ∧
    ∃ N w', (∀ fuel, N ≤ fuel → handle_timers cb_skip fuel h.wheel = Except.ok w') ∧
      ∀ u, u ∈ L ((h.wheel.current_spoke + 1) % WHEEL_SIZE) → u ∉ h.released →
        u ∈ w'.fired ∧
        lmtimer_stop_free (some u) { wheel := w', released := h.released } =
          Except.ok { wheel := w', released := u :: h.released } ∧
        (lmtimer_stop (some u) w').running_timers = w'.running_timers := by
  refine ⟨?_, ?_, ?_⟩
  · intro ht
    obtain ⟨h1, h2⟩ := hw.idle t ht
    simp only [lmtimer_stop_free, if_neg hr, lmtimer_stop_idle h.wheel t h1 h2]
  · refine ⟨{ wheel := lmtimer_stop (some t) h.wheel, released := t :: h.released }, ?_, rfl, ?_⟩
    · simp only [lmtimer_stop_free, if_neg hr]
    · simp only [lmtimer_stop_free, List.mem_cons, true_or, if_true]
  · obtain ⟨N, w', hrun, hinv, _, hf, _⟩ := handle_timers_spec hw
    refine ⟨N, w', hrun, ?_⟩
    intro u hu hur
    have hidle : ∀ j, u ∉ Function.update L ((h.wheel.current_spoke + 1) % WHEEL_SIZE) [] j := by
      intro j hm
      by_cases hj : j = (h.wheel.current_spoke + 1) % WHEEL_SIZE
      · subst hj
        rw [Function.update_same] at hm
        exact List.not_mem_nil _ hm
      · rw [Function.update_noteq hj] at hm
        exact hj (hw.lists.disj _ _ u hm hu)
    obtain ⟨h1, h2⟩ := hinv.idle u hidle
    have hst := lmtimer_stop_idle w' u h1 h2
    refine ⟨?_, ?_, by rw [hst]⟩
    · rw [hf]; exact List.mem_append_right _ hu
    · simp only [lmtimer_stop_free, if_neg hur, hst]

/-- C4 (amended) at a concrete input: the wheel on which timer 0 sits on spoke 1,
about to fire, no record released. -/
theorem C4_lmtimer_stop_unlinked_timer_witness :
    (∃ h1, lmtimer_stop_free (some 0) { wheel := wheel_one_timer, released := [] } =
        Except.ok h1 ∧
      h1.released = [0] ∧
      lmtimer_stop_free (some 0) h1 = Except.error (heap_fault.use_after_free, h1)) ∧
    ∃ N w', (∀ fuel, N ≤ fuel → handle_timers cb_skip fuel wheel_one_timer = Except.ok w') ∧
      ∀ u, u ∈ (Function.update (fun _ => []) 1 [0] : Nat → List Nat)
          ((wheel_one_timer.current_spoke + 1) % WHEEL_SIZE) → u ∉ ([] : List Nat) →
        u ∈ w'.fired ∧
        lmtimer_stop_free (some u) { wheel := w', released := [] } =
          Except.ok { wheel := w', released := [u] } ∧
        (lmtimer_stop (some u) w').running_timers = w'.running_timers :=
  (C4_lmtimer_stop_unlinked_timer { wheel := wheel_one_timer, released := [] }
    (Function.update (fun _ => []) 1 [0]) 0 wheel_inv_one_timer (by simp)).2

/-- C5: cancellation is effective.  If `t` is linked on a well-formed wheel, then
after `lmtimer_stop(t)` it is on no spoke (both links `NULL`).  Whatever sequence
of ticks and of starts and stops of timers follows, as long as `t` is not started
again: with callbacks that do not touch the wheel every call returns and `t`'s
callback is not invoked; and with callbacks that themselves start and stop
timers (never starting `t`), `t`'s callback has not been invoked at any point
the run gets to, whether the calls return, run out of fuel or fault. -/
theorem C5_lmtimer_stop_cancels (w : timer_wheel_) (L : Nat → List Nat) (t i : Nat)
    (ops : List wheel_op) (f : Nat → timer_wheel_ → List timer_call)
    (hw : wheel_inv w L) (ht : t ∈ L i)
    (hops : ∀ d, wheel_op.start t d ∉ ops)
    (hf : ∀ u w1 d, timer_call.start t d ∉ f u w1) :
    (∃ L', wheel_inv (lmtimer_stop (some t) w) L' ∧ ∀ j, t ∉ L' j) ∧
    (lmtimer_stop (some t) w).next (timer t) = none ∧
    (lmtimer_stop (some t) w).prev (timer t) = none ∧
    (∃ N w' extra,
      (∀ fuel, N ≤ fuel →
        run_ops cb_skip fuel ops (lmtimer_stop (some t) w) = Except.ok w') ∧
      w'.fired = w.fired ++ extra ∧ t ∉ extra) ∧
    ∀ fuel, ∃ extra,
      (reached (run_ops (cb_calls f) fuel ops (lmtimer_stop (some t) w))).fired =
        w.fired ++ extra ∧ t ∉ extra := by
  obtain ⟨l1, l2, hL⟩ := List.append_of_mem ht
  obtain ⟨hinv1, _, hf1, _⟩ := lmtimer_stop_linked hw hL
  have hno := (wheel_lists_remove hw.lists hL).2
  obtain ⟨N, w', _, extra, hrun, _, _, hfi, hex⟩ := run_ops_idle t ops _ _ hinv1 hno hops
  refine ⟨⟨_, hinv1, hno⟩, (lmtimer_stop_links w t).1, (lmtimer_stop_links w t).2,
    ⟨N, w', extra, hrun, by rw [hfi, hf1], hex⟩, ?_⟩
  intro fuel
  have hidle : timer_idle t w.fired (lmtimer_stop (some t) w) :=
    ⟨_, [], hinv1, hno, by rw [hf1, List.append_nil], List.not_mem_nil _⟩
  obtain ⟨_, extra2, _, _, hfi2, hex2⟩ := timer_idle_run_ops f hf fuel ops hops _ hidle
  exact ⟨extra2, hfi2, hex2⟩

/-- C5 at a concrete input: timer 0 is stopped on the wheel on which it sits on
spoke 1; then come three ticks and the start of timer 1, with callbacks that
start the timer after the fired one and stop timer 9. -/
theorem C5_lmtimer_stop_cancels_witness :
    (∃ L', wheel_inv (lmtimer_stop (some 0) wheel_one_timer) L' ∧ ∀ j, 0 ∉ L' j) ∧
    (lmtimer_stop (some 0) wheel_one_timer).next (timer 0) = none ∧
    (lmtimer_stop (some 0) wheel_one_timer).prev (timer 0) = none ∧
    (∃ N w' extra,
      (∀ fuel, N ≤ fuel →
        run_ops cb_skip fuel [wheel_op.tick, wheel_op.start 1 1, wheel_op.tick, wheel_op.tick]
          (lmtimer_stop (some 0) wheel_one_timer) = Except.ok w') ∧
      w'.fired = wheel_one_timer.fired ++ extra ∧ 0 ∉ extra) ∧
    ∀ fuel, ∃ extra,
      (reached (run_ops (cb_calls (fun u _ => [timer_call.start (u + 1) 4096, timer_call.stop 9]))
        fuel [wheel_op.tick, wheel_op.start 1 1, wheel_op.tick, wheel_op.tick]
        (lmtimer_stop (some 0) wheel_one_timer))).fired =
        wheel_one_timer.fired ++ extra ∧ 0 ∉ extra :=
  C5_lmtimer_stop_cancels wheel_one_timer (Function.update (fun _ => []) 1 [0]) 0 1
    [wheel_op.tick, wheel_op.start 1 1, wheel_op.tick, wheel_op.tick]
    (fun u _ => [timer_call.start (u + 1) 4096, timer_call.stop 9])
    wheel_inv_one_timer (by simp) (by intro d; simp) (by intro u w1 d; simp)

/-- C6: callbacks within a tick run in insertion order.  Timers started one
after the other on a well-formed wheel, all landing on the same spoke `s` (`m`
ticks ahead, `1 <= m <= 4096`), are fired in the tick in which `s` becomes the
current spoke, in the order in which they were started (a timer started more
than once counts by its last start), after the timers (`pre`) that were on the
spoke before them; none of them is fired in an earlier tick. -/
theorem C6_callbacks_in_insertion_order (w : timer_wheel_) (L : Nat → List Nat)
    (starts : List (Nat × Int)) (s m : Nat) (hw : wheel_inv w L)
    (hpos : ∀ p, p ∈ starts → insert_pos w.current_spoke p.2 = s)
    (hm1 : 1 ≤ m) (hm2 : m ≤ 4096) (hs : s = (w.current_spoke + m) % 4096) :
    ∃ N w1 w2 w3 pre, lmtimer_start_all starts w = Except.ok w1 ∧
      (∀ fuel, N ≤ fuel →
        handle_timers_n cb_skip fuel (m - 1) w1 = Except.ok w2 ∧
        handle_timers cb_skip fuel w2 = Except.ok w3) ∧
      w2.current_spoke = (w.current_spoke + (m - 1)) % 4096 ∧
      w3.current_spoke = s ∧
      w3.fired = w2.fired ++ (pre ++ (starts.map Prod.fst).dedup) ∧
      (∀ u, u ∈ starts.map Prod.fst → u ∉ w2.fired.drop w.fired.length) ∧
      ∀ u, u ∈ pre → u ∈ L s ∧ u ∉ starts.map Prod.fst := by
  obtain ⟨w1, L1, hrun1, hinv1, hc1, hf1, hL1⟩ := lmtimer_start_all_spec s starts w L hw hpos
  obtain ⟨N2, w2, hrun2, hinv2, hc2, hf2⟩ := handle_timers_n_spec hinv1 (m - 1)
  obtain ⟨N3, w3, hrun3, _, hc3, hf3, _⟩ := handle_timers_spec hinv2
  have hidx : (w2.current_spoke + 1) % WHEEL_SIZE = s := by
    rw [hc2, hc1, hs]; unfold WHEEL_SIZE; omega
  have hidx' : s = (w1.current_spoke + m) % WHEEL_SIZE := by rw [hc1, hs]; rfl
  have hkeep : clear_spokes L1 w1.current_spoke (m - 1) s = L1 s := by
    apply clear_spokes_keep
    intro j hj
    rw [hidx']
    unfold WHEEL_SIZE
    omega
  rw [hidx, hkeep, hL1] at hf3
  rw [hidx] at hc3
  refine ⟨max N2 N3, w1, w2, w3, _, hrun1, ?_, ?_, hc3, hf3, ?_, ?_⟩
  · intro fuel hfu
    exact ⟨hrun2 fuel (le_trans (le_max_left _ _) hfu),
      hrun3 fuel (le_trans (le_max_right _ _) hfu)⟩
  · rw [hc2, hc1]; rfl
  · intro u hu
    rw [hf2, hf1, List.drop_left]
    have hus : u ∈ L1 ((w1.current_spoke + m) % WHEEL_SIZE) := by
      rw [← hidx', hL1]; exact List.mem_append_right _ (List.mem_dedup.mpr hu)
    exact not_mem_fired_by hinv1.lists hm1 hm2 hus (by omega)
  · intro u hu
    have := List.mem_filter.mp hu
    exact ⟨this.1, by simpa using this.2⟩

/-- C6 at a concrete input: timers 5, 3, 4 started in this order on the freshly
initialised wheel with durations 2, 4098, 2, all landing on spoke 2. -/
theorem C6_callbacks_in_insertion_order_witness :
    ∃ N w1 w2 w3 pre,
      lmtimer_start_all [(5, 2), (3, 4098), (4, 2)] lmtimers_init = Except.ok w1 ∧
      (∀ fuel, N ≤ fuel →
        handle_timers_n cb_skip fuel (2 - 1) w1 = Except.ok w2 ∧
        handle_timers cb_skip fuel w2 = Except.ok w3) ∧
      w2.current_spoke = (lmtimers_init.current_spoke + (2 - 1)) % 4096 ∧
      w3.current_spoke = 2 ∧
      w3.fired = w2.fired ++ (pre ++ ([(5, 2), (3, 4098), (4, 2)].map Prod.fst).dedup) ∧
      (∀ u, u ∈ [((5 : Nat), (2 : Int)), (3, 4098), (4, 2)].map Prod.fst →
        u ∉ w2.fired.drop lmtimers_init.fired.length) ∧
      ∀ u, u ∈ pre → u ∈ (fun _ => [] : Nat → List Nat) 2 ∧
        u ∉ [((5 : Nat), (2 : Int)), (3, 4098), (4, 2)].map Prod.fst :=
  C6_callbacks_in_insertion_order lmtimers_init (fun _ => []) [(5, 2), (3, 4098), (4, 2)] 2 2
    wheel_inv_init (by decide) (by decide) (by decide) (by decide)

/-- C7 (failing input, every well-formed wheel): a timer started with `d = 5000`
is placed on spoke `(c + 904) mod 4096` with rotation counter 1; its callback has
not been invoked after 903 ticks and has been invoked after 904 ticks, not on
tick 5000. -/
theorem C7_start_5000_fires_on_tick_904 (w : timer_wheel_) (L : Nat → List Nat) (t : Nat)
    (hw : wheel_inv w L) :
    ∃ w1, lmtimer_start t 5000 w = Except.ok w1 ∧
      w1.rotation_count t = 1 ∧
      w1.next (timer t) = some (spoke ((w.current_spoke + 904) % 4096)) ∧
      (∃ N w2 extra,
        (∀ fuel, N ≤ fuel → handle_timers_n cb_skip fuel 903 w1 = Except.ok w2) ∧
        w2.fired = w.fired ++ extra ∧ t ∉ extra) ∧
      (∃ N w2 extra,
        (∀ fuel, N ≤ fuel → handle_timers_n cb_skip fuel 904 w1 = Except.ok w2) ∧
        w2.fired = w.fired ++ extra ∧ extra.count t = 1) := by
  obtain ⟨w1, hrun, hrot, hnt, hk⟩ := lmtimer_fires_at_first_visit hw t 5000
  have hfv : first_visit 5000 = 904 := by decide
  refine ⟨w1, hrun, hrot, hnt, ?_, ?_⟩
  · obtain ⟨N, w2, extra, h1, h2, h3, _⟩ := hk 903
    exact ⟨N, w2, extra, h1, h2, h3 (by rw [hfv]; decide)⟩
  · obtain ⟨N, w2, extra, h1, h2, _, h4⟩ := hk 904
    exact ⟨N, w2, extra, h1, h2, h4 (by rw [hfv])⟩

/-- C7 at a concrete input: timer 0 on the freshly initialised wheel. -/
theorem C7_start_5000_fires_on_tick_904_witness :
    ∃ w1, lmtimer_start 0 5000 lmtimers_init = Except.ok w1 ∧
      w1.rotation_count 0 = 1 ∧
      w1.next (timer 0) = some (spoke ((lmtimers_init.current_spoke + 904) % 4096)) ∧
      (∃ N w2 extra,
        (∀ fuel, N ≤ fuel → handle_timers_n cb_skip fuel 903 w1 = Except.ok w2) ∧
        w2.fired = lmtimers_init.fired ++ extra ∧ 0 ∉ extra) ∧
      (∃ N w2 extra,
        (∀ fuel, N ≤ fuel → handle_timers_n cb_skip fuel 904 w1 = Except.ok w2) ∧
        w2.fired = lmtimers_init.fired ++ extra ∧ extra.count 0 = 1) :=
  C7_start_5000_fires_on_tick_904 lmtimers_init (fun _ => []) 0 wheel_inv_init

/-! ## Configuration helpers: the claims -/

/-- C8 (as stated, refuted): priority `-1` is negative and outside 0..255, yet
`validate_priority_weight(-1, 0)` returns `GOOD`. -/
theorem C8_negative_priority_accepted :
    validate_priority_weight (-1) 0 = lisp_ret.GOOD ∧ ¬ (0 ≤ (-1 : Int) ∧ (-1 : Int) ≤ 255) := by
  decide

/-- C8 (amended): `validate_priority_weight(p, w)` returns `GOOD` exactly when
`-1 <= p <= 255` (`MAX_PRIORITY - 1 .. UNUSED_RLOC_PRIORITY`) and `0 <= w <= 255`
(`MIN_WEIGHT .. MAX_WEIGHT`), and `BAD` for every other pair of integers; every
priority below `-1` is rejected. -/
theorem C8_validate_priority_weight_range (p w : Int) :
    (validate_priority_weight p w = lisp_ret.GOOD ↔
      (-1 ≤ p ∧ p ≤ 255 ∧ 0 ≤ w ∧ w ≤ 255)) ∧
    (validate_priority_weight p w = lisp_ret.BAD ↔
      ¬ (-1 ≤ p ∧ p ≤ 255 ∧ 0 ≤ w ∧ w ≤ 255)) ∧
    (p < -1 → validate_priority_weight p w = lisp_ret.BAD) := by
  unfold validate_priority_weight MAX_PRIORITY UNUSED_RLOC_PRIORITY MIN_WEIGHT MAX_WEIGHT
  refine ⟨?_, ?_, ?_⟩
  · split
    · simp; omega
    · split
      · simp; omega
      · simp; omega
  · split
    · simp; omega
    · split
      · simp; omega
      · simp; omega
  · intro hp
    rw [if_pos (Or.inl (by omega))]

/-- C9 (as stated, refuted): for a device in RTR mode, the local locator returned
for the plain IPv4 address of `eth0` carries the IPv4 socket of `eth0`, but it is
recorded in no `ipv4_locators` list: the table is left without an entry. -/
theorem C9_rtr_mode_locator_not_recorded :
    ∃ new_locator table',
      clone_customize_locator iface_env_eth0 lisp_dev_type_e.RTR_MODE (fun _ => none) 0
        locator_ipv4 [] locator_type.LOCAL_LOCATOR = some (some new_locator, table') ∧
      locator_leaf_afi 0 locator_ipv4 [] = some AF_INET ∧
      new_locator.out_socket = some (socket_ref.out_socket_v4 "eth0") ∧
      ¬ ∃ e, table' "eth0" = some e ∧ new_locator ∈ e.ipv4_locators := by
  refine ⟨_, _, rfl, rfl, rfl, ?_⟩
  rintro ⟨e, he, _⟩
  cases he

/-- The tail of `clone_customize_locator` for a local locator, once the interface
`iface` (looked up under `name`) and the family `fam` are known. -/
theorem clone_local_tail (mode : lisp_dev_type_e) (table table' : shash_t) (rloc : lisp_addr_t)
    (status priority weight : Nat) (name ifn : String) (fam : Int) (new_locator : locator_t)
    (h : (if mode = lisp_dev_type_e.xTR_MODE ∨ mode = lisp_dev_type_e.MN_MODE then
        some (some (locator_init_local_full rloc status priority weight 255 0
            (if fam = AF_INET then socket_ref.out_socket_v4 ifn
              else socket_ref.out_socket_v6 ifn)),
          Function.update table name (some
            (if fam = AF_INET then
              { (match table name with
                  | some e => e
                  | none => iface_locators_new name) with
                ipv4_locators := glist_add (locator_init_local_full rloc status priority weight
                    255 0 (if fam = AF_INET then socket_ref.out_socket_v4 ifn
                      else socket_ref.out_socket_v6 ifn))
                  (match table name with
                    | some e => e
                    | none => iface_locators_new name).ipv4_locators }
            else
              { (match table name with
                  | some e => e
                  | none => iface_locators_new name) with
                ipv6_locators := glist_add (locator_init_local_full rloc status priority weight
                    255 0 (if fam = AF_INET then socket_ref.out_socket_v4 ifn
                      else socket_ref.out_socket_v6 ifn))
                  (match table name with
                    | some e => e
                    | none => iface_locators_new name).ipv6_locators })))
      else
        some (some (locator_init_local_full rloc status priority weight 255 0
            (if fam = AF_INET then socket_ref.out_socket_v4 ifn
              else socket_ref.out_socket_v6 ifn)), table)) =
      some (some new_locator, table')) :
    new_locator.type = locator_type.LOCAL_LOCATOR ∧
    (new_locator.out_socket = some (socket_ref.out_socket_v4 ifn) ↔ fam = AF_INET) ∧
    (new_locator.out_socket = some (socket_ref.out_socket_v6 ifn) ↔ fam ≠ AF_INET) ∧
    ((mode = lisp_dev_type_e.xTR_MODE ∨ mode = lisp_dev_type_e.MN_MODE) →
      ∃ e, table' name = some e ∧
        (fam = AF_INET → new_locator ∈ e.ipv4_locators) ∧
        (fam ≠ AF_INET → new_locator ∈ e.ipv6_locators)) ∧
    (¬ (mode = lisp_dev_type_e.xTR_MODE ∨ mode = lisp_dev_type_e.MN_MODE) →
      table' = table) := by
  by_cases hm : mode = lisp_dev_type_e.xTR_MODE ∨ mode = lisp_dev_type_e.MN_MODE
  · rw [if_pos hm] at h
    injection h with h
    injection h with h1 h2
    injection h1 with h1
    subst h1 h2
    by_cases hf : fam = AF_INET
    · simp [hf, hm, locator_init_local_full, glist_add]
    · simp [hf, hm, locator_init_local_full, glist_add]
  · rw [if_neg hm] at h
    injection h with h
    injection h with h1 h2
    injection h1 with h1
    subst h1 h2
    by_cases hf : fam = AF_INET
    · simp [hf, hm, locator_init_local_full]
    · simp [hf, hm, locator_init_local_full]

/-- C9 (amended): for a local locator with a plain IP (host or prefix) address
or without address, whose family `fam` is that of the IP address, respectively
the one recorded for it, every locator that `clone_customize_locator` returns
carries the IPv4 socket of the interface found for it exactly when `fam` is
`AF_INET`, and the IPv6 socket exactly when it is not (so for `AF_INET6`).  When
the device is in xTR or MN mode the locator is recorded in that interface's
`ipv4_locators` in the first case and in `ipv6_locators` in the second; in every
other mode the table is left unchanged. -/
theorem C9_local_locator_socket_matches_family (env : iface_env) (mode : lisp_dev_type_e)
    (table table' : shash_t) (locator_ptr : Nat) (locator new_locator : locator_t)
    (no_addr_loct_l : List no_addr_loct) (fam : Int)
    (hshape : lisp_addr_is_lcaf locator.addr = false)
    (hfam : locator_leaf_afi locator_ptr locator no_addr_loct_l = some fam)
    (hret : clone_customize_locator env mode table locator_ptr locator no_addr_loct_l
      locator_type.LOCAL_LOCATOR = some (some new_locator, table')) :
    ∃ name iface,
      (env.get_interface (some name) = some iface ∨
        (env.get_interface (some name) = none ∧ env.add_interface (some name) = some iface)) ∧
      new_locator.type = locator_type.LOCAL_LOCATOR ∧
      (new_locator.out_socket = some (socket_ref.out_socket_v4 iface.iface_name) ↔
        fam = AF_INET) ∧
      (new_locator.out_socket = some (socket_ref.out_socket_v6 iface.iface_name) ↔
        fam ≠ AF_INET) ∧
      ((mode = lisp_dev_type_e.xTR_MODE ∨ mode = lisp_dev_type_e.MN_MODE) →
        ∃ e, table' name = some e ∧
          (fam = AF_INET → new_locator ∈ e.ipv4_locators) ∧
          (fam ≠ AF_INET → new_locator ∈ e.ipv6_locators)) ∧
      (¬ (mode = lisp_dev_type_e.xTR_MODE ∨ mode = lisp_dev_type_e.MN_MODE) →
        table' = table) := by
  unfold clone_customize_locator at hret
  unfold locator_leaf_afi at hfam
  cases haddr : locator.addr with
  | lcaf l => rw [haddr] at hshape; simp [lisp_addr_is_lcaf, lisp_addr_lafi] at hshape
  | no_addr =>
    rw [haddr] at hfam
    obtain ⟨nloct, hn, hafi⟩ : ∃ nloct,
        get_no_addr_loct_from_list no_addr_loct_l locator_ptr = some nloct ∧ nloct.afi = fam := by
      simpa using hfam
    simp only [haddr, lisp_addr_is_lcaf, lisp_addr_is_no_addr, lisp_addr_lafi, hn, hafi] at hret
    simp only [if_true, decide_True, decide_False, if_false, reduceCtorEq] at hret
    refine ⟨nloct.iface_name, ?_⟩
    cases hgi : env.get_interface (some nloct.iface_name) with
    | some iface =>
      simp only [hgi] at hret
      exact ⟨iface, Or.inl rfl, clone_local_tail _ _ _ _ _ _ _ _ _ _ _ hret⟩
    | none =>
      simp only [hgi] at hret
      cases hai : env.add_interface (some nloct.iface_name) with
      | some iface =>
        simp only [hai] at hret
        exact ⟨iface, Or.inr ⟨rfl, rfl⟩, clone_local_tail _ _ _ _ _ _ _ _ _ _ _ hret⟩
      | none => simp [hai] at hret
  | ip a =>
    rw [haddr] at hfam
    have hafi : a.afi = fam := by simpa using hfam
    simp only [haddr, lisp_addr_is_lcaf, lisp_addr_is_no_addr, lisp_addr_lafi, lisp_addr_ip_afi,
      hafi] at hret
    simp only [if_true, decide_True, decide_False, if_false, reduceCtorEq] at hret
    cases hname : env.get_interface_name_from_address (lisp_addr_t.ip a) with
    | none => simp [hname] at hret
    | some name =>
      simp only [hname] at hret
      refine ⟨name, ?_⟩
      cases hgi : env.get_interface (some name) with
      | some iface =>
        simp only [hgi] at hret
        exact ⟨iface, Or.inl rfl, clone_local_tail _ _ _ _ _ _ _ _ _ _ _ hret⟩
      | none =>
        simp only [hgi] at hret
        cases hai : env.add_interface (some name) with
        | some iface =>
          simp only [hai] at hret
          exact ⟨iface, Or.inr ⟨rfl, rfl⟩, clone_local_tail _ _ _ _ _ _ _ _ _ _ _ hret⟩
        | none => simp [hai] at hret
  | ippref a plen =>
    rw [haddr] at hfam
    have hafi : a.afi = fam := by simpa using hfam
    simp only [haddr, lisp_addr_is_lcaf, lisp_addr_is_no_addr, lisp_addr_lafi, lisp_addr_ip_afi,
      hafi] at hret
    simp only [if_true, decide_True, decide_False, if_false, reduceCtorEq] at hret
    cases hname : env.get_interface_name_from_address (lisp_addr_t.ippref a plen) with
    | none => simp [hname] at hret
    | some name =>
      simp only [hname] at hret
      refine ⟨name, ?_⟩
      cases hgi : env.get_interface (some name) with
      | some iface =>
        simp only [hgi] at hret
        exact ⟨iface, Or.inl rfl, clone_local_tail _ _ _ _ _ _ _ _ _ _ _ hret⟩
      | none =>
        simp only [hgi] at hret
        cases hai : env.add_interface (some name) with
        | some iface =>
          simp only [hai] at hret
          exact ⟨iface, Or.inr ⟨rfl, rfl⟩, clone_local_tail _ _ _ _ _ _ _ _ _ _ _ hret⟩
        | none => simp [hai] at hret

/-- C9 (amended) at a concrete input: the plain IPv4 locator of `eth0`, device in
xTR mode, empty table. -/
theorem C9_local_locator_socket_matches_family_witness :
    ∃ name iface,
      (iface_env_eth0.get_interface (some name) = some iface ∨
        (iface_env_eth0.get_interface (some name) = none ∧
          iface_env_eth0.add_interface (some name) = some iface)) ∧
      locator_ipv4_cloned.type = locator_type.LOCAL_LOCATOR ∧
      (locator_ipv4_cloned.out_socket = some (socket_ref.out_socket_v4 iface.iface_name) ↔
        AF_INET = AF_INET) ∧
      (locator_ipv4_cloned.out_socket = some (socket_ref.out_socket_v6 iface.iface_name) ↔
        AF_INET ≠ AF_INET) ∧
      ((lisp_dev_type_e.xTR_MODE = lisp_dev_type_e.xTR_MODE ∨
          lisp_dev_type_e.xTR_MODE = lisp_dev_type_e.MN_MODE) →
        ∃ e, table_eth0 name = some e ∧
          (AF_INET = AF_INET → locator_ipv4_cloned ∈ e.ipv4_locators) ∧
          (AF_INET ≠ AF_INET → locator_ipv4_cloned ∈ e.ipv6_locators)) ∧
      (¬ (lisp_dev_type_e.xTR_MODE = lisp_dev_type_e.xTR_MODE ∨
          lisp_dev_type_e.xTR_MODE = lisp_dev_type_e.MN_MODE) →
        table_eth0 = fun _ => none) :=
  C9_local_locator_socket_matches_family iface_env_eth0 lisp_dev_type_e.xTR_MODE
    (fun _ => none) table_eth0 0 locator_ipv4 locator_ipv4_cloned [] AF_INET rfl rfl rfl

/-- The LCAF branch of `clone_customize_locator` sets neither the interface name
nor the family: whatever the leaf address of the LCAF, a local locator returned
for it carries the IPv6 socket and is recorded in no list. -/
theorem clone_customize_locator_lcaf (env : iface_env) (mode : lisp_dev_type_e)
    (table table' : shash_t) (locator_ptr : Nat) (locator new_locator : locator_t)
    (no_addr_loct_l : List no_addr_loct) (l : lcaf_addr_t)
    (haddr : locator.addr = lisp_addr_t.lcaf l)
    (hret : clone_customize_locator env mode table locator_ptr locator no_addr_loct_l
      locator_type.LOCAL_LOCATOR = some (some new_locator, table')) :
    ∃ iface : iface_t,
      new_locator.out_socket = some (socket_ref.out_socket_v6 iface.iface_name) ∧
      table' = table := by
  unfold clone_customize_locator at hret
  simp only [haddr, lisp_addr_is_lcaf, lisp_addr_lafi, if_true, decide_True] at hret
  cases hleaf : lcaf_get_ip_addr l with
  | none => simp [hleaf] at hret
  | some aux =>
    simp only [hleaf] at hret
    have hne : ¬ (AF_UNSPEC = AF_INET) := by decide
    cases hgi : env.get_interface none with
    | some iface =>
      simp only [hgi, hne, if_false] at hret
      by_cases hm : mode = lisp_dev_type_e.xTR_MODE ∨ mode = lisp_dev_type_e.MN_MODE
      · simp [hm] at hret
      · simp only [hm, if_false] at hret
        injection hret with hret
        injection hret with h1 h2
        injection h1 with h1
        exact ⟨iface, by rw [← h1]; rfl, h2.symm⟩
    | none =>
      simp only [hgi] at hret
      cases hai : env.add_interface none with
      | none => simp [hai] at hret
      | some iface =>
        simp only [hai, hne, if_false] at hret
        by_cases hm : mode = lisp_dev_type_e.xTR_MODE ∨ mode = lisp_dev_type_e.MN_MODE
        · simp [hm] at hret
        · simp only [hm, if_false] at hret
          injection hret with hret
          injection hret with h1 h2
          injection h1 with h1
          exact ⟨iface, by rw [← h1]; rfl, h2.symm⟩


/-! ## Management API framing: the claims -/

theorem u32_of_bytes_of_u32 (x : Nat) (hx : x < 4294967296) :
    u32_of_bytes (bytes_of_u32 x) = x := by
  simp only [u32_of_bytes, bytes_of_u32, List.getD_cons_zero, List.getD_cons_succ]
  omega

/-- C10: for all arguments, `lmapi_result_msg_new` builds a message whose header
(read back through a header pointer) has device, target and operation equal to
the arguments truncated to 8 bits, type `LMAPI_TYPE_RESULT` and
`datalen = sizeof(lmapi_msg_result_e)`; behind the header come exactly `datalen`
bytes, which hold the result value; the returned length is the header size plus
`datalen`, which is the length of the buffer. -/
theorem C10_lmapi_result_msg_new_framing (dev trgt opr res : Int) :
    hdr_of_bytes (lmapi_result_msg_new dev trgt opr res).1 =
      { device := (dev % 256).toNat, target := (trgt % 256).toNat,
        operation := (opr % 256).toNat, type := LMAPI_TYPE_RESULT.toNat,
        datalen := sizeof_lmapi_msg_result_e } ∧
    ((lmapi_result_msg_new dev trgt opr res).1.drop sizeof_lmapi_msg_hdr_t).length =
      (hdr_of_bytes (lmapi_result_msg_new dev trgt opr res).1).datalen ∧
    (lmapi_result_msg_new dev trgt opr res).1.drop sizeof_lmapi_msg_hdr_t =
      bytes_of_u32 (to_uint32 res) ∧
    u32_of_bytes ((lmapi_result_msg_new dev trgt opr res).1.drop sizeof_lmapi_msg_hdr_t) =
      to_uint32 res ∧
    (lmapi_result_msg_new dev trgt opr res).2 =
      (sizeof_lmapi_msg_hdr_t : Int) +
        ((hdr_of_bytes (lmapi_result_msg_new dev trgt opr res).1).datalen : Int) ∧
    (((lmapi_result_msg_new dev trgt opr res).1.length : Nat) : Int) =
      (lmapi_result_msg_new dev trgt opr res).2 := by
  have hbuf : (lmapi_result_msg_new dev trgt opr res).1 =
      [to_uint8 dev, to_uint8 trgt, to_uint8 opr, 1, 4, 0, 0, 0] ++
        bytes_of_u32 (to_uint32 res) := by
    simp [lmapi_result_msg_new, lmapi_hdr_push, memcpy, xzalloc, bytes_of_hdr, fill_lmapi_hdr,
      bytes_of_u32, sizeof_lmapi_msg_hdr_t, sizeof_lmapi_msg_result_e, LMAPI_TYPE_RESULT,
      to_uint8, to_uint32, List.replicate]
  have hres : to_uint32 res < 4294967296 := by unfold to_uint32; omega
  rw [hbuf]
  refine ⟨?_, ?_, ?_, ?_, ?_, ?_⟩
  · simp [hdr_of_bytes, u32_of_bytes, to_uint8, LMAPI_TYPE_RESULT, sizeof_lmapi_msg_result_e]
  · simp [hdr_of_bytes, u32_of_bytes, sizeof_lmapi_msg_hdr_t, bytes_of_u32]
  · simp [sizeof_lmapi_msg_hdr_t]
  · simp only [sizeof_lmapi_msg_hdr_t, List.drop_succ_cons, List.drop_zero, List.cons_append,
      List.nil_append]
    exact u32_of_bytes_of_u32 _ hres
  · simp [lmapi_result_msg_new, hdr_of_bytes, u32_of_bytes, sizeof_lmapi_msg_hdr_t,
      sizeof_lmapi_msg_result_e]
  · simp [lmapi_result_msg_new, bytes_of_u32, sizeof_lmapi_msg_hdr_t, sizeof_lmapi_msg_result_e]

theorem recv_buffer_getD (max_len : Nat) (msg : List Nat) (i : Nat) (hi : i < max_len) :
    (memcpy (xzalloc max_len) 0 (msg.take max_len)).getD i 0 = msg.getD i 0 := by
  unfold memcpy xzalloc
  simp only [List.take_zero, List.nil_append, Nat.zero_add, List.getD_eq_getElem?_getD]
  by_cases h : i < (msg.take max_len).length
  · rw [List.getElem?_append_left h, List.getElem?_take_of_lt hi]
  · have h' : (msg.take max_len).length ≤ i := Nat.le_of_not_lt h
    rw [List.getElem?_append_right h']
    have hm : msg.length ≤ i := by
      rw [List.length_take] at h'
      omega
    rw [List.getElem?_eq_none hm]
    simp only [List.drop_replicate, Option.getD_none, List.getElem?_replicate]
    split <;> rfl

theorem take_frame (hb data X Y : List Nat) (h8 : hb.length = 8) :
    List.take ((data.length : Int) + ((8 : Nat) : Int)).toNat
      (List.take 8 (hb ++ X) ++ data ++ Y) = hb ++ data := by
  have e1 : List.take 8 (hb ++ X) = hb := by
    rw [← h8, List.take_left]
  have e2 : ((data.length : Int) + ((8 : Nat) : Int)).toNat = (hb ++ data).length := by
    rw [List.length_append, h8]
    omega
  rw [e1, e2, List.take_left]

theorem lmapi_apply_config_sent (max_len : Nat) (inp : lmapi_socket_in) (dev trgt opr : Int)
    (data : List Nat) :
    (lmapi_apply_config max_len inp dev trgt opr data data.length).sent =
      bytes_of_hdr (fill_lmapi_hdr dev trgt opr LMAPI_TYPE_REQUEST data.length) ++ data := by
  simp only [lmapi_apply_config, lmapi_send, memcpy, sizeof_lmapi_msg_hdr_t, List.take_zero,
    List.nil_append, Int.toNat_ofNat, List.take_length, Nat.zero_add]
  exact take_frame _ _ _ _ rfl

/-- C11: for every `dev`, `trgt`, `opr` and every payload `data` of length `dlen`
with header size + `dlen` not above `MAX_API_PKT_LEN`, the request that
`lmapi_apply_config` sends is the header (device, target, operation = the
arguments as 8-bit values, so the arguments themselves when they are 0..255;
type = Request; `datalen = dlen`) immediately followed by exactly the `dlen`
payload bytes in order, and the length handed to `lmapi_send` is header size +
`dlen`, the length of what is sent. -/
theorem C11_lmapi_apply_config_request (max_len : Nat) (inp : lmapi_socket_in)
    (dev trgt opr : Int) (data : List Nat)
    (hfit : sizeof_lmapi_msg_hdr_t + data.length ≤ max_len)
    (hint : data.length < 2147483648) :
    (lmapi_apply_config max_len inp dev trgt opr data data.length).sent =
      bytes_of_hdr { device := to_uint8 dev, target := to_uint8 trgt, operation := to_uint8 opr,
                     type := LMAPI_TYPE_REQUEST.toNat, datalen := data.length } ++ data ∧
    hdr_of_bytes (lmapi_apply_config max_len inp dev trgt opr data data.length).sent =
      { device := to_uint8 dev, target := to_uint8 trgt, operation := to_uint8 opr,
        type := LMAPI_TYPE_REQUEST.toNat, datalen := data.length } ∧
    (0 ≤ dev → dev < 256 → (to_uint8 dev : Int) = dev) ∧
    (0 ≤ trgt → trgt < 256 → (to_uint8 trgt : Int) = trgt) ∧
    (0 ≤ opr → opr < 256 → (to_uint8 opr : Int) = opr) ∧
    (lmapi_apply_config max_len inp dev trgt opr data data.length).sent.drop
      sizeof_lmapi_msg_hdr_t = data ∧
    (lmapi_apply_config max_len inp dev trgt opr data data.length).sent_len =
      (sizeof_lmapi_msg_hdr_t : Int) + (data.length : Int) ∧
    (((lmapi_apply_config max_len inp dev trgt opr data data.length).sent.length : Nat) : Int) =
      (lmapi_apply_config max_len inp dev trgt opr data data.length).sent_len ∧
    (lmapi_apply_config max_len inp dev trgt opr data data.length).sent.length ≤ max_len := by
  have hsent := lmapi_apply_config_sent max_len inp dev trgt opr data
  have hfill : fill_lmapi_hdr dev trgt opr LMAPI_TYPE_REQUEST data.length =
      { device := to_uint8 dev, target := to_uint8 trgt, operation := to_uint8 opr,
        type := LMAPI_TYPE_REQUEST.toNat, datalen := data.length } := by
    simp only [fill_lmapi_hdr, to_uint8, to_uint32, LMAPI_TYPE_REQUEST]
    congr 1
    omega
  rw [hfill] at hsent
  have hlen : (lmapi_apply_config max_len inp dev trgt opr data data.length).sent_len =
      (data.length : Int) + (sizeof_lmapi_msg_hdr_t : Int) := rfl
  have hu8 : ∀ x : Int, to_uint8 x < 256 := by
    intro x
    unfold to_uint8
    omega
  rw [hsent, hlen]
  refine ⟨rfl, ?_, ?_, ?_, ?_, ?_, ?_, ?_, ?_⟩
  · simp only [hdr_of_bytes, bytes_of_hdr, List.cons_append, List.nil_append,
      List.getD_cons_zero, List.getD_cons_succ, List.drop_succ_cons, List.drop_zero,
      lmapi_msg_hdr_t.mk.injEq, true_and]
    simp only [u32_of_bytes, bytes_of_u32, List.cons_append, List.nil_append,
      List.getD_cons_zero, List.getD_cons_succ]
    omega
  · intro h0 h1
    unfold to_uint8
    omega
  · intro h0 h1
    unfold to_uint8
    omega
  · intro h0 h1
    unfold to_uint8
    omega
  · simp [sizeof_lmapi_msg_hdr_t, bytes_of_hdr, bytes_of_u32]
  · omega
  · simp [sizeof_lmapi_msg_hdr_t, bytes_of_hdr, bytes_of_u32]
    omega
  · simp only [sizeof_lmapi_msg_hdr_t] at hfit
    simp [bytes_of_hdr, bytes_of_u32]
    omega

/-- C11 at a concrete input: device 1, target 2, operation 3 and the two payload
bytes 7, 9 in a buffer of 4096 bytes. -/
theorem C11_lmapi_apply_config_request_witness :
    (lmapi_apply_config 4096 { poll_rc := 0, recv := none } 1 2 3 [7, 9] 2).sent =
        [1, 2, 3, 0, 2, 0, 0, 0, 7, 9] ∧
      (lmapi_apply_config 4096 { poll_rc := 0, recv := none } 1 2 3 [7, 9] 2).sent_len = 10 :=
  ⟨(C11_lmapi_apply_config_request 4096 { poll_rc := 0, recv := none } 1 2 3 [7, 9]
      (by decide) (by decide)).1.trans (by decide),
    (C11_lmapi_apply_config_request 4096 { poll_rc := 0, recv := none } 1 2 3 [7, 9]
      (by decide) (by decide)).2.2.2.2.2.2.1.trans (by decide)⟩

theorem getD_drop_nat (bs : List Nat) (k i : Nat) : (bs.drop k).getD i 0 = bs.getD (k + i) 0 := by
  simp only [List.getD_eq_getElem?_getD, List.getElem?_drop]

theorem hdr_of_bytes_congr (a b : List Nat) (h : ∀ i, i < 8 → a.getD i 0 = b.getD i 0) :
    hdr_of_bytes a = hdr_of_bytes b := by
  simp only [hdr_of_bytes, u32_of_bytes, getD_drop_nat]
  rw [h 0 (by omega), h 1 (by omega), h 2 (by omega), h 3 (by omega), h 4 (by omega),
    h 5 (by omega), h 6 (by omega), h 7 (by omega)]

theorem hdr_of_bytes_xzalloc (n : Nat) : (hdr_of_bytes (xzalloc n)).datalen = 0 := by
  have h : ∀ i, (xzalloc n).getD i 0 = 0 := by
    intro i
    simp only [xzalloc, List.getD_eq_getElem?_getD, List.getElem?_replicate]
    split <;> rfl
  simp only [hdr_of_bytes, u32_of_bytes, getD_drop_nat, h]

/-- The value returned by `lmapi_apply_config` when a message arrives, in terms
of the message: the 8-bit type, the 32-bit `datalen` and the first byte behind
the header. -/
theorem lmapi_apply_config_ret_msg (max_len : Nat) (inp : lmapi_socket_in) (dev trgt opr : Int)
    (data : List Nat) (dlen : Int) (msg : List Nat)
    (hmax : sizeof_lmapi_msg_hdr_t + sizeof_lmapi_msg_result_e ≤ max_len)
    (hpoll : inp.poll_rc ≠ 0) (hrecv : inp.recv = some msg) :
    (lmapi_apply_config max_len inp dev trgt opr data dlen).ret =
      if ((hdr_of_bytes msg).type : Int) ≠ LMAPI_TYPE_RESULT ∨
          (hdr_of_bytes msg).datalen ≠ sizeof_lmapi_msg_result_e then LMAPI_RES_ERR
      else if ((msg.getD sizeof_lmapi_msg_hdr_t 0 : Nat) : Int) ≠ LMAPI_RES_OK then LMAPI_RES_ERR
      else LMAPI_RES_OK := by
  simp only [sizeof_lmapi_msg_hdr_t, sizeof_lmapi_msg_result_e] at hmax
  have hbuf : (lmapi_recv max_len inp (xzalloc max_len)).2 =
      memcpy (xzalloc max_len) 0 (msg.take max_len) := by
    simp only [lmapi_recv, if_neg hpoll, hrecv]
  have hh : hdr_of_bytes (memcpy (xzalloc max_len) 0 (msg.take max_len)) = hdr_of_bytes msg :=
    hdr_of_bytes_congr _ _ (fun i hi => recv_buffer_getD max_len msg i (by omega))
  have h8 : (memcpy (xzalloc max_len) 0 (msg.take max_len)).getD sizeof_lmapi_msg_hdr_t 0 =
      msg.getD sizeof_lmapi_msg_hdr_t 0 :=
    recv_buffer_getD max_len msg _ (by simp only [sizeof_lmapi_msg_hdr_t]; omega)
  simp only [lmapi_apply_config, hbuf, hh, h8]

/-- The value returned by `lmapi_apply_config` when nothing is read or the receive fails:
the zeroed buffer has `datalen = 0`. -/
theorem lmapi_apply_config_ret_none (max_len : Nat) (inp : lmapi_socket_in) (dev trgt opr : Int)
    (data : List Nat) (dlen : Int) (h : inp.poll_rc = 0 ∨ inp.recv = none) :
    (lmapi_apply_config max_len inp dev trgt opr data dlen).ret = LMAPI_RES_ERR := by
  have hbuf : (lmapi_recv max_len inp (xzalloc max_len)).2 = xzalloc max_len := by
    unfold lmapi_recv
    by_cases hp : inp.poll_rc = 0
    · rw [if_pos hp]
    · rw [if_neg hp]
      cases h with
      | inl h0 => exact absurd h0 hp
      | inr h1 => rw [h1]
  have hd := hdr_of_bytes_xzalloc max_len
  simp only [lmapi_apply_config, hbuf, hd, sizeof_lmapi_msg_result_e]
  simp

theorem hdr_of_bytes_reply (h : lmapi_msg_hdr_t) (res : Nat) (hd : h.datalen < 4294967296) :
    hdr_of_bytes (lmapi_reply_msg h res) = h := by
  have e := u32_of_bytes_of_u32 h.datalen hd
  simp only [u32_of_bytes, bytes_of_u32, List.getD_cons_zero, List.getD_cons_succ] at e
  cases h with
  | mk device target operation type datalen =>
    simp only [lmapi_reply_msg, hdr_of_bytes, bytes_of_hdr, bytes_of_u32, u32_of_bytes,
      List.cons_append, List.nil_append, List.getD_cons_zero, List.getD_cons_succ,
      List.drop_succ_cons, List.drop_zero, lmapi_msg_hdr_t.mk.injEq, true_and]
    exact e

/-- C12: `lmapi_apply_config` returns `LMAPI_RES_OK` or `LMAPI_RES_ERR` and nothing else;
it returns `LMAPI_RES_ERR` when nothing is read or the receive fails, and for
every message whose header has a type other than Result or a `datalen` other
than `sizeof(result)`; for a reply that is a header followed by a result in
`{Ok, Err}` it returns `LMAPI_RES_OK` if and only if the header has type = Result,
`datalen = sizeof(result)` and the result is Ok.  For any message at all the
byte compared with Ok is the first one behind the header. -/
theorem C12_lmapi_apply_config_result (max_len : Nat) (inp : lmapi_socket_in)
    (dev trgt opr : Int) (data : List Nat) (dlen : Int)
    (hmax : sizeof_lmapi_msg_hdr_t + sizeof_lmapi_msg_result_e ≤ max_len) :
    ((lmapi_apply_config max_len inp dev trgt opr data dlen).ret = LMAPI_RES_OK ∨
      (lmapi_apply_config max_len inp dev trgt opr data dlen).ret = LMAPI_RES_ERR) ∧
    (inp.poll_rc = 0 ∨ inp.recv = none →
      (lmapi_apply_config max_len inp dev trgt opr data dlen).ret = LMAPI_RES_ERR) ∧
    (∀ msg, inp.poll_rc ≠ 0 → inp.recv = some msg →
      (((hdr_of_bytes msg).type : Int) ≠ LMAPI_TYPE_RESULT ∨
        (hdr_of_bytes msg).datalen ≠ sizeof_lmapi_msg_result_e) →
      (lmapi_apply_config max_len inp dev trgt opr data dlen).ret = LMAPI_RES_ERR) ∧
    (∀ (h : lmapi_msg_hdr_t) (res : Int), inp.poll_rc ≠ 0 →
      inp.recv = some (lmapi_reply_msg h res.toNat) →
      h.datalen < 4294967296 → (res = LMAPI_RES_OK ∨ res = LMAPI_RES_ERR) →
      ((lmapi_apply_config max_len inp dev trgt opr data dlen).ret = LMAPI_RES_OK ↔
        ((h.type : Int) = LMAPI_TYPE_RESULT ∧ h.datalen = sizeof_lmapi_msg_result_e ∧
          res = LMAPI_RES_OK))) ∧
    (∀ msg, inp.poll_rc ≠ 0 → inp.recv = some msg →
      ((lmapi_apply_config max_len inp dev trgt opr data dlen).ret = LMAPI_RES_OK ↔
        (((hdr_of_bytes msg).type : Int) = LMAPI_TYPE_RESULT ∧
          (hdr_of_bytes msg).datalen = sizeof_lmapi_msg_result_e ∧
          ((msg.getD sizeof_lmapi_msg_hdr_t 0 : Nat) : Int) = LMAPI_RES_OK))) := by
  have hne : LMAPI_RES_ERR ≠ LMAPI_RES_OK := by decide
  refine ⟨?_, ?_, ?_, ?_, ?_⟩
  · by_cases hn : inp.poll_rc = 0 ∨ inp.recv = none
    · exact Or.inr (lmapi_apply_config_ret_none max_len inp dev trgt opr data dlen hn)
    · have hp : inp.poll_rc ≠ 0 := fun h => hn (Or.inl h)
      cases hr : inp.recv with
      | none => exact absurd (Or.inr hr) hn
      | some msg =>
        rw [lmapi_apply_config_ret_msg max_len inp dev trgt opr data dlen msg hmax hp hr]
        split
        · exact Or.inr rfl
        · split
          · exact Or.inr rfl
          · exact Or.inl rfl
  · exact lmapi_apply_config_ret_none max_len inp dev trgt opr data dlen
  · intro msg hp hr hbad
    rw [lmapi_apply_config_ret_msg max_len inp dev trgt opr data dlen msg hmax hp hr, if_pos hbad]
  · intro h res hp hr hd hres
    rw [lmapi_apply_config_ret_msg max_len inp dev trgt opr data dlen _ hmax hp hr,
      hdr_of_bytes_reply h _ hd]
    have h8 : (lmapi_reply_msg h res.toNat).getD sizeof_lmapi_msg_hdr_t 0 = res.toNat % 256 := by
      simp [lmapi_reply_msg, bytes_of_hdr, bytes_of_u32, sizeof_lmapi_msg_hdr_t]
    rw [h8]
    by_cases hb : (h.type : Int) ≠ LMAPI_TYPE_RESULT ∨ h.datalen ≠ sizeof_lmapi_msg_result_e
    · rw [if_pos hb]
      constructor
      · intro he
        exact absurd he hne
      · rintro ⟨h1, h2, _⟩
        cases hb with
        | inl hb => exact absurd h1 hb
        | inr hb => exact absurd h2 hb
    · rw [if_neg hb]
      have hb1 : (h.type : Int) = LMAPI_TYPE_RESULT := by
        by_contra hc
        exact hb (Or.inl hc)
      have hb2 : h.datalen = sizeof_lmapi_msg_result_e := by
        by_contra hc
        exact hb (Or.inr hc)
      cases hres with
      | inl hok =>
        subst hok
        simp [LMAPI_RES_OK, hb1, hb2]
      | inr herr =>
        subst herr
        simp [LMAPI_RES_OK, LMAPI_RES_ERR]
  · intro msg hp hr
    rw [lmapi_apply_config_ret_msg max_len inp dev trgt opr data dlen msg hmax hp hr]
    by_cases hb : ((hdr_of_bytes msg).type : Int) ≠ LMAPI_TYPE_RESULT ∨
        (hdr_of_bytes msg).datalen ≠ sizeof_lmapi_msg_result_e
    · rw [if_pos hb]
      constructor
      · intro he
        exact absurd he hne
      · rintro ⟨h1, h2, _⟩
        cases hb with
        | inl hb => exact absurd h1 hb
        | inr hb => exact absurd h2 hb
    · rw [if_neg hb]
      have hb1 : ((hdr_of_bytes msg).type : Int) = LMAPI_TYPE_RESULT := by
        by_contra hc
        exact hb (Or.inl hc)
      have hb2 : (hdr_of_bytes msg).datalen = sizeof_lmapi_msg_result_e := by
        by_contra hc
        exact hb (Or.inr hc)
      by_cases h8 : ((msg.getD sizeof_lmapi_msg_hdr_t 0 : Nat) : Int) ≠ LMAPI_RES_OK
      · rw [if_pos h8]
        constructor
        · intro he
          exact absurd he hne
        · rintro ⟨_, _, h3⟩
          exact absurd h3 h8
      · rw [if_neg h8]
        have h8' : ((msg.getD sizeof_lmapi_msg_hdr_t 0 : Nat) : Int) = LMAPI_RES_OK := by
          by_contra hc
          exact h8 hc
        exact ⟨fun _ => ⟨hb1, hb2, h8'⟩, fun _ => rfl⟩

/-- C12 at a concrete input: the reply built by `lmapi_result_msg_new` for the result Ok
is taken as Ok. -/
theorem C12_lmapi_apply_config_result_witness :
    (lmapi_apply_config 4096
      { poll_rc := 1,
        recv := some (lmapi_reply_msg
          { device := 0, target := 0, operation := 0, type := 1, datalen := 4 }
          LMAPI_RES_OK.toNat) } 0 0 0 [] 0).ret = LMAPI_RES_OK :=
  ((C12_lmapi_apply_config_result 4096
      { poll_rc := 1,
        recv := some (lmapi_reply_msg
          { device := 0, target := 0, operation := 0, type := 1, datalen := 4 }
          LMAPI_RES_OK.toNat) } 0 0 0 [] 0 (by decide)).2.2.2.1
    { device := 0, target := 0, operation := 0, type := 1, datalen := 4 } LMAPI_RES_OK
    (by decide) rfl (by decide) (Or.inl rfl)).mpr ⟨rfl, rfl, rfl⟩

/-! ## RLOC-probing parameters, address parsing, server lists: the claims -/

/-- The bound `LISPD_MIN_RETRANSMIT_INTERVAL <= 1` of C17 is needed: with a larger constant,
probing interval 1 and one retry leave a retry interval above the probing
interval. -/
theorem validate_rloc_probing_parameters_small_interval (MAXR MINI : Int) (h0 : 1 ≤ MAXR)
    (h2 : 2 ≤ MINI) :
    validate_rloc_probing_parameters MAXR MINI 1 1 0 = (1, 1, MINI) := by
  simp only [validate_rloc_probing_parameters]
  have e1 : ¬ ((1 : Int) > MAXR) := by omega
  have e2 : (0 : Int) < MINI := by omega
  simp [e1, e2]

theorem validate_rloc_probing_parameters_post (MAXR MINI : Int)
    (interval retries retries_int : Int) (hmax : 0 ≤ MAXR) (hmin : MINI ≤ 1) (i r ri : Int)
    (h : validate_rloc_probing_parameters MAXR MINI interval retries retries_int = (i, r, ri)) :
    0 ≤ i ∧ (0 < i → 0 ≤ r ∧ r ≤ MAXR) ∧ (0 < i → 0 < r → MINI ≤ ri ∧ ri ≤ i) ∧
    (0 ≤ interval → (0 < interval → 0 ≤ retries ∧ retries ≤ MAXR) →
      (0 < interval → 0 < retries → MINI ≤ retries_int ∧ retries_int ≤ interval) →
      i = interval ∧ r = retries ∧ ri = retries_int) ∧
    (interval ≤ 0 → r = retries ∧ ri = retries_int) := by
  simp only [validate_rloc_probing_parameters] at h
  split_ifs at h <;> simp only [Prod.mk.injEq] at h <;> obtain ⟨rfl, rfl, rfl⟩ := h <;>
    refine ⟨?_, ?_, ?_, ?_, ?_⟩ <;> intros <;> omega

/-- C17: with `0 <= LISPD_MAX_RETRANSMITS` and `LISPD_MIN_RETRANSMIT_INTERVAL <= 1`, for all
integer inputs the values after `validate_rloc_probing_parameters` satisfy:
interval >= 0; if interval > 0 then 0 <= retries <= `LISPD_MAX_RETRANSMITS`; if
interval > 0 and retries > 0 then `LISPD_MIN_RETRANSMIT_INTERVAL` <= retries_int
<= interval; inputs that satisfy these bounds come back unchanged; and when the
input interval is <= 0, retries and retries_int are untouched. -/
theorem C17_validate_rloc_probing_parameters (MAXR MINI : Int) (interval retries retries_int : Int)
    (hmax : 0 ≤ MAXR) (hmin : MINI ≤ 1) :
    0 ≤ (validate_rloc_probing_parameters MAXR MINI interval retries retries_int).1 ∧
    (0 < (validate_rloc_probing_parameters MAXR MINI interval retries retries_int).1 →
      0 ≤ (validate_rloc_probing_parameters MAXR MINI interval retries retries_int).2.1 ∧
      (validate_rloc_probing_parameters MAXR MINI interval retries retries_int).2.1 ≤ MAXR) ∧
    (0 < (validate_rloc_probing_parameters MAXR MINI interval retries retries_int).1 →
      0 < (validate_rloc_probing_parameters MAXR MINI interval retries retries_int).2.1 →
      MINI ≤ (validate_rloc_probing_parameters MAXR MINI interval retries retries_int).2.2 ∧
      (validate_rloc_probing_parameters MAXR MINI interval retries retries_int).2.2 ≤
        (validate_rloc_probing_parameters MAXR MINI interval retries retries_int).1) ∧
    (0 ≤ interval → (0 < interval → 0 ≤ retries ∧ retries ≤ MAXR) →
      (0 < interval → 0 < retries → MINI ≤ retries_int ∧ retries_int ≤ interval) →
      validate_rloc_probing_parameters MAXR MINI interval retries retries_int =
        (interval, retries, retries_int)) ∧
    (interval ≤ 0 →
      (validate_rloc_probing_parameters MAXR MINI interval retries retries_int).2 =
        (retries, retries_int)) := by
  rcases h : validate_rloc_probing_parameters MAXR MINI interval retries retries_int with
    ⟨i, r, ri⟩
  obtain ⟨h1, h2, h3, h4, h5⟩ :=
    validate_rloc_probing_parameters_post MAXR MINI interval retries retries_int hmax hmin i r ri h
  refine ⟨h1, h2, h3, ?_, ?_⟩
  · intro a b c
    obtain ⟨e1, e2, e3⟩ := h4 a b c
    rw [e1, e2, e3]
  · intro a
    obtain ⟨e2, e3⟩ := h5 a
    show (r, ri) = (retries, retries_int)
    rw [e2, e3]

/-- C17 at a concrete input: constants 5 and 1, probing interval 30, 9 retries,
retry interval 0. -/
theorem C17_validate_rloc_probing_parameters_witness :
    validate_rloc_probing_parameters 5 1 30 9 0 = (30, 5, 1) ∧
      (0 < (validate_rloc_probing_parameters 5 1 30 9 0).1 →
        0 < (validate_rloc_probing_parameters 5 1 30 9 0).2.1 →
        1 ≤ (validate_rloc_probing_parameters 5 1 30 9 0).2.2 ∧
        (validate_rloc_probing_parameters 5 1 30 9 0).2.2 ≤
          (validate_rloc_probing_parameters 5 1 30 9 0).1) :=
  ⟨by decide, (C17_validate_rloc_probing_parameters 5 1 30 9 0 (by decide) (by decide)).2.2.1⟩

/-- C13: in `parse_lisp_addr`, a string with a '/' is given to the prefix parser
only, and on success the result is the one-element list holding that prefix; a
string without '/' is given to the host parser only.  Only when the chosen
parser fails is the LCAF table consulted, and only when that lookup fails too
is name resolution used. -/
theorem C13_parse_lisp_addr_order (env : addr_env) (default_rloc_afi : Int) (addr_str : String)
    (lcaf_ht : String → Option lisp_addr_t) :
    ('/' ∈ addr_str.toList →
      (∀ a, env.lisp_addr_ippref_from_char addr_str = some a →
        parse_lisp_addr env default_rloc_afi addr_str lcaf_ht =
          ([parse_call.lisp_addr_ippref_from_char addr_str], some [a])) ∧
      (env.lisp_addr_ippref_from_char addr_str = none → ∀ l, lcaf_ht addr_str = some l →
        parse_lisp_addr env default_rloc_afi addr_str lcaf_ht =
          ([parse_call.lisp_addr_ippref_from_char addr_str, parse_call.htable_lookup addr_str],
            some [l])) ∧
      (env.lisp_addr_ippref_from_char addr_str = none → lcaf_ht addr_str = none →
        parse_lisp_addr env default_rloc_afi addr_str lcaf_ht =
          ([parse_call.lisp_addr_ippref_from_char addr_str, parse_call.htable_lookup addr_str,
              parse_call.fqdn_to_addresses addr_str default_rloc_afi],
            fqdn_to_addresses env addr_str default_rloc_afi))) ∧
    ('/' ∉ addr_str.toList →
      (∀ a, env.lisp_addr_ip_from_char addr_str = some a →
        parse_lisp_addr env default_rloc_afi addr_str lcaf_ht =
          ([parse_call.lisp_addr_ip_from_char addr_str], some [a])) ∧
      (env.lisp_addr_ip_from_char addr_str = none → ∀ l, lcaf_ht addr_str = some l →
        parse_lisp_addr env default_rloc_afi addr_str lcaf_ht =
          ([parse_call.lisp_addr_ip_from_char addr_str, parse_call.htable_lookup addr_str],
            some [l])) ∧
      (env.lisp_addr_ip_from_char addr_str = none → lcaf_ht addr_str = none →
        parse_lisp_addr env default_rloc_afi addr_str lcaf_ht =
          ([parse_call.lisp_addr_ip_from_char addr_str, parse_call.htable_lookup addr_str,
              parse_call.fqdn_to_addresses addr_str default_rloc_afi],
            fqdn_to_addresses env addr_str default_rloc_afi))) := by
  constructor
  · intro hs
    have hn : ¬ ('/' ∉ addr_str.toList) := fun h => h hs
    refine ⟨?_, ?_, ?_⟩
    · intro a ha
      simp only [parse_lisp_addr, if_neg hn, ha, glist_add]
    · intro hf l hl
      simp only [parse_lisp_addr, if_neg hn, hf, hl, glist_add]
    · intro hf hl
      simp only [parse_lisp_addr, if_neg hn, hf, hl]
      rfl
  · intro hs
    refine ⟨?_, ?_, ?_⟩
    · intro a ha
      simp only [parse_lisp_addr, if_pos hs, ha, glist_add]
    · intro hf l hl
      simp only [parse_lisp_addr, if_pos hs, hf, hl, glist_add]
    · intro hf hl
      simp only [parse_lisp_addr, if_pos hs, hf, hl]
      rfl

/-- C13 at a concrete input: the string `10.0.0.0/8`, a prefix parser that reads
it, and an empty LCAF table. -/
theorem C13_parse_lisp_addr_order_witness :
    parse_lisp_addr
        { lisp_addr_ip_from_char := fun _ => none,
          lisp_addr_ippref_from_char := fun _ =>
            some (lisp_addr_t.ippref { afi := AF_INET, addr := 167772160 } 8),
          getaddrinfo := fun _ _ => none }
        AF_UNSPEC "10.0.0.0/8" (fun _ => none) =
      ([parse_call.lisp_addr_ippref_from_char "10.0.0.0/8"],
        some [lisp_addr_t.ippref { afi := AF_INET, addr := 167772160 } 8]) :=
  (C13_parse_lisp_addr_order
      { lisp_addr_ip_from_char := fun _ => none,
        lisp_addr_ippref_from_char := fun _ =>
          some (lisp_addr_t.ippref { afi := AF_INET, addr := 167772160 } 8),
        getaddrinfo := fun _ _ => none }
      AF_UNSPEC "10.0.0.0/8" (fun _ => none)).1 (by decide) |>.1 _ rfl

/-- C14: for every server string that the host parser reads as an address `a`
accepted by the default-AFI filter, and every list `L`, `add_server` returns
`GOOD` and appends `a` at the tail; called twice it returns `GOOD` both times
and leaves `L` followed by two entries `a`, whether or not `L` held `a`. -/
theorem C14_add_server_appends_twice (env : addr_env) (default_rloc_afi : Int)
    (str_addr : String) (a : lisp_addr_t) (L : List lisp_addr_t)
    (hparse : env.lisp_addr_ip_from_char str_addr = some a)
    (hafi : default_rloc_afi = AF_UNSPEC ∨ default_rloc_afi = lisp_addr_ip_afi a) :
    add_server env default_rloc_afi str_addr L = (lisp_ret.GOOD, L ++ [a]) ∧
    add_server env default_rloc_afi str_addr (add_server env default_rloc_afi str_addr L).2 =
      (lisp_ret.GOOD, L ++ [a, a]) ∧
    ((add_server env default_rloc_afi str_addr
        (add_server env default_rloc_afi str_addr L).2).2).length = L.length + 2 := by
  have hf : ¬ (default_rloc_afi ≠ AF_UNSPEC ∧ default_rloc_afi ≠ lisp_addr_ip_afi a) := by
    rintro ⟨h1, h2⟩
    cases hafi with
    | inl h => exact h1 h
    | inr h => exact h2 h
  have h1 : ∀ L' : List lisp_addr_t,
      add_server env default_rloc_afi str_addr L' = (lisp_ret.GOOD, L' ++ [a]) := by
    intro L'
    simp only [add_server, parse_ip_addr, hparse, glist_add, List.foldl_cons, List.foldl_nil,
      if_neg hf, glist_add_tail]
  refine ⟨h1 L, ?_, ?_⟩
  · rw [h1 L, h1 (L ++ [a])]
    simp
  · rw [h1 L, h1 (L ++ [a])]
    simp

/-- C14 at a concrete input: the server 10.0.0.1 added twice to a list that
already holds it. -/
theorem C14_add_server_appends_twice_witness :
    add_server addr_env_demo AF_UNSPEC "10.0.0.1"
        (add_server addr_env_demo AF_UNSPEC "10.0.0.1"
          [lisp_addr_t.ip { afi := AF_INET, addr := 167772161 }]).2 =
      (lisp_ret.GOOD,
        [lisp_addr_t.ip { afi := AF_INET, addr := 167772161 }] ++
          [lisp_addr_t.ip { afi := AF_INET, addr := 167772161 },
           lisp_addr_t.ip { afi := AF_INET, addr := 167772161 }]) :=
  (C14_add_server_appends_twice addr_env_demo AF_UNSPEC "10.0.0.1"
    (lisp_addr_t.ip { afi := AF_INET, addr := 167772161 })
    [lisp_addr_t.ip { afi := AF_INET, addr := 167772161 }] (by decide) (Or.inl rfl)).2.1

/-- The loop of `add_map_server` only puts entries with the given key type, key
and flag in front of the list. -/
theorem add_map_server_loop (default_rloc_afi key_type : Int) (k : String) (proxy_reply : Nat)
    (addr_list : List lisp_addr_t) (map_servers : List map_server_elt) :
    ∃ added : List map_server_elt,
      addr_list.foldl
          (fun map_servers addr =>
            if default_rloc_afi ≠ AF_UNSPEC ∧ default_rloc_afi ≠ lisp_addr_ip_afi addr then
              map_servers
            else
              glist_add
                { address := addr, key_type := key_type, key := k, proxy_reply := proxy_reply }
                map_servers)
          map_servers = added ++ map_servers ∧
      ∀ ms ∈ added, ms.key_type = key_type ∧ ms.key = k ∧ ms.proxy_reply = proxy_reply ∧
        ms.address ∈ addr_list := by
  induction addr_list generalizing map_servers with
  | nil => exact ⟨[], rfl, fun ms h => absurd h (List.not_mem_nil ms)⟩
  | cons addr rest ih =>
    simp only [List.foldl_cons]
    by_cases hf : default_rloc_afi ≠ AF_UNSPEC ∧ default_rloc_afi ≠ lisp_addr_ip_afi addr
    · rw [if_pos hf]
      obtain ⟨added, h1, h2⟩ := ih map_servers
      exact ⟨added, h1, fun ms hm =>
        ⟨(h2 ms hm).1, (h2 ms hm).2.1, (h2 ms hm).2.2.1, List.mem_cons_of_mem _ (h2 ms hm).2.2.2⟩⟩
    · rw [if_neg hf]
      obtain ⟨added, h1, h2⟩ := ih (glist_add
        { address := addr, key_type := key_type, key := k, proxy_reply := proxy_reply }
        map_servers)
      refine ⟨added ++ [(⟨addr, key_type, k, proxy_reply⟩ : map_server_elt)], ?_, ?_⟩
      · rw [h1]
        simp [glist_add]
      · intro ms hm
        rw [List.mem_append] at hm
        cases hm with
        | inl hm =>
          exact ⟨(h2 ms hm).1, (h2 ms hm).2.1, (h2 ms hm).2.2.1,
            List.mem_cons_of_mem _ (h2 ms hm).2.2.2⟩
        | inr hm =>
          rw [List.mem_singleton] at hm
          subst hm
          exact ⟨rfl, rfl, rfl, List.mem_cons_self _ _⟩

/-- C15: whenever `str_addr` is `NULL`, `key` is `NULL`, `key_type` is 0, or
`key_type` is anything other than `HMAC_SHA_1_96`, `add_map_server` takes the
exit path (`exit_cleanup`) with the state unchanged, so no entry is added;
conversely, whenever it returns, the Map-Server list is the old list with new
entries put before it, every new entry has `key_type = HMAC_SHA_1_96` and the
key and proxy-reply flag given by the caller, and nothing else of the state
changes. -/
theorem C15_add_map_server_key_type (env : addr_env) (default_rloc_afi : Int) (xtr : lisp_xtr_t)
    (str_addr : Option String) (key_type : Int) (key : Option String) (proxy_reply : Nat) :
    ((str_addr = none ∨ key = none ∨ key_type = 0 ∨ key_type ≠ HMAC_SHA_1_96) →
      add_map_server env default_rloc_afi xtr str_addr key_type key proxy_reply =
        may_exit.exit_cleanup xtr) ∧
    (∀ ret xtr2,
      add_map_server env default_rloc_afi xtr str_addr key_type key proxy_reply =
        may_exit.returned (ret, xtr2) →
      ∃ added : List map_server_elt,
        xtr2.map_servers = added ++ xtr.map_servers ∧
        (∀ ms ∈ added, ms.key_type = HMAC_SHA_1_96 ∧ some ms.key = key ∧
          ms.proxy_reply = proxy_reply) ∧
        (ret = lisp_ret.BAD → added = []) ∧
        xtr2.petrs_mapping = xtr.petrs_mapping ∧ xtr2.all_locs_map = xtr.all_locs_map ∧
        xtr2.iface_locators_table = xtr.iface_locators_table) := by
  constructor
  · intro h
    unfold add_map_server
    by_cases h1 : str_addr = none ∨ key_type = 0 ∨ key = none
    · rw [if_pos h1]
    · rw [if_neg h1]
      have h2 : key_type ≠ HMAC_SHA_1_96 := by
        rcases h with h | h | h | h
        · exact absurd (Or.inl h) h1
        · exact absurd (Or.inr (Or.inr h)) h1
        · exact absurd (Or.inr (Or.inl h)) h1
        · exact h
      rw [if_pos h2]
  · intro ret xtr2 h
    unfold add_map_server at h
    by_cases h1 : str_addr = none ∨ key_type = 0 ∨ key = none
    · rw [if_pos h1] at h
      cases h
    · rw [if_neg h1] at h
      by_cases h2 : key_type ≠ HMAC_SHA_1_96
      · rw [if_pos h2] at h
        cases h
      · rw [if_neg h2] at h
        have hk : key_type = HMAC_SHA_1_96 := by
          by_contra hc
          exact h2 hc
        cases str_addr with
        | none => exact absurd (Or.inl rfl) h1
        | some s =>
          cases key with
          | none => exact absurd (Or.inr (Or.inr rfl)) h1
          | some k =>
            simp only at h
            cases hp : parse_ip_addr env default_rloc_afi s with
            | none =>
              rw [hp] at h
              simp only [may_exit.returned.injEq, Prod.mk.injEq] at h
              obtain ⟨hr, hx⟩ := h
              subst hx
              exact ⟨[], rfl, fun ms hm => absurd hm (List.not_mem_nil ms), fun _ => rfl,
                rfl, rfl, rfl⟩
            | some addr_list =>
              rw [hp] at h
              simp only [may_exit.returned.injEq, Prod.mk.injEq] at h
              obtain ⟨hr, hx⟩ := h
              subst hx
              obtain ⟨added, e1, e2⟩ :=
                add_map_server_loop default_rloc_afi key_type k proxy_reply addr_list
                  xtr.map_servers
              refine ⟨added, e1, ?_, ?_, rfl, rfl, rfl⟩
              · intro ms hm
                obtain ⟨a1, a2, a3, _⟩ := e2 ms hm
                exact ⟨a1.trans hk, by rw [a2], a3⟩
              · intro hb
                rw [← hr] at hb
                cases hb

/-- C15 at a concrete input: key type 2 takes the exit path. -/
theorem C15_add_map_server_key_type_witness :
    add_map_server addr_env_demo AF_UNSPEC xtr_empty (some "10.0.0.1") 2 (some "secret") 1 =
      may_exit.exit_cleanup xtr_empty :=
  (C15_add_map_server_key_type addr_env_demo AF_UNSPEC xtr_empty (some "10.0.0.1") 2
    (some "secret") 1).1 (Or.inr (Or.inr (Or.inr (by decide))))

/-- The loop of `add_proxy_etr_entry` only appends locators built from the given
priority and weight, in state Up. -/
theorem add_proxy_etr_entry_loop (accept : mapping_t → locator_t → Bool)
    (default_rloc_afi priority weight : Int) (addr_list : List lisp_addr_t) (m : mapping_t) :
    ∃ added : List locator_t,
      (addr_list.foldl
          (fun m addr =>
            if default_rloc_afi ≠ AF_UNSPEC ∧ default_rloc_afi ≠ lisp_addr_ip_afi addr then m
            else
              match locator_init_remote_full addr UP (to_uint8 priority) (to_uint8 weight)
                  255 0 with
              | none => m
              | some locator => (mapping_add_locator accept m locator).2)
          m) = { m with locators := m.locators ++ added } ∧
      ∀ l ∈ added, l.priority = to_uint8 priority ∧ l.weight = to_uint8 weight ∧ l.state = UP := by
  induction addr_list generalizing m with
  | nil => exact ⟨[], by simp, fun l h => absurd h (List.not_mem_nil l)⟩
  | cons addr rest ih =>
    simp only [List.foldl_cons]
    by_cases hf : default_rloc_afi ≠ AF_UNSPEC ∧ default_rloc_afi ≠ lisp_addr_ip_afi addr
    · rw [if_pos hf]
      exact ih m
    · rw [if_neg hf]
      have e : (match locator_init_remote_full addr UP (to_uint8 priority) (to_uint8 weight)
                  255 0 with
                | none => m
                | some locator => (mapping_add_locator accept m locator).2) =
          if accept m (⟨addr, UP, to_uint8 priority, to_uint8 weight, 255, 0,
              locator_type.REMOTE_LOCATOR, none⟩ : locator_t) = true then
            { m with locators := m.locators ++
                [(⟨addr, UP, to_uint8 priority, to_uint8 weight, 255, 0,
                  locator_type.REMOTE_LOCATOR, none⟩ : locator_t)] }
          else m := by
        simp only [locator_init_remote_full, mapping_add_locator]
        split_ifs <;> rfl
      rw [e]
      split_ifs with ha
      · obtain ⟨added, h1, h2⟩ := ih { m with locators := m.locators ++
          [(⟨addr, UP, to_uint8 priority, to_uint8 weight, 255, 0,
            locator_type.REMOTE_LOCATOR, none⟩ : locator_t)] }
        refine ⟨(⟨addr, UP, to_uint8 priority, to_uint8 weight, 255, 0,
            locator_type.REMOTE_LOCATOR, none⟩ : locator_t) :: added, ?_, ?_⟩
        · rw [h1]
          simp
        · intro l hl
          rw [List.mem_cons] at hl
          cases hl with
          | inl hl =>
            subst hl
            exact ⟨rfl, rfl, rfl⟩
          | inr hl => exact h2 l hl
      · exact ih m

/-- C20, as stated, fails: priority -1 passes `validate_priority_weight`, and the
locator added for the proxy-ETR carries priority 255, not the priority passed
by the caller. -/
theorem C20_priority_minus_one_stored_as_255 :
    (add_proxy_etr_entry addr_env_demo (fun _ _ => true) AF_UNSPEC xtr_empty
        (some "10.0.0.1") (-1) 0).1 = lisp_ret.GOOD ∧
    (add_proxy_etr_entry addr_env_demo (fun _ _ => true) AF_UNSPEC xtr_empty
        (some "10.0.0.1") (-1) 0).2.petrs_mapping.locators =
      [{ addr := lisp_addr_t.ip { afi := AF_INET, addr := 167772161 }, state := UP,
         priority := 255, weight := 0, mpriority := 255, mweight := 0,
         type := locator_type.REMOTE_LOCATOR, out_socket := none }] ∧
    ¬ (∀ l ∈ (add_proxy_etr_entry addr_env_demo (fun _ _ => true) AF_UNSPEC xtr_empty
        (some "10.0.0.1") (-1) 0).2.petrs_mapping.locators, (l.priority : Int) = -1) := by
  decide

/-- C20 (amended): whenever `str_addr` is `NULL` or `validate_priority_weight`
does not return `GOOD`, `add_proxy_etr_entry` returns `BAD` and leaves the
state, and so the locators of the proxy-ETR mapping, unchanged.  In every call
the locators of the proxy-ETR mapping are the old ones followed by the added
ones; every added locator is in state Up, carries the weight passed by the
caller and the priority passed by the caller converted to 8 bits (the priority
itself when it is 0..255, and 255 when it is -1), and both lie in 0..255. -/
theorem C20_add_proxy_etr_entry_locators (env : addr_env) (accept : mapping_t → locator_t → Bool)
    (default_rloc_afi : Int) (xtr : lisp_xtr_t) (str_addr : Option String)
    (priority weight : Int) :
    ((str_addr = none ∨ validate_priority_weight priority weight ≠ lisp_ret.GOOD) →
      add_proxy_etr_entry env accept default_rloc_afi xtr str_addr priority weight =
        (lisp_ret.BAD, xtr)) ∧
    (∃ added : List locator_t,
      (add_proxy_etr_entry env accept default_rloc_afi xtr str_addr priority
          weight).2.petrs_mapping.locators = xtr.petrs_mapping.locators ++ added ∧
      ((add_proxy_etr_entry env accept default_rloc_afi xtr str_addr priority weight).1 =
          lisp_ret.BAD → added = []) ∧
      ∀ l ∈ added,
        l.state = UP ∧ (l.weight : Int) = weight ∧ l.priority = to_uint8 priority ∧
        (0 ≤ priority → (l.priority : Int) = priority) ∧
        (priority = -1 → l.priority = 255) ∧
        l.priority ≤ 255 ∧ l.weight ≤ 255) := by
  constructor
  · intro h
    unfold add_proxy_etr_entry
    cases str_addr with
    | none => rfl
    | some s =>
      have hv : validate_priority_weight priority weight ≠ lisp_ret.GOOD := by
        cases h with
        | inl h => cases h
        | inr h => exact h
      simp only [if_pos hv]
  · unfold add_proxy_etr_entry
    cases str_addr with
    | none => exact ⟨[], by simp, fun _ => rfl, fun l h => absurd h (List.not_mem_nil l)⟩
    | some s =>
      simp only
      by_cases hv : validate_priority_weight priority weight ≠ lisp_ret.GOOD
      · rw [if_pos hv]
        exact ⟨[], by simp, fun _ => rfl, fun l h => absurd h (List.not_mem_nil l)⟩
      · rw [if_neg hv]
        have hrange : -1 ≤ priority ∧ priority ≤ 255 ∧ 0 ≤ weight ∧ weight ≤ 255 := by
          have hv2 : validate_priority_weight priority weight = lisp_ret.GOOD := by
            by_contra hc
            exact hv hc
          unfold validate_priority_weight at hv2
          simp only [MAX_PRIORITY, UNUSED_RLOC_PRIORITY, MAX_WEIGHT, MIN_WEIGHT] at hv2
          split_ifs at hv2 with h1 h2
          omega
        cases hp : parse_ip_addr env default_rloc_afi s with
        | none => exact ⟨[], by simp, fun _ => rfl, fun l h => absurd h (List.not_mem_nil l)⟩
        | some addr_list =>
          simp only
          obtain ⟨added, h1, h2⟩ := add_proxy_etr_entry_loop accept default_rloc_afi priority
            weight addr_list xtr.petrs_mapping
          refine ⟨added, by rw [h1], (fun hb => by cases hb), ?_⟩
          intro l hl
          obtain ⟨a1, a2, a3⟩ := h2 l hl
          rw [a1, a2]
          refine ⟨a3, ?_, rfl, ?_, ?_, ?_, ?_⟩ <;> unfold to_uint8 <;> omega

/-! ## Interfaces and the mapping of all locators: the claims -/

theorem iface_locator_v4_ne_v6 (iface : iface_t) (p4 w4 p6 w6 : Int) :
    iface_locator_v4 iface p4 w4 ≠ iface_locator_v6 iface p6 w6 := by
  intro h
  have h2 := congrArg locator_t.out_socket h
  simp [iface_locator_v4, iface_locator_v6, locator_init_local_full] at h2

/-- What `link_iface_and_mapping` leaves, whatever it returns. -/
theorem link_iface_and_mapping_spec (accept : mapping_t → locator_t → Bool)
    (default_rloc_afi : Int) (iface : iface_t) (if_loct : iface_locators) (m : mapping_t)
    (p4 w4 p6 w6 : Int) :
    (link_iface_and_mapping accept default_rloc_afi iface if_loct m p4 w4 p6 w6).m.ptr = m.ptr ∧
    (link_iface_and_mapping accept default_rloc_afi iface if_loct m p4 w4 p6 w6).m.eid = m.eid ∧
    (link_iface_and_mapping accept default_rloc_afi iface if_loct m p4 w4 p6
        w6).if_loct.iface_name = if_loct.iface_name ∧
    (link_iface_and_mapping accept default_rloc_afi iface if_loct m p4 w4 p6
        w6).if_loct.mappings =
      (if glist_contain m.ptr if_loct.mappings = false then m.ptr :: if_loct.mappings
       else if_loct.mappings) ∧
    (m.locators <+: (link_iface_and_mapping accept default_rloc_afi iface if_loct m p4 w4 p6
        w6).m.locators) ∧
    ((link_iface_and_mapping accept default_rloc_afi iface if_loct m p4 w4 p6 w6).ret =
        lisp_ret.GOOD →
      (link_iface_and_mapping accept default_rloc_afi iface if_loct m p4 w4 p6 w6).m.locators =
        m.locators ++
          (link_iface_and_mapping accept default_rloc_afi iface if_loct m p4 w4 p6 w6).created) ∧
    (if_loct.ipv4_locators <:+ (link_iface_and_mapping accept default_rloc_afi iface if_loct m
        p4 w4 p6 w6).if_loct.ipv4_locators) ∧
    ((link_iface_and_mapping accept default_rloc_afi iface if_loct m p4 w4 p6 w6).ret =
        lisp_ret.GOOD →
      (link_iface_and_mapping accept default_rloc_afi iface if_loct m p4 w4 p6
          w6).if_loct.ipv4_locators =
        (if p4 ≥ 0 ∧ default_rloc_afi ≠ AF_INET6 then [iface_locator_v4 iface p4 w4] else []) ++
          if_loct.ipv4_locators) ∧
    (if_loct.ipv6_locators <:+ (link_iface_and_mapping accept default_rloc_afi iface if_loct m
        p4 w4 p6 w6).if_loct.ipv6_locators) ∧
    ((link_iface_and_mapping accept default_rloc_afi iface if_loct m p4 w4 p6 w6).ret =
        lisp_ret.GOOD →
      (link_iface_and_mapping accept default_rloc_afi iface if_loct m p4 w4 p6
          w6).if_loct.ipv6_locators =
        (if p6 ≥ 0 ∧ default_rloc_afi ≠ AF_INET then [iface_locator_v6 iface p6 w6] else []) ++
          if_loct.ipv6_locators) ∧
    (∃ c6 : List locator_t,
      (link_iface_and_mapping accept default_rloc_afi iface if_loct m p4 w4 p6 w6).created =
        (if p4 ≥ 0 ∧ default_rloc_afi ≠ AF_INET6 then [iface_locator_v4 iface p4 w4] else []) ++
          c6 ∧
      (c6 = [] ∨ (c6 = [iface_locator_v6 iface p6 w6] ∧ p6 ≥ 0 ∧ default_rloc_afi ≠ AF_INET)) ∧
      ((link_iface_and_mapping accept default_rloc_afi iface if_loct m p4 w4 p6 w6).ret =
          lisp_ret.GOOD →
        c6 = if p6 ≥ 0 ∧ default_rloc_afi ≠ AF_INET then [iface_locator_v6 iface p6 w6]
             else [])) := by
  unfold iface_locator_v4 iface_locator_v6
  by_cases hg : glist_contain m.ptr if_loct.mappings = false <;>
  by_cases hc4 : p4 ≥ 0 ∧ default_rloc_afi ≠ AF_INET6 <;>
  by_cases hc6 : p6 ≥ 0 ∧ default_rloc_afi ≠ AF_INET <;>
  by_cases ha4 : accept m (locator_init_local_full iface.ipv4_address iface.status (to_uint8 p4)
      (to_uint8 w4) 255 0 (socket_ref.out_socket_v4 iface.iface_name)) = true <;>
  by_cases ha6 : accept m (locator_init_local_full iface.ipv6_address iface.status (to_uint8 p6)
      (to_uint8 w6) 255 0 (socket_ref.out_socket_v6 iface.iface_name)) = true <;>
  by_cases hb6 : accept { m with locators := m.locators ++
      [locator_init_local_full iface.ipv4_address iface.status (to_uint8 p4)
        (to_uint8 w4) 255 0 (socket_ref.out_socket_v4 iface.iface_name)] }
      (locator_init_local_full iface.ipv6_address iface.status (to_uint8 p6)
      (to_uint8 w6) 255 0 (socket_ref.out_socket_v6 iface.iface_name)) = true <;>
  simp [link_iface_and_mapping, mapping_add_locator, glist_add, hg, hc4, hc6, ha4, ha6, hb6]

theorem glist_mappings_count (l : List Nat) (x : Nat) (h : l.count x ≤ 1) :
    (if glist_contain x l = false then x :: l else l).count x = 1 := by
  by_cases hx : x ∈ l
  · have hc : glist_contain x l = true := by simp [glist_contain, hx]
    rw [hc]
    simp only [Bool.true_eq_false, if_false]
    have := List.count_pos_iff.mpr hx
    omega
  · have hc : glist_contain x l = false := by simp [glist_contain, hx]
    rw [hc]
    simp only [if_true, List.count_cons_self]
    rw [List.count_eq_zero_of_not_mem hx]

/-- C19, as stated, fails: when `mapping_add_locator` refuses the IPv4 locator the
function returns `BAD` at once, and no IPv6 locator is created although
`p6 >= 0` and `default_rloc_afi` is not `AF_INET`. -/
theorem C19_ipv6_locator_skipped_after_ipv4_refusal :
    (link_iface_and_mapping (fun _ _ => false) AF_UNSPEC iface_eth0 (iface_locators_new "eth0")
        (mapping_init_local 7 addr_0_0_0_0) 1 100 1 100).ret = lisp_ret.BAD ∧
    (link_iface_and_mapping (fun _ _ => false) AF_UNSPEC iface_eth0 (iface_locators_new "eth0")
        (mapping_init_local 7 addr_0_0_0_0) 1 100 1 100).created =
      [iface_locator_v4 iface_eth0 1 100] ∧
    ¬ (iface_locator_v6 iface_eth0 1 100 ∈
        (link_iface_and_mapping (fun _ _ => false) AF_UNSPEC iface_eth0
          (iface_locators_new "eth0") (mapping_init_local 7 addr_0_0_0_0) 1 100 1 100).created ↔
      ((1 : Int) ≥ 0 ∧ AF_UNSPEC ≠ AF_INET)) := by
  decide

/-- C19 (amended): in `link_iface_and_mapping` an IPv4 locator is created if and
only if `p4 >= 0` and `default_rloc_afi` is not `AF_INET6`; an IPv6 locator is
created only if `p6 >= 0` and `default_rloc_afi` is not `AF_INET`, and, when the
function returns `GOOD`, if and only if so.  When it returns `GOOD`, the
locators of `m` are the old ones followed by the created ones, the IPv4 locator
is in `ipv4_locators` with the IPv4 socket of the interface and the IPv6
locator in `ipv6_locators` with the IPv6 socket.  Whatever it returns, `m`
occurs exactly once in the mappings of `if_loct` if it occurred at most once
before, and a further call with it keeps it so. -/
theorem C19_link_iface_and_mapping_locators (accept : mapping_t → locator_t → Bool)
    (default_rloc_afi : Int) (iface : iface_t) (if_loct : iface_locators) (m : mapping_t)
    (p4 w4 p6 w6 : Int) :
    (iface_locator_v4 iface p4 w4 ∈
        (link_iface_and_mapping accept default_rloc_afi iface if_loct m p4 w4 p6 w6).created ↔
      (p4 ≥ 0 ∧ default_rloc_afi ≠ AF_INET6)) ∧
    (iface_locator_v6 iface p6 w6 ∈
        (link_iface_and_mapping accept default_rloc_afi iface if_loct m p4 w4 p6 w6).created →
      (p6 ≥ 0 ∧ default_rloc_afi ≠ AF_INET)) ∧
    (∀ l ∈ (link_iface_and_mapping accept default_rloc_afi iface if_loct m p4 w4 p6 w6).created,
      l = iface_locator_v4 iface p4 w4 ∨ l = iface_locator_v6 iface p6 w6) ∧
    ((link_iface_and_mapping accept default_rloc_afi iface if_loct m p4 w4 p6 w6).ret =
        lisp_ret.GOOD →
      (iface_locator_v6 iface p6 w6 ∈
          (link_iface_and_mapping accept default_rloc_afi iface if_loct m p4 w4 p6 w6).created ↔
        (p6 ≥ 0 ∧ default_rloc_afi ≠ AF_INET)) ∧
      (link_iface_and_mapping accept default_rloc_afi iface if_loct m p4 w4 p6 w6).m.locators =
        m.locators ++
          (link_iface_and_mapping accept default_rloc_afi iface if_loct m p4 w4 p6 w6).created ∧
      ((p4 ≥ 0 ∧ default_rloc_afi ≠ AF_INET6) →
        iface_locator_v4 iface p4 w4 ∈
          (link_iface_and_mapping accept default_rloc_afi iface if_loct m p4 w4 p6
            w6).if_loct.ipv4_locators ∧
        (iface_locator_v4 iface p4 w4).out_socket =
          some (socket_ref.out_socket_v4 iface.iface_name)) ∧
      ((p6 ≥ 0 ∧ default_rloc_afi ≠ AF_INET) →
        iface_locator_v6 iface p6 w6 ∈
          (link_iface_and_mapping accept default_rloc_afi iface if_loct m p4 w4 p6
            w6).if_loct.ipv6_locators ∧
        (iface_locator_v6 iface p6 w6).out_socket =
          some (socket_ref.out_socket_v6 iface.iface_name))) ∧
    (if_loct.mappings.count m.ptr ≤ 1 →
      (link_iface_and_mapping accept default_rloc_afi iface if_loct m p4 w4 p6
        w6).if_loct.mappings.count m.ptr = 1 ∧
      ∀ (accept2 : mapping_t → locator_t → Bool) (afi2 : Int) (iface2 : iface_t)
        (q4 v4 q6 v6 : Int),
        (link_iface_and_mapping accept2 afi2 iface2
          (link_iface_and_mapping accept default_rloc_afi iface if_loct m p4 w4 p6 w6).if_loct
          (link_iface_and_mapping accept default_rloc_afi iface if_loct m p4 w4 p6 w6).m
          q4 v4 q6 v6).if_loct.mappings.count m.ptr = 1) := by
  obtain ⟨hptr, _, _, hmap, _, hloc, _, h4, _, h6, c6, hcr, hc6, hc6g⟩ :=
    link_iface_and_mapping_spec accept default_rloc_afi iface if_loct m p4 w4 p6 w6
  have hne := iface_locator_v4_ne_v6 iface p4 w4 p6 w6
  refine ⟨?_, ?_, ?_, ?_, ?_⟩
  · rw [hcr]
    by_cases hc4 : p4 ≥ 0 ∧ default_rloc_afi ≠ AF_INET6
    · simp [hc4]
    · rcases hc6 with h | ⟨h, _⟩ <;> simp [hc4, h, hne]
  · rw [hcr]
    intro hmem
    rcases hc6 with h | ⟨h, h'⟩
    · rw [h, List.append_nil] at hmem
      by_cases hc4 : p4 ≥ 0 ∧ default_rloc_afi ≠ AF_INET6
      · rw [if_pos hc4, List.mem_singleton] at hmem
        exact absurd hmem.symm hne
      · rw [if_neg hc4] at hmem
        exact absurd hmem (List.not_mem_nil _)
    · exact h'
  · rw [hcr]
    intro l hl
    rw [List.mem_append] at hl
    rcases hl with hl | hl
    · by_cases hc4 : p4 ≥ 0 ∧ default_rloc_afi ≠ AF_INET6
      · rw [if_pos hc4, List.mem_singleton] at hl
        exact Or.inl hl
      · rw [if_neg hc4] at hl
        exact absurd hl (List.not_mem_nil _)
    · rcases hc6 with h | ⟨h, _⟩
      · rw [h] at hl
        exact absurd hl (List.not_mem_nil _)
      · rw [h, List.mem_singleton] at hl
        exact Or.inr hl
  · intro hg
    refine ⟨?_, hloc hg, ?_, ?_⟩
    · rw [hcr, hc6g hg]
      by_cases hc4 : p4 ≥ 0 ∧ default_rloc_afi ≠ AF_INET6 <;>
        by_cases hc6' : p6 ≥ 0 ∧ default_rloc_afi ≠ AF_INET <;>
        simp [hc4, hc6', hne.symm]
    · intro hc4
      rw [h4 hg, if_pos hc4]
      exact ⟨by simp, rfl⟩
    · intro hc6'
      rw [h6 hg, if_pos hc6']
      exact ⟨by simp, rfl⟩
  · intro hcount
    have h1 : (link_iface_and_mapping accept default_rloc_afi iface if_loct m p4 w4 p6
        w6).if_loct.mappings.count m.ptr = 1 := by
      rw [hmap]
      exact glist_mappings_count _ _ hcount
    refine ⟨h1, ?_⟩
    intro accept2 afi2 iface2 q4 v4 q6 v6
    obtain ⟨_, _, _, hmap2, _⟩ := link_iface_and_mapping_spec accept2 afi2 iface2
      (link_iface_and_mapping accept default_rloc_afi iface if_loct m p4 w4 p6 w6).if_loct
      (link_iface_and_mapping accept default_rloc_afi iface if_loct m p4 w4 p6 w6).m
      q4 v4 q6 v6
    rw [hmap2, hptr]
    exact glist_mappings_count _ _ (by omega)

/-- The two ways a call of `add_rtr_iface` ends: an early `return (BAD)` that
touches nothing, or the call of `link_iface_and_mapping` on the entry of the
interface and the mapping of all locators. -/
theorem add_rtr_iface_cases (env : iface_env) (aenv : addr_env)
    (accept : mapping_t → locator_t → Bool) (default_rloc_afi : Int) (fresh : Nat)
    (xtr : lisp_xtr_t) (iface_name : Option String) (p w : Int) :
    (add_rtr_iface env aenv accept default_rloc_afi fresh xtr iface_name p w =
        { ret := lisp_ret.BAD, xtr := xtr, created := [] }) ∨
    (∃ name iface, iface_name = some name ∧
      add_rtr_iface env aenv accept default_rloc_afi fresh xtr iface_name p w =
        { ret := (link_iface_and_mapping accept default_rloc_afi iface
              ((xtr.iface_locators_table name).getD (iface_locators_new name))
              (xtr.all_locs_map.getD (mapping_init_local fresh
                ((aenv.lisp_addr_ip_from_char "0.0.0.0").getD lisp_addr_t.no_addr)))
              p w p w).ret,
          xtr := { xtr with
                   all_locs_map := some (link_iface_and_mapping accept default_rloc_afi iface
                     ((xtr.iface_locators_table name).getD (iface_locators_new name))
                     (xtr.all_locs_map.getD (mapping_init_local fresh
                       ((aenv.lisp_addr_ip_from_char "0.0.0.0").getD lisp_addr_t.no_addr)))
                     p w p w).m
                   iface_locators_table :=
                     Function.update xtr.iface_locators_table name
                       (some (link_iface_and_mapping accept default_rloc_afi iface
                         ((xtr.iface_locators_table name).getD (iface_locators_new name))
                         (xtr.all_locs_map.getD (mapping_init_local fresh
                           ((aenv.lisp_addr_ip_from_char "0.0.0.0").getD lisp_addr_t.no_addr)))
                         p w p w).if_loct) },
          created := (link_iface_and_mapping accept default_rloc_afi iface
              ((xtr.iface_locators_table name).getD (iface_locators_new name))
              (xtr.all_locs_map.getD (mapping_init_local fresh
                ((aenv.lisp_addr_ip_from_char "0.0.0.0").getD lisp_addr_t.no_addr)))
              p w p w).created }) := by
  unfold add_rtr_iface
  cases iface_name with
  | none => exact Or.inl rfl
  | some name =>
    simp only
    by_cases hv : validate_priority_weight p w ≠ lisp_ret.GOOD
    · rw [if_pos hv]
      exact Or.inl rfl
    · rw [if_neg hv]
      have hfound : ∀ found : Option iface_t,
          (match env.get_interface (some name) with
            | some iface => some iface
            | none => env.add_interface (some name)) = found →
          found = none ∨ ∃ iface, found = some iface := by
        intro found _
        cases found with
        | none => exact Or.inl rfl
        | some i => exact Or.inr ⟨i, rfl⟩
      rcases hfound _ rfl with h | ⟨iface, h⟩
      · rw [h]
        exact Or.inl rfl
      · rw [h]
        refine Or.inr ⟨name, iface, rfl, ?_⟩
        cases h1 : xtr.iface_locators_table name <;> cases h2 : xtr.all_locs_map <;> rfl

/-- When `link_iface_and_mapping` returns `BAD`, the locator created last is the
refused one: the mapping holds the old locators and the created ones but the
last. -/
theorem link_iface_and_mapping_bad (accept : mapping_t → locator_t → Bool)
    (default_rloc_afi : Int) (iface : iface_t) (if_loct : iface_locators) (m : mapping_t)
    (p4 w4 p6 w6 : Int)
    (hb : (link_iface_and_mapping accept default_rloc_afi iface if_loct m p4 w4 p6 w6).ret =
      lisp_ret.BAD) :
    (link_iface_and_mapping accept default_rloc_afi iface if_loct m p4 w4 p6 w6).created ≠ [] ∧
    (link_iface_and_mapping accept default_rloc_afi iface if_loct m p4 w4 p6 w6).m.locators =
      m.locators ++
        (link_iface_and_mapping accept default_rloc_afi iface if_loct m p4 w4 p6
          w6).created.dropLast := by
  revert hb
  by_cases hg : glist_contain m.ptr if_loct.mappings = false <;>
  by_cases hc4 : p4 ≥ 0 ∧ default_rloc_afi ≠ AF_INET6 <;>
  by_cases hc6 : p6 ≥ 0 ∧ default_rloc_afi ≠ AF_INET <;>
  by_cases ha4 : accept m (locator_init_local_full iface.ipv4_address iface.status (to_uint8 p4)
      (to_uint8 w4) 255 0 (socket_ref.out_socket_v4 iface.iface_name)) = true <;>
  by_cases ha6 : accept m (locator_init_local_full iface.ipv6_address iface.status (to_uint8 p6)
      (to_uint8 w6) 255 0 (socket_ref.out_socket_v6 iface.iface_name)) = true <;>
  by_cases hb6 : accept { m with locators := m.locators ++
      [locator_init_local_full iface.ipv4_address iface.status (to_uint8 p4)
        (to_uint8 w4) 255 0 (socket_ref.out_socket_v4 iface.iface_name)] }
      (locator_init_local_full iface.ipv6_address iface.status (to_uint8 p6)
      (to_uint8 w6) 255 0 (socket_ref.out_socket_v6 iface.iface_name)) = true <;>
  simp [link_iface_and_mapping, mapping_add_locator, glist_add, hg, hc4, hc6, ha4, ha6, hb6]

/-- A call of `add_rtr_iface` that gets past the argument checks and the
interface lookup ends with the call of `link_iface_and_mapping` for that
interface. -/
theorem add_rtr_iface_past (env : iface_env) (aenv : addr_env)
    (accept : mapping_t → locator_t → Bool) (default_rloc_afi : Int) (fresh : Nat)
    (xtr : lisp_xtr_t) (p w : Int) (name : String) (iface : iface_t)
    (hv : validate_priority_weight p w = lisp_ret.GOOD)
    (hi : env.get_interface (some name) = some iface ∨
      (env.get_interface (some name) = none ∧ env.add_interface (some name) = some iface)) :
    add_rtr_iface env aenv accept default_rloc_afi fresh xtr (some name) p w =
      { ret := (link_iface_and_mapping accept default_rloc_afi iface (rtr_if_loct xtr name)
            (rtr_all_locs_map aenv fresh xtr) p w p w).ret,
        xtr := { xtr with
                 all_locs_map := some (link_iface_and_mapping accept default_rloc_afi iface
                   (rtr_if_loct xtr name) (rtr_all_locs_map aenv fresh xtr) p w p w).m
                 iface_locators_table :=
                   Function.update xtr.iface_locators_table name
                     (some (link_iface_and_mapping accept default_rloc_afi iface
                       (rtr_if_loct xtr name) (rtr_all_locs_map aenv fresh xtr) p w p
                       w).if_loct) },
        created := (link_iface_and_mapping accept default_rloc_afi iface (rtr_if_loct xtr name)
            (rtr_all_locs_map aenv fresh xtr) p w p w).created } := by
  have hfound : (match env.get_interface (some name) with
      | some iface => some iface
      | none => env.add_interface (some name)) = some iface := by
    rcases hi with h | ⟨h1, h2⟩
    · rw [h]
    · rw [h1, h2]
  unfold add_rtr_iface rtr_if_loct rtr_all_locs_map
  simp only [hv, ne_eq, not_true_eq_false, if_false, hfound]
  cases h1 : xtr.iface_locators_table name <;> cases h2 : xtr.all_locs_map <;> rfl

/-- A call of `add_rtr_iface` that fails an argument check or finds no interface
returns `BAD` and leaves everything as it was. -/
theorem add_rtr_iface_early (env : iface_env) (aenv : addr_env)
    (accept : mapping_t → locator_t → Bool) (default_rloc_afi : Int) (fresh : Nat)
    (xtr : lisp_xtr_t) (iface_name : Option String) (p w : Int)
    (h : iface_name = none ∨ validate_priority_weight p w ≠ lisp_ret.GOOD ∨
      ∃ name, iface_name = some name ∧ env.get_interface (some name) = none ∧
        env.add_interface (some name) = none) :
    add_rtr_iface env aenv accept default_rloc_afi fresh xtr iface_name p w =
      { ret := lisp_ret.BAD, xtr := xtr, created := [] } := by
  unfold add_rtr_iface
  cases iface_name with
  | none => rfl
  | some name =>
    simp only
    by_cases hv : validate_priority_weight p w ≠ lisp_ret.GOOD
    · rw [if_pos hv]
    · rw [if_neg hv]
      rcases h with h | h | ⟨nm, h1, h2, h3⟩
      · cases h
      · exact absurd h hv
      · cases h1
        rw [h2, h3]

/-- What `add_rtr_iface` keeps: an existing mapping of all locators, the existing
entries of the interface index, and the rest of the state. -/
theorem add_rtr_iface_state_kept (env : iface_env) (aenv : addr_env)
    (accept : mapping_t → locator_t → Bool) (default_rloc_afi : Int) (fresh : Nat)
    (xtr : lisp_xtr_t) (iface_name : Option String) (p w : Int) :
    (∀ m, xtr.all_locs_map = some m →
      ∃ m2, (add_rtr_iface env aenv accept default_rloc_afi fresh xtr iface_name p
          w).xtr.all_locs_map = some m2 ∧
        m2.ptr = m.ptr ∧ m2.eid = m.eid ∧ m.locators <+: m2.locators) ∧
    (xtr.all_locs_map = none →
      (add_rtr_iface env aenv accept default_rloc_afi fresh xtr iface_name p
          w).xtr.all_locs_map = none ∨
      ∃ m2, (add_rtr_iface env aenv accept default_rloc_afi fresh xtr iface_name p
          w).xtr.all_locs_map = some m2 ∧
        m2.ptr = fresh ∧
        m2.eid = (aenv.lisp_addr_ip_from_char "0.0.0.0").getD lisp_addr_t.no_addr) ∧
    ((add_rtr_iface env aenv accept default_rloc_afi fresh xtr iface_name p w).ret =
        lisp_ret.GOOD →
      ∃ m2, (add_rtr_iface env aenv accept default_rloc_afi fresh xtr iface_name p
          w).xtr.all_locs_map = some m2 ∧
        (∀ l ∈ (add_rtr_iface env aenv accept default_rloc_afi fresh xtr iface_name p
          w).created, l ∈ m2.locators) ∧
        (xtr.all_locs_map = none →
          aenv.lisp_addr_ip_from_char "0.0.0.0" = some addr_0_0_0_0 →
          m2.eid = addr_0_0_0_0 ∧
          m2.locators = (add_rtr_iface env aenv accept default_rloc_afi fresh xtr iface_name p
            w).created)) ∧
    (∀ name e, xtr.iface_locators_table name = some e →
      ∃ e2, (add_rtr_iface env aenv accept default_rloc_afi fresh xtr iface_name p
          w).xtr.iface_locators_table name = some e2 ∧
        e2.iface_name = e.iface_name ∧ (∀ x ∈ e.mappings, x ∈ e2.mappings) ∧
        e.ipv4_locators <:+ e2.ipv4_locators ∧ e.ipv6_locators <:+ e2.ipv6_locators) ∧
    (∀ name, xtr.iface_locators_table name = none →
      (add_rtr_iface env aenv accept default_rloc_afi fresh xtr iface_name p
          w).xtr.iface_locators_table name = none ∨
      iface_name = some name) ∧
    (add_rtr_iface env aenv accept default_rloc_afi fresh xtr iface_name p w).xtr.map_servers =
      xtr.map_servers ∧
    (add_rtr_iface env aenv accept default_rloc_afi fresh xtr iface_name p w).xtr.petrs_mapping =
      xtr.petrs_mapping := by
  rcases add_rtr_iface_cases env aenv accept default_rloc_afi fresh xtr iface_name p w with
    h | ⟨nm, iface, hname, h⟩
  · rw [h]
    refine ⟨?_, ?_, ?_, ?_, ?_, rfl, rfl⟩
    · intro m hm
      exact ⟨m, hm, rfl, rfl, List.prefix_refl _⟩
    · intro hn
      exact Or.inl hn
    · intro hg
      cases hg
    · intro name e he
      exact ⟨e, he, rfl, fun x hx => hx, List.suffix_refl _, List.suffix_refl _⟩
    · intro name hn
      exact Or.inl hn
  · rw [h]
    generalize hM : xtr.all_locs_map.getD (mapping_init_local fresh
      ((aenv.lisp_addr_ip_from_char "0.0.0.0").getD lisp_addr_t.no_addr)) = M0
    generalize hE : (xtr.iface_locators_table nm).getD (iface_locators_new nm) = E0
    obtain ⟨hptr, heid, hnm, hmap, hpre, hloc, h4, _, h6, _, _⟩ :=
      link_iface_and_mapping_spec accept default_rloc_afi iface E0 M0 p w p w
    refine ⟨?_, ?_, ?_, ?_, ?_, rfl, rfl⟩
    · intro m hm
      have e : M0 = m := by rw [← hM, hm]; rfl
      rw [e] at hptr heid hpre
      rw [e]
      exact ⟨_, rfl, hptr, heid, hpre⟩
    · intro hn
      have e : M0 = mapping_init_local fresh
          ((aenv.lisp_addr_ip_from_char "0.0.0.0").getD lisp_addr_t.no_addr) := by
        rw [← hM, hn]; rfl
      exact Or.inr ⟨_, rfl, hptr.trans (by rw [e]; rfl), heid.trans (by rw [e]; rfl)⟩
    · intro hg
      refine ⟨_, rfl, ?_, ?_⟩
      · intro l hl
        rw [hloc hg]
        exact List.mem_append_right _ hl
      · intro hn h0
        have e : M0 = mapping_init_local fresh addr_0_0_0_0 := by
          rw [← hM, hn, h0]; rfl
        refine ⟨heid.trans (by rw [e]; rfl), ?_⟩
        rw [hloc hg, e]
        simp [mapping_init_local]
    · intro name e he
      by_cases hnn : name = nm
      · subst hnn
        have e0 : E0 = e := by rw [← hE, he]; rfl
        refine ⟨(link_iface_and_mapping accept default_rloc_afi iface E0 M0 p w p w).if_loct,
          by simp only [Function.update_same], ?_, ?_, ?_, ?_⟩
        · rw [← e0]; exact hnm
        · intro x hx
          rw [← e0] at hx
          rw [hmap]
          split_ifs
          · exact List.mem_cons_of_mem _ hx
          · exact hx
        · rw [← e0]; exact h4
        · rw [← e0]; exact h6
      · refine ⟨e, by simp only [Function.update_noteq hnn, he], rfl, fun x hx => hx,
          List.suffix_refl _, List.suffix_refl _⟩
    · intro name hn
      by_cases hnn : name = nm
      · exact Or.inr (by rw [hname, hnn])
      · exact Or.inl (by simp only [Function.update_noteq hnn, hn])

/-- What a call of `add_rtr_iface` that gets past the argument checks and the
interface lookup leaves: the mapping of all locators exists afterwards, new if
there was none, and so does the entry of the interface. -/
theorem add_rtr_iface_creates (env : iface_env) (aenv : addr_env)
    (accept : mapping_t → locator_t → Bool) (default_rloc_afi : Int) (fresh : Nat)
    (xtr : lisp_xtr_t) (iface_name : Option String) (p w : Int) :
    ∀ name iface, iface_name = some name →
    validate_priority_weight p w = lisp_ret.GOOD →
    (env.get_interface (some name) = some iface ∨
      (env.get_interface (some name) = none ∧
        env.add_interface (some name) = some iface)) →
    ∃ m2 e2,
      (add_rtr_iface env aenv accept default_rloc_afi fresh xtr iface_name p
        w).xtr.all_locs_map = some m2 ∧
      (xtr.all_locs_map = none →
        m2.ptr = fresh ∧
        m2.eid = (aenv.lisp_addr_ip_from_char "0.0.0.0").getD lisp_addr_t.no_addr ∧
        (aenv.lisp_addr_ip_from_char "0.0.0.0" = some addr_0_0_0_0 →
          m2.eid = addr_0_0_0_0)) ∧
      ((add_rtr_iface env aenv accept default_rloc_afi fresh xtr iface_name p w).ret =
          lisp_ret.GOOD →
        m2.locators = (rtr_all_locs_map aenv fresh xtr).locators ++
          (add_rtr_iface env aenv accept default_rloc_afi fresh xtr iface_name p w).created) ∧
      ((add_rtr_iface env aenv accept default_rloc_afi fresh xtr iface_name p w).ret =
          lisp_ret.BAD →
        (add_rtr_iface env aenv accept default_rloc_afi fresh xtr iface_name p w).created ≠
          [] ∧
        m2.locators = (rtr_all_locs_map aenv fresh xtr).locators ++
          (add_rtr_iface env aenv accept default_rloc_afi fresh xtr iface_name p
            w).created.dropLast) ∧
      (xtr.all_locs_map = none → (rtr_all_locs_map aenv fresh xtr).locators = []) ∧
      (∀ m, xtr.all_locs_map = some m → rtr_all_locs_map aenv fresh xtr = m) ∧
      (add_rtr_iface env aenv accept default_rloc_afi fresh xtr iface_name p
        w).xtr.iface_locators_table name = some e2 ∧
      e2.iface_name = (rtr_if_loct xtr name).iface_name ∧ m2.ptr ∈ e2.mappings ∧
      (xtr.iface_locators_table name = none → e2.iface_name = name) := by
  intro name iface hname hv hi
  subst hname
  rw [add_rtr_iface_past env aenv accept default_rloc_afi fresh xtr p w name iface hv hi]
  obtain ⟨hptr, heid, hnm, hmap, _, hloc, _⟩ :=
    link_iface_and_mapping_spec accept default_rloc_afi iface (rtr_if_loct xtr name)
      (rtr_all_locs_map aenv fresh xtr) p w p w
  refine ⟨_, _, rfl, ?_, hloc, ?_, ?_, ?_, by simp only [Function.update_same], hnm, ?_, ?_⟩
  · intro hn
    have e : rtr_all_locs_map aenv fresh xtr = mapping_init_local fresh
        ((aenv.lisp_addr_ip_from_char "0.0.0.0").getD lisp_addr_t.no_addr) := by
      unfold rtr_all_locs_map
      rw [hn]
      rfl
    refine ⟨hptr.trans (by rw [e]; rfl), heid.trans (by rw [e]; rfl), ?_⟩
    intro h0
    rw [heid, e, h0]
    rfl
  · intro hb
    exact link_iface_and_mapping_bad accept default_rloc_afi iface (rtr_if_loct xtr name)
      (rtr_all_locs_map aenv fresh xtr) p w p w hb
  · intro hn
    unfold rtr_all_locs_map
    rw [hn]
    rfl
  · intro m hm
    unfold rtr_all_locs_map
    rw [hm]
    rfl
  · rw [hmap, hptr]
    by_cases hx : (rtr_all_locs_map aenv fresh xtr).ptr ∈ (rtr_if_loct xtr name).mappings
    · have hc : glist_contain (rtr_all_locs_map aenv fresh xtr).ptr
          (rtr_if_loct xtr name).mappings = true := by simp [glist_contain, hx]
      rw [hc]
      simpa using hx
    · have hc : glist_contain (rtr_all_locs_map aenv fresh xtr).ptr
          (rtr_if_loct xtr name).mappings = false := by simp [glist_contain, hx]
      rw [hc]
      simp
  · intro hn
    rw [hnm]
    unfold rtr_if_loct
    rw [hn]
    rfl

/-- C16, as stated, fails: when `mapping_add_locator` refuses the locator, the
call returns `BAD` after it has created the mapping of all locators and the
locator, and the created locator is not in that mapping. -/
theorem C16_refused_locator_not_in_all_locs_map :
    (add_rtr_iface iface_env_eth0_addrs addr_env_demo (fun _ _ => false) AF_UNSPEC 7 xtr_empty
        (some "eth0") 1 100).ret = lisp_ret.BAD ∧
    (add_rtr_iface iface_env_eth0_addrs addr_env_demo (fun _ _ => false) AF_UNSPEC 7 xtr_empty
        (some "eth0") 1 100).created = [iface_locator_v4 iface_eth0 1 100] ∧
    (add_rtr_iface iface_env_eth0_addrs addr_env_demo (fun _ _ => false) AF_UNSPEC 7 xtr_empty
        (some "eth0") 1 100).xtr.all_locs_map =
      some { ptr := 7, eid := addr_0_0_0_0, locators := [] } ∧
    iface_locator_v4 iface_eth0 1 100 ∉
      ({ ptr := 7, eid := addr_0_0_0_0, locators := [] } : mapping_t).locators := by
  decide

/-- C16 (amended): in `add_rtr_iface`, a mapping of all locators that exists is
kept (same object, same EID, its locators only extended); when there is none, a
call that gets past the argument checks and the interface lookup creates it,
with the EID read from the literal 0.0.0.0, whether or not the call then
succeeds, and a call that does not get that far returns `BAD` and changes
nothing.  When the call returns `GOOD`, every locator it created is in that
mapping; when it returns `BAD` after the checks, the locator created last was
refused and is not added.  An entry of the interface index that exists is kept
(same name, its lists only extended), and an entry is created only for the
given interface name when the table has none.  Nothing else of the state
changes. -/
theorem C16_add_rtr_iface_all_locs_map (env : iface_env) (aenv : addr_env)
    (accept : mapping_t → locator_t → Bool) (default_rloc_afi : Int) (fresh : Nat)
    (xtr : lisp_xtr_t) (iface_name : Option String) (p w : Int) :
    (∀ m, xtr.all_locs_map = some m →
      ∃ m2, (add_rtr_iface env aenv accept default_rloc_afi fresh xtr iface_name p
          w).xtr.all_locs_map = some m2 ∧
        m2.ptr = m.ptr ∧ m2.eid = m.eid ∧ m.locators <+: m2.locators) ∧
    (xtr.all_locs_map = none →
      (add_rtr_iface env aenv accept default_rloc_afi fresh xtr iface_name p
          w).xtr.all_locs_map = none ∨
      ∃ m2, (add_rtr_iface env aenv accept default_rloc_afi fresh xtr iface_name p
          w).xtr.all_locs_map = some m2 ∧
        m2.ptr = fresh ∧
        m2.eid = (aenv.lisp_addr_ip_from_char "0.0.0.0").getD lisp_addr_t.no_addr) ∧
    ((add_rtr_iface env aenv accept default_rloc_afi fresh xtr iface_name p w).ret =
        lisp_ret.GOOD →
      ∃ m2, (add_rtr_iface env aenv accept default_rloc_afi fresh xtr iface_name p
          w).xtr.all_locs_map = some m2 ∧
        (∀ l ∈ (add_rtr_iface env aenv accept default_rloc_afi fresh xtr iface_name p
          w).created, l ∈ m2.locators) ∧
        (xtr.all_locs_map = none →
          aenv.lisp_addr_ip_from_char "0.0.0.0" = some addr_0_0_0_0 →
          m2.eid = addr_0_0_0_0 ∧
          m2.locators = (add_rtr_iface env aenv accept default_rloc_afi fresh xtr iface_name p
            w).created)) ∧
    (∀ name e, xtr.iface_locators_table name = some e →
      ∃ e2, (add_rtr_iface env aenv accept default_rloc_afi fresh xtr iface_name p
          w).xtr.iface_locators_table name = some e2 ∧
        e2.iface_name = e.iface_name ∧ (∀ x ∈ e.mappings, x ∈ e2.mappings) ∧
        e.ipv4_locators <:+ e2.ipv4_locators ∧ e.ipv6_locators <:+ e2.ipv6_locators) ∧
    (∀ name, xtr.iface_locators_table name = none →
      (add_rtr_iface env aenv accept default_rloc_afi fresh xtr iface_name p
          w).xtr.iface_locators_table name = none ∨
      iface_name = some name) ∧
    (add_rtr_iface env aenv accept default_rloc_afi fresh xtr iface_name p w).xtr.map_servers =
      xtr.map_servers ∧
    (add_rtr_iface env aenv accept default_rloc_afi fresh xtr iface_name p w).xtr.petrs_mapping =
      xtr.petrs_mapping ∧
    ((iface_name = none ∨ validate_priority_weight p w ≠ lisp_ret.GOOD ∨
        ∃ name, iface_name = some name ∧ env.get_interface (some name) = none ∧
          env.add_interface (some name) = none) →
      add_rtr_iface env aenv accept default_rloc_afi fresh xtr iface_name p w =
        { ret := lisp_ret.BAD, xtr := xtr, created := [] }) ∧
    (∀ name iface, iface_name = some name → validate_priority_weight p w = lisp_ret.GOOD →
      (env.get_interface (some name) = some iface ∨
        (env.get_interface (some name) = none ∧
          env.add_interface (some name) = some iface)) →
      ∃ m2 e2,
        (add_rtr_iface env aenv accept default_rloc_afi fresh xtr iface_name p
          w).xtr.all_locs_map = some m2 ∧
        (xtr.all_locs_map = none →
          m2.ptr = fresh ∧
          m2.eid = (aenv.lisp_addr_ip_from_char "0.0.0.0").getD lisp_addr_t.no_addr ∧
          (aenv.lisp_addr_ip_from_char "0.0.0.0" = some addr_0_0_0_0 →
            m2.eid = addr_0_0_0_0)) ∧
        ((add_rtr_iface env aenv accept default_rloc_afi fresh xtr iface_name p w).ret =
            lisp_ret.GOOD →
          m2.locators = (rtr_all_locs_map aenv fresh xtr).locators ++
            (add_rtr_iface env aenv accept default_rloc_afi fresh xtr iface_name p w).created) ∧
        ((add_rtr_iface env aenv accept default_rloc_afi fresh xtr iface_name p w).ret =
            lisp_ret.BAD →
          (add_rtr_iface env aenv accept default_rloc_afi fresh xtr iface_name p w).created ≠
            [] ∧
          m2.locators = (rtr_all_locs_map aenv fresh xtr).locators ++
            (add_rtr_iface env aenv accept default_rloc_afi fresh xtr iface_name p
              w).created.dropLast) ∧
        (xtr.all_locs_map = none → (rtr_all_locs_map aenv fresh xtr).locators = []) ∧
        (∀ m, xtr.all_locs_map = some m → rtr_all_locs_map aenv fresh xtr = m) ∧
        (add_rtr_iface env aenv accept default_rloc_afi fresh xtr iface_name p
          w).xtr.iface_locators_table name = some e2 ∧
        e2.iface_name = (rtr_if_loct xtr name).iface_name ∧ m2.ptr ∈ e2.mappings ∧
        (xtr.iface_locators_table name = none → e2.iface_name = name)) := by
  obtain ⟨a1, a2, a3, a4, a5, a6, a7⟩ :=
    add_rtr_iface_state_kept env aenv accept default_rloc_afi fresh xtr iface_name p w
  exact ⟨a1, a2, a3, a4, a5, a6, a7,
    add_rtr_iface_early env aenv accept default_rloc_afi fresh xtr iface_name p w,
    add_rtr_iface_creates env aenv accept default_rloc_afi fresh xtr iface_name p w⟩

/-- C16 (amended) at a concrete input: the call for `eth0` on the empty state in
which `mapping_add_locator` refuses the locator gets past the checks and the
lookup; it creates the mapping of all locators at the fresh address with the EID
0.0.0.0, and the entry of `eth0`, which lists that mapping. -/
theorem C16_add_rtr_iface_all_locs_map_witness :
    ∃ m2 e2,
      (add_rtr_iface iface_env_eth0_addrs addr_env_demo (fun _ _ => false) AF_UNSPEC 7 xtr_empty
        (some "eth0") 1 100).xtr.all_locs_map = some m2 ∧
      m2.ptr = 7 ∧ m2.eid = addr_0_0_0_0 ∧
      (add_rtr_iface iface_env_eth0_addrs addr_env_demo (fun _ _ => false) AF_UNSPEC 7 xtr_empty
        (some "eth0") 1 100).xtr.iface_locators_table "eth0" = some e2 ∧
      m2.ptr ∈ e2.mappings := by
  obtain ⟨m2, e2, h1, h2, _, _, _, _, h7, _, h9, _⟩ :=
    (C16_add_rtr_iface_all_locs_map iface_env_eth0_addrs addr_env_demo (fun _ _ => false)
      AF_UNSPEC 7 xtr_empty (some "eth0") 1 100).2.2.2.2.2.2.2.2 "eth0" iface_eth0 rfl
      (by decide) (Or.inl rfl)
  exact ⟨m2, e2, h1, (h2 rfl).1, (h2 rfl).2.2 rfl, h7, h9⟩

/-! ## Timer wheel: callbacks that stop and start timers -/

/-- C18 (failing input): spoke 1 holds timer 0, timer 1 (started with `d = 4097`,
rotation counter 1) and timer 2, in this order; the callback of timer 0 stops
timer 2.  In the tick that reaches spoke 1 the walk continues behind timer 0
and timer 2 is never fired, but timer 1 is visited twice: its counter is
decremented and, in the same tick, it is unlinked and its callback invoked.
The walk takes four steps (three are not enough), where one visit for each of
timer 0, timer 1 and the sentinel would be three. -/
theorem C18_tick_visits_timer_twice_after_callback_stop :
    ∃ w1 w2 w3 w4 e,
      lmtimer_start 0 1 lmtimers_init = Except.ok w1 ∧
      lmtimer_start 1 4097 w1 = Except.ok w2 ∧
      lmtimer_start 2 1 w2 = Except.ok w3 ∧
      w3.next (spoke 1) = some (timer 0) ∧ w3.next (timer 0) = some (timer 1) ∧
      w3.next (timer 1) = some (timer 2) ∧ w3.next (timer 2) = some (spoke 1) ∧
      w3.rotation_count 0 = 0 ∧ w3.rotation_count 1 = 1 ∧ w3.rotation_count 2 = 0 ∧
      handle_timers (cb_calls (fun t _ => if t = 0 then [timer_call.stop 2] else [])) 4 w3 =
        Except.ok w4 ∧
      handle_timers (cb_calls (fun t _ => if t = 0 then [timer_call.stop 2] else [])) 3 w3 =
        Except.error (lmtimer_fault.out_of_fuel, e) ∧
      w4.fired = [0, 1] ∧ w4.rotation_count 1 = 0 ∧ w4.next (timer 1) = none ∧
      w4.next (spoke 1) = some (spoke 1) ∧ w4.running_timers = 0 :=
  ⟨_, _, _, _, _, rfl, rfl, rfl, rfl, rfl, rfl, rfl, rfl, rfl, rfl, rfl, rfl, rfl, rfl, rfl, rfl,
    rfl⟩

/-! ## Site prefixes: the claims -/

/-- C21: `build_lisp_site_prefix` returns `NULL` exactly when the EID string
neither parses as an IP prefix nor is found in the LCAF table; otherwise the
site prefix is built for the parsed prefix (or else the table entry) with the
caller's key type, key and flags, with instance ID 0 for every `iid > MAX_IID`
and with exactly `iid` for every `iid` in `0..MAX_IID`. -/
theorem C21_build_lisp_site_prefix_iid (env : addr_env) (MAX_IID : Nat) (eidstr : String)
    (iid : Nat) (key_type : Int) (key : Option String) (more_specifics proxy_reply merge : Nat)
    (lcaf_ht : String → Option lisp_addr_t) :
    ( build_lisp_site_prefix env MAX_IID eidstr iid key_type key more_specifics proxy_reply merge
        lcaf_ht = none ↔
      (env.lisp_addr_ippref_from_char eidstr = none ∧ lcaf_ht eidstr = none)) ∧
    (∀ site,
      build_lisp_site_prefix env MAX_IID eidstr iid key_type key more_specifics proxy_reply merge
        lcaf_ht = some site →
      (iid > MAX_IID → site.iid = 0) ∧ (iid ≤ MAX_IID → site.iid = iid) ∧
      (∀ a, env.lisp_addr_ippref_from_char eidstr = some a →
        lisp_site_prefix_t.eid_prefix site = a) ∧
      (env.lisp_addr_ippref_from_char eidstr = none →
        lcaf_ht eidstr = some ( lisp_site_prefix_t.eid_prefix site)) ∧
      site.key_type = key_type ∧ site.key = key ∧ site.accept_more_specifics = more_specifics ∧
      site.proxy_reply = proxy_reply ∧ site.merge = merge) := by
  have hiid : (if ((if iid > MAX_IID then 0 else iid : Nat) : Int) < 0 then 0
      else (if iid > MAX_IID then 0 else iid)) = (if iid > MAX_IID then 0 else iid) := by
    rw [if_neg]
    omega
  unfold build_lisp_site_prefix
  simp only [hiid]
  cases hp : env.lisp_addr_ippref_from_char eidstr with
  | some a =>
    simp only [lisp_site_prefix_init]
    refine ⟨by simp, ?_⟩
    intro site hs
    simp only [Option.some.injEq] at hs
    subst hs
    refine ⟨fun h => by simp [h], fun h => by simp [Nat.not_lt.mpr h], ?_, ?_, rfl, rfl, rfl,
      rfl, rfl⟩
    · intro a2 h2
      simp only [Option.some.injEq] at h2
      exact h2
    · intro h
      cases h
  | none =>
    cases hl : lcaf_ht eidstr with
    | none =>
      refine ⟨by simp, ?_⟩
      intro site hs
      cases hs
    | some l =>
      simp only [lisp_site_prefix_init]
      refine ⟨by simp, ?_⟩
      intro site hs
      simp only [Option.some.injEq] at hs
      subst hs
      refine ⟨fun h => by simp [h], fun h => by simp [Nat.not_lt.mpr h], ?_, ?_, rfl, rfl, rfl,
        rfl, rfl⟩
      · intro a2 h2
        cases h2
      · intro _
        rfl

/-! ## Timer wheel: counters -/

theorem linked_total_update (L : Nat → List Nat) (i : Nat) (l : List Nat)
    (hi : i < WHEEL_SIZE) :
    linked_total (Function.update L i l) + (L i).length = linked_total L + l.length := by
  unfold linked_total
  have hmem : i ∈ Finset.range WHEEL_SIZE := Finset.mem_range.mpr hi
  have e : (fun j => (Function.update L i l j).length) =
      Function.update (fun j => (L j).length) i l.length := by
    funext j
    by_cases hj : j = i
    · subst hj
      simp
    · simp [Function.update_noteq hj]
  rw [e, Finset.sum_update_of_mem hmem, Finset.sdiff_singleton_eq_erase]
  have h2 := Finset.add_sum_erase (Finset.range WHEEL_SIZE) (fun j => (L j).length) hmem
  simp only at h2
  omega

theorem linked_total_erase_idle (L : Nat → List Nat) (t : Nat) (h : ∀ j, t ∉ L j) :
    (fun j => (L j).erase t) = L := by
  funext j
  exact List.erase_of_not_mem (h j)

theorem linked_total_erase_linked {L : Nat → List Nat} (hl : wheel_lists L) {t i : Nat}
    (h : t ∈ L i) :
    (fun j => (L j).erase t) = Function.update L i ((L i).erase t) := by
  funext j
  by_cases hj : j = i
  · subst hj
    simp
  · rw [Function.update_noteq hj]
    apply List.erase_of_not_mem
    intro hm
    exact hj (hl.disj j i t hm h)

theorem wheel_lists_mem_lt {L : Nat → List Nat} (hl : wheel_lists L) {t i : Nat} (h : t ∈ L i) :
    i < WHEEL_SIZE := by
  by_contra hc
  rw [hl.out i (Nat.le_of_not_lt hc)] at h
  exact absurd h (List.not_mem_nil t)

theorem wheel_counted_init : wheel_counted lmtimers_init := by
  refine ⟨fun _ => [], wheel_inv_init, ?_, rfl⟩
  simp [linked_total, lmtimers_init]

/-- The call `lmtimer_start` returns and keeps the counters in agreement with the wheel. -/
theorem wheel_counted_start {w : timer_wheel_} (h : wheel_counted w) (t : Nat) (d : Int) :
    ∃ w1, lmtimer_start t d w = Except.ok w1 ∧ wheel_counted w1 := by
  obtain ⟨L, hw, hrt, hex⟩ := h
  obtain ⟨w1, hrun, hinv1, _, _, hf1, hex1, hidle, hlinked, _, _⟩ := lmtimer_start_spec hw t d
  refine ⟨w1, hrun, _, hinv1, ?_, by rw [hex1, hf1, hex]⟩
  have hpos : insert_pos w.current_spoke d < WHEEL_SIZE := by
    unfold insert_pos
    exact Nat.mod_lt _ (by decide)
  by_cases hlk : ∃ j, t ∈ L j
  · obtain ⟨i, hi⟩ := hlk
    rw [hlinked ⟨i, hi⟩, hrt]
    have e := linked_total_erase_linked hw.lists hi
    have hlt := wheel_lists_mem_lt hw.lists hi
    have h1 := linked_total_update L i ((L i).erase t) hlt
    rw [List.length_erase_of_mem hi] at h1
    have hpos1 : 0 < (L i).length := List.length_pos_of_mem hi
    have h2 := linked_total_update (Function.update L i ((L i).erase t))
      (insert_pos w.current_spoke d) ((L (insert_pos w.current_spoke d)).erase t ++ [t]) hpos
    have e3 : Function.update L i ((L i).erase t) (insert_pos w.current_spoke d) =
        (L (insert_pos w.current_spoke d)).erase t := by
      rw [← e]
    rw [e3, List.length_append, List.length_singleton] at h2
    rw [e]
    have : linked_total (Function.update (Function.update L i ((L i).erase t))
        (insert_pos w.current_spoke d) ((L (insert_pos w.current_spoke d)).erase t ++ [t])) =
        linked_total L := by omega
    rw [this]
  · have hno : ∀ j, t ∉ L j := fun j hm => hlk ⟨j, hm⟩
    rw [hidle hno, hrt, linked_total_erase_idle L t hno]
    have h2 := linked_total_update L (insert_pos w.current_spoke d)
      ((L (insert_pos w.current_spoke d)).erase t ++ [t]) hpos
    rw [List.erase_of_not_mem (hno _), List.length_append, List.length_singleton] at h2
    rw [List.erase_of_not_mem (hno _)]
    have : linked_total (Function.update L (insert_pos w.current_spoke d)
        (L (insert_pos w.current_spoke d) ++ [t])) = linked_total L + 1 := by omega
    rw [this]
    push_cast
    rfl

/-- The call `lmtimer_stop` keeps the counters in agreement with the wheel. -/
theorem wheel_counted_stop {w : timer_wheel_} (h : wheel_counted w) (u : Nat) :
    wheel_counted (lmtimer_stop (some u) w) := by
  obtain ⟨L, hw, hrt, hex⟩ := h
  by_cases hlk : ∃ i, u ∈ L i
  · obtain ⟨i, hui⟩ := hlk
    obtain ⟨l1, l2, hL⟩ := List.append_of_mem hui
    obtain ⟨hinv1, hrt1, hf1, _, _, hex1⟩ := lmtimer_stop_linked hw hL
    refine ⟨_, hinv1, ?_, by rw [hex1, hf1, hex]⟩
    have h1 := linked_total_update L i (l1 ++ l2) (wheel_lists_mem_lt hw.lists hui)
    rw [hL] at h1
    simp only [List.length_append, List.length_cons] at h1
    rw [hrt1, hrt]
    have : linked_total L = linked_total (Function.update L i (l1 ++ l2)) + 1 := by omega
    rw [this]
    push_cast
    omega
  · have hno : ∀ j, u ∉ L j := fun j hm => hlk ⟨j, hm⟩
    obtain ⟨h1, h2⟩ := hw.idle u hno
    rw [lmtimer_stop_idle w u h1 h2]
    exact ⟨L, hw, hrt, hex⟩

theorem wheel_counted_run_calls (cs : List timer_call) :
    ∀ w, wheel_counted w → ∃ w1, run_calls cs w = Except.ok w1 ∧ wheel_counted w1 := by
  induction cs with
  | nil => intro w h; exact ⟨w, rfl, h⟩
  | cons c cs ih =>
    intro w h
    cases c with
    | start u d =>
      obtain ⟨w1, hrun1, h1⟩ := wheel_counted_start h u d
      obtain ⟨w2, hrun2, h2⟩ := ih w1 h1
      exact ⟨w2, by simp only [run_calls, hrun1]; exact hrun2, h2⟩
    | stop u =>
      obtain ⟨w2, hrun2, h2⟩ := ih _ (wheel_counted_stop h u)
      exact ⟨w2, by simp only [run_calls]; exact hrun2, h2⟩

/-- The walk over a spoke, with callbacks that start and stop timers: at every
point of the walk (whether it has returned or is out of fuel) the counters
agree with the wheel. -/
theorem wheel_counted_loop (f : Nat → timer_wheel_ → List timer_call) (cur : Nat)
    (hcur : cur < WHEEL_SIZE) :
    ∀ (fuel : Nat) (w : timer_wheel_), wheel_counted w →
      wheel_counted
        (reached (handle_timers_loop (cb_calls f) cur fuel (w.next (spoke cur)) w)) := by
  intro fuel
  induction fuel with
  | zero => intro w h; exact h
  | succ k ih =>
    intro w h
    obtain ⟨L, hw, hrt, hex⟩ := h
    cases hL : L cur with
    | nil =>
      have hseg := hw.segs cur hcur
      rw [hL] at hseg
      rw [hseg.1, handle_timers_loop_done]
      exact ⟨L, hw, hrt, hex⟩
    | cons u l =>
      have hL0 : L cur = [] ++ u :: l := hL
      obtain ⟨hpv, hnx⟩ := wheel_segs_links hw.segs hcur hL0
      have hstart : w.next (spoke cur) = some (timer u) := by
        have := dll_seg_next_start (hw.segs cur hcur)
        rw [hL] at this
        exact this
      rw [hstart]
      by_cases hr : 0 < w.rotation_count u
      · rw [handle_timers_loop_dec _ cur k w u (spoke cur) hr hpv]
        obtain ⟨w1, hw1⟩ : ∃ w1 : timer_wheel_, w1 = { w with
            rotation_count := Function.update w.rotation_count u (w.rotation_count u - 1) } :=
          ⟨_, rfl⟩
        have hc1 : wheel_counted w1 := by
          rw [hw1]
          exact ⟨L, ⟨hw.spokes, hw.cur, hw.lists, hw.segs, hw.idle⟩, hrt, hex⟩
        have hnx1 : w1.next = w.next := by rw [hw1]
        rw [← hw1, ← hnx1]
        exact ih w1 hc1
      · obtain ⟨w1, hw1⟩ : ∃ w1 : timer_wheel_, w1 = { w with
            next := Function.update (Function.update w.next (spoke cur)
              (some (seg_first l (spoke cur)))) (timer u) none
            prev := Function.update (Function.update w.prev (seg_first l (spoke cur))
              (some (spoke cur))) (timer u) none
            running_timers := w.running_timers - 1
            expirations := w.expirations + 1
            fired := w.fired ++ [u] } := ⟨_, rfl⟩
        have hinv1 : wheel_inv w1 (Function.update L cur l) :=
          wheel_inv_unlink hw hL0 (by rw [hw1]) (by rw [hw1]) (by rw [hw1]; rfl)
            (by rw [hw1]; rfl)
        have hc1 : wheel_counted w1 := by
          refine ⟨_, hinv1, ?_, ?_⟩
          · have h1 := linked_total_update L cur l hcur
            rw [hL, List.length_cons] at h1
            have e : w1.running_timers = w.running_timers - 1 := by rw [hw1]
            rw [e, hrt]
            have : linked_total L = linked_total (Function.update L cur l) + 1 := by omega
            rw [this]
            push_cast
            omega
          · have e1 : w1.expirations = w.expirations + 1 := by rw [hw1]
            have e2 : w1.fired = w.fired ++ [u] := by rw [hw1]
            rw [e1, e2, hex, List.length_append, List.length_singleton]
            push_cast
            rfl
        obtain ⟨w2, hcb, hc2⟩ := wheel_counted_run_calls (f u w1) w1 hc1
        rw [handle_timers_loop_fire (cb_calls f) cur k w w2 u (spoke cur) (seg_first l (spoke cur))
          (by omega) hpv hnx (by rw [← hw1]; exact hcb)]
        exact ih _ hc2

theorem wheel_counted_tick (f : Nat → timer_wheel_ → List timer_call) (fuel : Nat)
    (w : timer_wheel_) (h : wheel_counted w) :
    wheel_counted (reached (handle_timers (cb_calls f) fuel w)) := by
  obtain ⟨L, hw, hrt, hex⟩ := h
  have hns : w.num_spokes ≠ 0 := by rw [hw.spokes]; decide
  have hlt : (w.current_spoke + 1) % WHEEL_SIZE < WHEEL_SIZE := Nat.mod_lt _ (by decide)
  obtain ⟨w1, hw1⟩ : ∃ w1 : timer_wheel_, w1 = { w with
      current_spoke := (w.current_spoke + 1) % w.num_spokes } := ⟨_, rfl⟩
  have hc1 : w1.current_spoke = (w.current_spoke + 1) % WHEEL_SIZE := by
    rw [hw1, ← hw.spokes]
  have h1 : wheel_counted w1 := by
    refine ⟨L, ⟨?_, hc1 ▸ hlt, hw.lists, ?_, ?_⟩, ?_, ?_⟩
    · rw [hw1]; exact hw.spokes
    · rw [hw1]; exact hw.segs
    · rw [hw1]; exact hw.idle
    · rw [hw1]; exact hrt
    · rw [hw1]; exact hex
  have hnx : w1.next = w.next := by rw [hw1]
  have h2 := wheel_counted_loop f _ hlt fuel w1 h1
  simp only [handle_timers, hns, if_false]
  rw [← hw1, hw.spokes, ← hnx]
  exact h2

theorem wheel_counted_run_ops (f : Nat → timer_wheel_ → List timer_call) (fuel : Nat)
    (ops : List wheel_op) :
    ∀ w, wheel_counted w → wheel_counted (reached (run_ops (cb_calls f) fuel ops w)) := by
  induction ops with
  | nil => intro w h; exact h
  | cons op ops ih =>
    intro w h
    cases op with
    | start u d =>
      obtain ⟨w1, hrun1, h1⟩ := wheel_counted_start h u d
      simp only [run_ops, hrun1]
      exact ih w1 h1
    | stop u =>
      simp only [run_ops]
      exact ih _ (wheel_counted_stop h u)
    | tick =>
      have h1 := wheel_counted_tick f fuel w h
      simp only [run_ops]
      cases hr : handle_timers (cb_calls f) fuel w with
      | error e =>
        rw [hr] at h1
        exact h1
      | ok w1 =>
        rw [hr] at h1
        exact ih w1 h1

/-- C22: in every state reached from `lmtimers_init` by any sequence of
`lmtimer_start`, `lmtimer_stop` and `handle_timers` (with callbacks that may
themselves start and stop timers, and up to wherever a tick gets),
`running_timers` equals the number of timers linked on the 4096 spokes and
`expirations` equals the number of callbacks invoked so far. -/
theorem C22_counters_agree_with_wheel (f : Nat → timer_wheel_ → List timer_call) (fuel : Nat)
    (ops : List wheel_op) :
    ∃ L, wheel_inv (reached (run_ops (cb_calls f) fuel ops lmtimers_init)) L ∧
      (reached (run_ops (cb_calls f) fuel ops lmtimers_init)).running_timers =
        (Finset.sum (Finset.range 4096) (fun j => (L j).length) : Nat) ∧
      (reached (run_ops (cb_calls f) fuel ops lmtimers_init)).expirations =
        ((reached (run_ops (cb_calls f) fuel ops lmtimers_init)).fired.length : Nat) :=
  wheel_counted_run_ops f fuel ops lmtimers_init wheel_counted_init

/-! ## Timer wheel: restart, and ticks whose callbacks start timers -/

/-- C23 (restart on every well-formed wheel): for a timer `t` that is linked and
every duration `d2`, `lmtimer_start(t, d2)` returns; afterwards the wheel is
well formed (no timer occurs twice), `t` occurs exactly once, on the spoke
computed from `d2`, `running_timers` is unchanged, and the earlier deadline is
forgotten: with callbacks that do not touch the wheel `t` is not fired in the
first `first_visit d2 - 1` ticks after the restart and is fired exactly once in
tick `first_visit d2 = ((d2 - 1) mod 4096) + 1`, which is `d2` only for
`1 <= d2 <= 4096`. -/
theorem C23_restart_moves_and_fires_at_first_visit (w : timer_wheel_) (L : Nat → List Nat)
    (t i : Nat) (d2 : Int) (hw : wheel_inv w L) (hi : t ∈ L i) :
    ∃ w1 L1, lmtimer_start t d2 w = Except.ok w1 ∧ wheel_inv w1 L1 ∧
      L1 = Function.update (fun j => (L j).erase t) (insert_pos w.current_spoke d2)
        ((L (insert_pos w.current_spoke d2)).erase t ++ [t]) ∧
      (∀ j, (L1 j).count t = if j = insert_pos w.current_spoke d2 then 1 else 0) ∧
      w1.running_timers = w.running_timers ∧
      w1.rotation_count t = insert_rot d2 ∧
      (∀ k, ∃ N w2 extra,
        (∀ fuel, N ≤ fuel → handle_timers_n cb_skip fuel k w1 = Except.ok w2) ∧
        w2.fired = w.fired ++ extra ∧
        (k < first_visit d2 → t ∉ extra) ∧ (first_visit d2 ≤ k → extra.count t = 1)) ∧
      ((1 ≤ d2 ∧ d2 ≤ 4096) → (first_visit d2 : Int) = d2) := by
  obtain ⟨w1, hrun, hinv1, _, _, _, _, _, hlinked, _, _⟩ := lmtimer_start_spec hw t d2
  obtain ⟨w1', hrun', hrot, _, hk⟩ := lmtimer_fires_at_first_visit hw t d2
  have hw11 : w1' = w1 := by
    rw [hrun] at hrun'
    cases hrun'
    rfl
  subst hw11
  refine ⟨w1', _, hrun, hinv1, rfl, ?_, hlinked ⟨i, hi⟩, hrot, hk, ?_⟩
  · intro j
    have hmem : t ∈ Function.update (fun j => (L j).erase t) (insert_pos w.current_spoke d2)
        ((L (insert_pos w.current_spoke d2)).erase t ++ [t]) (insert_pos w.current_spoke d2) := by
      rw [Function.update_same]
      exact List.mem_append_right _ (List.mem_singleton_self _)
    by_cases hj : j = insert_pos w.current_spoke d2
    · rw [if_pos hj, hj]
      exact List.count_eq_one_of_mem (hinv1.lists.nodup _) hmem
    · rw [if_neg hj]
      apply List.count_eq_zero_of_not_mem
      intro hm
      exact hj (hinv1.lists.disj _ _ t hm hmem)
  · rintro ⟨h1, h2⟩
    unfold first_visit to_uint32 WHEEL_SIZE
    omega

/-- C23 (failing input): timer 0, linked with duration 1 on the freshly
initialised wheel, is restarted with `d2 = 5000`; `running_timers` stays as it
was, the timer is not fired during the first 903 ticks after the restart and
is fired in tick 904, not in tick 5000. -/
theorem C23_restart_moves_and_fires_at_first_visit_witness :
    ∃ w1 L1, lmtimer_start 0 5000 wheel_one_timer = Except.ok w1 ∧ wheel_inv w1 L1 ∧
      w1.running_timers = wheel_one_timer.running_timers ∧
      (∃ N w2 extra,
        (∀ fuel, N ≤ fuel → handle_timers_n cb_skip fuel 903 w1 = Except.ok w2) ∧
        w2.fired = wheel_one_timer.fired ++ extra ∧ 0 ∉ extra) ∧
      (∃ N w2 extra,
        (∀ fuel, N ≤ fuel → handle_timers_n cb_skip fuel 904 w1 = Except.ok w2) ∧
        w2.fired = wheel_one_timer.fired ++ extra ∧ extra.count 0 = 1) := by
  obtain ⟨w1, L1, h1, h2, _, _, h5, _, hk, _⟩ :=
    C23_restart_moves_and_fires_at_first_visit wheel_one_timer
      (Function.update (fun _ => []) 1 [0]) 0 1 5000 wheel_inv_one_timer (by simp)
  have hfv : first_visit 5000 = 904 := by decide
  refine ⟨w1, L1, h1, h2, h5, ?_, ?_⟩
  · obtain ⟨N, w2, extra, a1, a2, a3, _⟩ := hk 903
    exact ⟨N, w2, extra, a1, a2, a3 (by rw [hfv]; decide)⟩
  · obtain ⟨N, w2, extra, a1, a2, _, a4⟩ := hk 904
    exact ⟨N, w2, extra, a1, a2, a4 (by rw [hfv])⟩

/-- A timer that is unlinked on the current spoke and restarted with duration
4096 is back on the current spoke, alone, with one rotation left. -/
theorem restart_4096_on_current (c t : Nat) (w : timer_wheel_)
    (h : alone_on_current c t w) :
    ∃ w2, lmtimer_start t 4096 { w with
        next := Function.update (Function.update w.next (spoke c) (some (spoke c))) (timer t) none
        prev := Function.update (Function.update w.prev (spoke c) (some (spoke c))) (timer t) none
        running_timers := w.running_timers - 1
        expirations := w.expirations + 1
        fired := w.fired ++ [t] } = Except.ok w2 ∧
      alone_on_current c t w2 ∧ w2.rotation_count t = 1 ∧ w2.fired = w.fired ++ [t] := by
  obtain ⟨hns, hc, hlt, h1, h2, h3, h4, h5⟩ := h
  have hne : (timer t : lmtimer_ref) ≠ spoke c := by intro h; cases h
  have e1 : to_uint32 4096 = 4096 := by decide
  have hpos : ((c + to_uint32 4096 % (4096 % 4294967296)) % 4294967296) %
      (4096 % 4294967296) = c := by
    rw [e1]
    simp only [WHEEL_SIZE] at hlt
    simp only [Nat.reduceMod, Nat.add_zero]
    omega
  obtain ⟨w1, hw1⟩ : ∃ w1 : timer_wheel_, w1 = { w with
        next := Function.update (Function.update w.next (spoke c) (some (spoke c))) (timer t) none
        prev := Function.update (Function.update w.prev (spoke c) (some (spoke c))) (timer t) none
        running_timers := w.running_timers - 1
        expirations := w.expirations + 1
        fired := w.fired ++ [t] } := ⟨_, rfl⟩
  have f1 : w1.next (timer t) = none := by rw [hw1]; simp
  have f2 : w1.prev (spoke c) = some (spoke c) := by
    rw [hw1]; simp [Function.update_noteq hne.symm]
  have f3 : w1.num_spokes = 4096 := by rw [hw1]; exact hns
  have f4 : w1.current_spoke = c := by rw [hw1]; exact hc
  have f5 : w1.fired = w.fired ++ [t] := by rw [hw1]
  rw [← hw1]
  have key : lmtimer_start t 4096 w1 = Except.ok
      { w1 with
        duration := Function.update w1.duration t 4096
        rotation_count := Function.update w1.rotation_count t 1
        next := Function.update (Function.update w1.next (timer t) (some (spoke c))) (spoke c)
          (some (timer t))
        prev := Function.update (Function.update w1.prev (timer t) (some (spoke c))) (spoke c)
          (some (timer t))
        running_timers := w1.running_timers + 1 } := by
    have hp2 : c % 4294967296 % 4096 = c := by
      simp only [WHEEL_SIZE] at hlt
      omega
    simp only [lmtimer_start, f1, insert_timer, f3, f4, Function.update_same, hpos, f2, e1]
    simp [hp2, f2]
  refine ⟨_, key, ⟨f3.trans rfl, f4, hlt, ?_, ?_, ?_, ?_, ?_⟩, ?_, f5⟩
  · simp
  · simp [Function.update_noteq hne]
  · simp [Function.update_noteq hne]
  · simp
  · simp
  · simp

/-- The walk over the current spoke never returns when it holds one timer whose
callback restarts that timer with duration 4096: whatever the fuel, the loop is
still running when the fuel is used up, and the number of callbacks invoked
grows with the fuel. -/
theorem restart_4096_loop_never_returns (c t : Nat) :
    ∀ (fuel : Nat) (w : timer_wheel_), alone_on_current c t w →
      ∃ e, handle_timers_loop (cb_calls (fun u _ => [timer_call.start u 4096])) c fuel
          (some (timer t)) w = Except.error (lmtimer_fault.out_of_fuel, e) ∧
        (w.rotation_count t = 0 → w.fired.length + (fuel + 1) / 2 ≤ e.fired.length) ∧
        w.fired.length + fuel / 2 ≤ e.fired.length := by
  intro fuel
  induction fuel with
  | zero =>
    intro w _
    exact ⟨w, by simp [handle_timers_loop], fun _ => by simp, by simp⟩
  | succ k ih =>
    intro w h
    obtain ⟨hns, hc, hlt, h1, h2, h3, h4, h5⟩ := h
    by_cases hr : 0 < w.rotation_count t
    · rw [handle_timers_loop_dec _ c k w t (spoke c) hr h3]
      obtain ⟨w1, hw1⟩ : ∃ w1 : timer_wheel_, w1 = { w with
          rotation_count := Function.update w.rotation_count t (w.rotation_count t - 1) } :=
        ⟨_, rfl⟩
      have hrot1 : w1.rotation_count t = 0 := by
        rw [hw1]
        simp only [Function.update_same]
        omega
      have ha1 : alone_on_current c t w1 := by
        refine ⟨?_, ?_, hlt, ?_, ?_, ?_, ?_, by omega⟩
        · rw [hw1]; exact hns
        · rw [hw1]; exact hc
        · rw [hw1]; exact h1
        · rw [hw1]; exact h2
        · rw [hw1]; exact h3
        · rw [hw1]; exact h4
      have hf1 : w1.fired = w.fired := by rw [hw1]
      have hn1 : w.next (spoke c) = some (timer t) := h1
      rw [← hw1, hn1]
      obtain ⟨e, he, hb1, _⟩ := ih w1 ha1
      refine ⟨e, he, fun h0 => by omega, ?_⟩
      have := hb1 hrot1
      rw [hf1] at this
      exact this
    · have hr0 : w.rotation_count t = 0 := by omega
      obtain ⟨w2, hrun, ha2, _, hf2⟩ :=
        restart_4096_on_current c t w ⟨hns, hc, hlt, h1, h2, h3, h4, h5⟩
      have hn2 : w2.next (spoke c) = some (timer t) := ha2.2.2.2.1
      rw [handle_timers_loop_fire _ c k w w2 t (spoke c) (spoke c) hr0 h3 h2
        (by simp only [cb_calls, run_calls, hrun]), hn2]
      obtain ⟨e, he, _, hb2⟩ := ih w2 ha2
      rw [hf2, List.length_append, List.length_singleton] at hb2
      exact ⟨e, he, fun _ => by omega, by omega⟩

/-- C24 (failing input): timer 0 is started with duration 1 on the freshly
initialised wheel and its callback restarts it with duration 4096 (a duration
`d >= 1`).  The restarted timer lands on the current spoke and is fired again in
the same tick, and so on: whatever the fuel, `handle_timers` has not returned
when the fuel is used up, and at least `fuel / 2` callbacks have been invoked.
With a callback of timer 0 that starts another timer, timer 1, with duration
4096, the tick returns, but timer 1, started during the tick, has been fired
within that tick. -/
theorem C24_tick_does_not_return_after_restart_4096 :
    (∀ fuel, ∃ e,
      handle_timers (cb_calls (fun u _ => [timer_call.start u 4096])) fuel wheel_one_timer =
        Except.error (lmtimer_fault.out_of_fuel, e) ∧
      fuel ≤ 2 * e.fired.length ∧ wheel_one_timer.fired = []) ∧
    (∃ w2,
      handle_timers (cb_calls (fun u _ => if u = 0 then [timer_call.start 1 4096] else [])) 4
        wheel_one_timer = Except.ok w2 ∧
      w2.fired = [0, 1] ∧ w2.running_timers = 0) := by
  constructor
  · intro fuel
    obtain ⟨w1, hw1⟩ : ∃ w1 : timer_wheel_, w1 = { wheel_one_timer with
        current_spoke := (wheel_one_timer.current_spoke + 1) % wheel_one_timer.num_spokes } :=
      ⟨_, rfl⟩
    have ha : alone_on_current 1 0 w1 := by
      rw [hw1]
      exact ⟨rfl, rfl, by decide, rfl, rfl, rfl, rfl, by decide⟩
    have hf : w1.fired = [] := by rw [hw1]; rfl
    have hr : w1.rotation_count 0 = 0 := by rw [hw1]; rfl
    obtain ⟨e, he, hb, _⟩ := restart_4096_loop_never_returns 1 0 fuel w1 ha
    have hb' := hb hr
    rw [hf] at hb'
    simp only [List.length_nil, Nat.zero_add] at hb'
    refine ⟨e, ?_, by omega, rfl⟩
    have hrun : handle_timers (cb_calls (fun u _ => [timer_call.start u 4096])) fuel
        wheel_one_timer =
        handle_timers_loop (cb_calls (fun u _ => [timer_call.start u 4096])) 1 fuel
          (some (timer 0)) w1 := by
      rw [hw1]
      rfl
    rw [hrun]
    exact he
  · exact ⟨_, rfl, rfl, rfl⟩

end Lispmob
